import Mathlib

/-!
# Event booking system: checkout and capture

A shallow embedding of `server/routes/checkout.js` (order creation and payment
capture) together with the parts of the JavaScript runtime those handlers use:
truthiness, `ToNumber`, `ToString`, `parseInt`, `parseFloat`, multiplication and
`Number.prototype.toFixed(2)`.

A number is kept as the exact decimal `m / 10 ^ e` of its value. Every finite binary64
value is such a decimal, and the operations round their exact result to the nearest
binary64 value, ties to even, as the runtime does.
-/

set_option maxRecDepth 100000

namespace EventBooking

/-! ## JavaScript values -/

/-- A JavaScript number: `NaN`, an infinity, or the finite decimal `m / 10 ^ e`. -/
inductive JSNum where
  | nan : JSNum
  | inf (neg : Bool) : JSNum
  | fin (m : Int) (e : Nat) : JSNum
  deriving DecidableEq, Repr

/-- The scalar values a JSON request body or a decoded `custom_id` field can hold,
plus `undefined` for an absent key. `num x` is the number written `x`; its value as a
JavaScript number is the binary64 value nearest to `x`. -/
inductive JSVal where
  | undefined : JSVal
  | null : JSVal
  | bool (b : Bool) : JSVal
  | num (x : JSNum) : JSVal
  | str (s : String) : JSVal
  deriving DecidableEq, Repr

/-- Whether a number is `NaN`. -/
def JSNum.isNaN : JSNum → Bool
  | .nan => true
  | _ => false

/-- Whether a number is zero (`+0` or `-0`). -/
def JSNum.isZero : JSNum → Bool
  | .fin m _ => m == 0
  | _ => false

/-- Rounds `p / q` to the nearest integer, to the even one on a tie. -/
def roundHalfEven (p q : Nat) : Nat :=
  let n := p / q
  let r := p % q
  if 2 * r < q then n else if q < 2 * r then n + 1 else if n % 2 = 0 then n else n + 1

/-- The number of times `n` can be halved before it is below 2, with `fuel` steps at most:
the position of the leading bit of `n`. -/
def bitsBelow : Nat → Nat → Nat
  | 0, _ => 0
  | fuel + 1, n => if n < 2 then 0 else bitsBelow fuel (n / 2) + 1

/-- The exponent `k` with `2 ^ k ≤ a / b < 2 ^ (k + 1)`, for positive `a` and `b`. -/
def floorLog2 (a b : Nat) : Int :=
  let d : Int := (bitsBelow a a : Int) - (bitsBelow b b : Int)
  if (if 0 ≤ d then decide (b * 2 ^ d.toNat ≤ a) else decide (b ≤ a * 2 ^ (-d).toNat)) then d
  else d - 1

/-- The binary64 value nearest to the positive decimal `a / 10 ^ e`, as the significand `n`
and the exponent `E` of the value `n * 2 ^ E`: the significand has 53 bits, or fewer at
the least exponent -1074; `none` when the value rounds to infinity, that is when it
reaches `2 ^ 1024`. -/
def nearest64 (a e : Nat) : Option (Nat × Int) :=
  let b := 10 ^ e
  let k := floorLog2 a b
  let E : Int := max k (-1022) - 52
  let n := if 0 ≤ E then roundHalfEven a (b * 2 ^ E.toNat)
    else roundHalfEven (a * 2 ^ (-E).toNat) b
  if 0 ≤ E ∧ (2 ^ 128) ^ 8 ≤ n * 2 ^ E.toNat then none else some (n, E)

/-- The JavaScript number a decimal denotes: the binary64 value nearest to it, ties to
even. A decimal that is a binary64 value is returned as it is written; any other is
returned as the decimal of `n * 2 ^ E`. The sign of a zero is not kept. -/
def toBinary64 : JSNum → JSNum
  | .fin m e =>
    if m == 0 then .fin m e
    else
      match nearest64 m.natAbs e with
      | none => .inf (decide (m < 0))
      | some (n, E) =>
        if 0 ≤ E then
          if n * 2 ^ E.toNat * 10 ^ e == m.natAbs then .fin m e
          else .fin (if m < 0 then -((n * 2 ^ E.toNat : Nat) : Int)
            else ((n * 2 ^ E.toNat : Nat) : Int)) 0
        else
          if n * 10 ^ e == m.natAbs * 2 ^ (-E).toNat then .fin m e
          else .fin (if m < 0 then -((n * 5 ^ (-E).toNat : Nat) : Int)
            else ((n * 5 ^ (-E).toNat : Nat) : Int)) (-E).toNat
  | x => x

/-- Whether two numbers have the same value, however their decimals are written. -/
def JSNum.sameValue : JSNum → JSNum → Bool
  | .nan, .nan => true
  | .inf a, .inf b => a == b
  | .fin m e, .fin n f => m * 10 ^ f == n * 10 ^ e
  | _, _ => false

/-- JavaScript `-x` on numbers. -/
def JSNum.neg : JSNum → JSNum
  | .nan => .nan
  | .inf b => .inf (!b)
  | .fin m e => .fin (-m) e

/-- JavaScript `ToBoolean`: the value of `x` in `!x` is the negation of this. -/
def truthy : JSVal → Bool
  | .undefined => false
  | .null => false
  | .bool b => b
  | .num x => !((toBinary64 x).isNaN || (toBinary64 x).isZero)
  | .str s => s != ""

/-- The characters `trim`, `parseInt` and `parseFloat` skip as white space. -/
def isJSWhite (c : Char) : Bool :=
  let n := c.toNat
  n == 9 || n == 10 || n == 11 || n == 12 || n == 13 || n == 32 || n == 160 ||
  n == 5760 || (8192 ≤ n && n ≤ 8202) || n == 8232 || n == 8233 || n == 8239 ||
  n == 8287 || n == 12288 || n == 65279

/-- The value of a digit character in the given radix, if it is one. -/
def digitVal (radix : Nat) (c : Char) : Option Nat :=
  let n := c.toNat
  let v := if 48 ≤ n && n ≤ 57 then some (n - 48)
    else if 97 ≤ n && n ≤ 122 then some (n - 87)
    else if 65 ≤ n && n ≤ 90 then some (n - 55)
    else none
  match v with
  | some d => if d < radix then some d else none
  | none => none

/-- Reads the longest run of radix digits at the front of `cs`, accumulating into
`acc`; returns the value, the number of digits read and the rest. -/
def readDigits (radix : Nat) : List Char → Nat → Nat → Nat × Nat × List Char
  | [], acc, k => (acc, k, [])
  | c :: cs, acc, k =>
    match digitVal radix c with
    | some d => readDigits radix cs (acc * radix + d) (k + 1)
    | none => (acc, k, c :: cs)

/-- Removes a leading sign, returning whether it was a minus. -/
def readSign : List Char → Bool × List Char
  | '-' :: cs => (true, cs)
  | '+' :: cs => (false, cs)
  | cs => (false, cs)

/-- The integer a binary64 value holds, when it is finite. -/
def JSNum.toInt? : JSNum → Option Int
  | .fin m e => some (m / 10 ^ e)
  | _ => none

/-- JavaScript `parseInt(s)` with no radix argument: the binary64 value nearest to the
integer read; `none` stands for `NaN`.
Modelled from the spec: `src/utils/models.js` is not among the sources; the counts this
result is stored in are kept as integers, so an integer of `2 ^ 1024` or more, which the
runtime reads as `Infinity`, is `none` as well. -/
def parseInt (s : String) : Option Int :=
  let cs := s.toList.dropWhile isJSWhite
  let (neg, cs) := readSign cs
  let (radix, cs) := match cs with
    | '0' :: 'x' :: rest => (16, rest)
    | '0' :: 'X' :: rest => (16, rest)
    | _ => (10, cs)
  let (v, k, _) := readDigits radix cs 0 0
  if k == 0 then none else (toBinary64 (.fin (if neg then -(v : Int) else (v : Int)) 0)).toInt?

/-- The exponent part `e[+-]digits` at the front of `cs`, if present. -/
def readExponent : List Char → Int × List Char
  | c :: cs =>
    if c == 'e' || c == 'E' then
      let (neg, ds) := readSign cs
      let (v, k, rest) := readDigits 10 ds 0 0
      if k == 0 then (0, c :: cs) else (if neg then -(v : Int) else (v : Int), rest)
    else (0, c :: cs)
  | [] => (0, [])

/-- The finite decimal `m * 10 ^ x / 10 ^ e`. -/
def scaleDecimal (m : Int) (e : Nat) (x : Int) : JSNum :=
  let d : Int := (e : Int) - x
  if 0 ≤ d then .fin m d.toNat else .fin (m * 10 ^ (-d).toNat) 0

/-- The longest prefix of `cs` that is a signed decimal literal (`StrDecimalLiteral`),
with the binary64 value nearest to it and the unread rest; `none` when no prefix is one. -/
def readDecimal (cs : List Char) : Option (JSNum × List Char) :=
  let (neg, cs) := readSign cs
  if "Infinity".toList.isPrefixOf cs then some (.inf neg, cs.drop 8)
  else
    let (a, ka, r1) := readDigits 10 cs 0 0
    let (b, kb, r2) := match r1 with
      | '.' :: fs =>
        let (v, k, rest) := readDigits 10 fs a 0
        if ka == 0 && k == 0 then (a, 0, r1) else (v, k, rest)
      | _ => (a, 0, r1)
    if ka == 0 && kb == 0 then none
    else
      let (x, r3) := readExponent r2
      some (toBinary64 (scaleDecimal (if neg then -(b : Int) else (b : Int)) kb x), r3)

/-- JavaScript `parseFloat(s)`. -/
def parseFloat (s : String) : JSNum :=
  match readDecimal (s.toList.dropWhile isJSWhite) with
  | some (x, _) => x
  | none => .nan

/-- JavaScript `StringToNumber`, the conversion `ToNumber` applies to a string. -/
def stringToNumber (s : String) : JSNum :=
  let cs := ((s.toList.dropWhile isJSWhite).reverse.dropWhile isJSWhite).reverse
  let whole (radix : Nat) (ds : List Char) : JSNum :=
    match readDigits radix ds 0 0 with
    | (v, k, []) => if k == 0 then .nan else toBinary64 (.fin v 0)
    | _ => .nan
  match cs with
  | [] => .fin 0 0
  | '0' :: 'x' :: ds => whole 16 ds
  | '0' :: 'X' :: ds => whole 16 ds
  | '0' :: 'o' :: ds => whole 8 ds
  | '0' :: 'O' :: ds => whole 8 ds
  | '0' :: 'b' :: ds => whole 2 ds
  | '0' :: 'B' :: ds => whole 2 ds
  | _ =>
    match readDecimal cs with
    | some (x, []) => x
    | _ => .nan

/-- JavaScript `ToNumber`. -/
def toNumber : JSVal → JSNum
  | .undefined => .nan
  | .null => .fin 0 0
  | .bool b => .fin (if b then 1 else 0) 0
  | .num x => toBinary64 x
  | .str s => stringToNumber s

/-- JavaScript `x * y` on numbers: the binary64 value nearest to the exact product of two
binary64 values. -/
def jsMul : JSNum → JSNum → JSNum
  | .nan, _ => .nan
  | _, .nan => .nan
  | .inf a, .inf b => .inf (a != b)
  | .inf a, .fin m _ => if m == 0 then .nan else .inf (a != decide (m < 0))
  | .fin m _, .inf b => if m == 0 then .nan else .inf (decide (m < 0) != b)
  | .fin m e, .fin n f => toBinary64 (.fin (m * n) (e + f))

/-- Drops the zeros at the end of a digit list, counting them. -/
def stripZeros (ds : List Char) : List Char × Nat :=
  let z := (ds.reverse.takeWhile (· == '0')).length
  (ds.take (ds.length - z), z)

/-- The text `Number::toString` writes for the digits `ds` and the exponent `n`, which
stand for the value `0.ds * 10 ^ n`: the digits with zeros appended, with a point inside,
after `0.` and zeros, or with an exponent part. -/
def formatDigits (ds : List Char) (n : Int) : String :=
  let k : Int := ds.length
  if k ≤ n ∧ n ≤ 21 then String.mk (ds ++ List.replicate (n - k).toNat '0')
  else if 0 < n ∧ n ≤ 21 then String.mk (ds.take n.toNat ++ '.' :: ds.drop n.toNat)
  else if -6 < n ∧ n ≤ 0 then String.mk ('0' :: '.' :: List.replicate (-n).toNat '0' ++ ds)
  else
    let x := n - 1
    let tail := 'e' :: (if x < 0 then '-' else '+') :: Nat.toDigits 10 x.natAbs
    match ds with
    | [d] => String.mk (d :: tail)
    | d :: rest => String.mk (d :: '.' :: rest ++ tail)
    | [] => String.mk tail

/-- The number a list of decimal digits writes. -/
def digitsValue (ds : List Char) : Nat := (readDigits 10 ds 0 0).1

/-- Whether the digits and exponent `c` are read back as the binary64 value `a / 10 ^ e`:
the condition `Number::toString` puts on the digits it writes. -/
def readsAs (a e : Nat) (c : List Char × Int) : Bool :=
  (toBinary64 (scaleDecimal (digitsValue c.1) c.1.length c.2)).sameValue (.fin a e)

/-- The digits and exponent of `s * 10 ^ (p - k)` with the zeros at the end of the digits
dropped. -/
def normalForm (s k : Nat) (p : Int) : List Char × Int :=
  ((stripZeros (Nat.toDigits 10 s)).1, p + (Nat.toDigits 10 s).length - k)

/-- The digits `Number::toString` writes if it writes `k` of them: of the two decimals of
`k` digits around the value, given by its `L` digits `sd` and exponent `p`, one that is
read back as the value, the closer one if both are, the even one on a tie. -/
def candidate (a e sd L : Nat) (p : Int) (k : Nat) : Option (List Char × Int) :=
  let q := 10 ^ (L - k)
  let lo := sd / q
  let r := sd % q
  let cl := normalForm lo k p
  let ch := normalForm (lo + 1) k p
  if readsAs a e cl && readsAs a e ch then
    some (if 2 * r < q then cl else if q < 2 * r then ch else if lo % 2 = 0 then cl else ch)
  else if readsAs a e cl then some cl
  else if readsAs a e ch then some ch
  else none

/-- The digits and exponent `Number::toString` writes for the positive binary64 value
`a / 10 ^ e`: as few digits as are read back as the value. -/
def shortestDigits (a e : Nat) : List Char × Int :=
  let (ds, t) := stripZeros (Nat.toDigits 10 a)
  let L := ds.length
  let p : Int := (L : Int) + t - e
  match (List.range L).findSome? (fun i => candidate a e (a / 10 ^ t) L p (i + 1)) with
  | some c => c
  | none => (ds, p)

/-- JavaScript `Number::toString` in radix 10 for the positive binary64 value
`a / 10 ^ e`. -/
def positiveToString (a e : Nat) : String :=
  formatDigits (shortestDigits a e).1 (shortestDigits a e).2

/-- JavaScript `Number::toString` in radix 10. -/
def numToString (x : JSNum) : String :=
  match toBinary64 x with
  | .nan => "NaN"
  | .inf neg => if neg then "-Infinity" else "Infinity"
  | .fin m e =>
    if m == 0 then "0"
    else if m < 0 then "-" ++ positiveToString m.natAbs e
    else positiveToString m.natAbs e

/-- JavaScript `ToString` on the scalar values. -/
def toStr : JSVal → String
  | .undefined => "undefined"
  | .null => "null"
  | .bool b => if b then "true" else "false"
  | .num x => numToString x
  | .str s => s

/-- The hundredths closest to the exact value `a / 10 ^ e`, the larger one on a tie: the
integer `n` that `toFixed(2)` picks. -/
def nearestHundredths (a e : Nat) : Nat :=
  (2 * (a * 100) + 10 ^ e) / (2 * 10 ^ e)

/-- The two-digit rendering of a number below 100. -/
def twoDigits (n : Nat) : List Char :=
  [Nat.digitChar (n / 10 % 10), Nat.digitChar (n % 10)]

/-- JavaScript `x.toFixed(2)` on a binary64 value. -/
def toFixed2 : JSNum → String
  | .nan => "NaN"
  | .inf neg => if neg then "-Infinity" else "Infinity"
  | .fin m e =>
    let a := m.natAbs
    let sign := if m < 0 then "-" else ""
    if 10 ^ 21 * 10 ^ e ≤ a then sign ++ positiveToString a e
    else
      let n := nearestHundredths a e
      sign ++ (String.mk (Nat.toDigits 10 (n / 100)) ++ String.mk ('.' :: twoDigits (n % 100)))

/-! ## Documents and the store -/

/-- An event document, as far as checkout reads and writes it.
Modelled from the spec: `src/utils/models.js` (the Mongoose schemas) is not among
the sources; an event has an available seat count and a booked seat count. -/
structure Event where
  id : String
  availableSeats : Int
  bookedSeats : Int
  deriving DecidableEq, Repr

/-- A booking document. `id` stands for the generated `_id`; `event` and `user` are
references (`none` for an undefined reference).
Modelled from the spec: `src/utils/models.js` is not among the sources; a booking
references an event and a user and carries the number of seats, the total price,
a payment status and a booking status. -/
structure Booking where
  id : Nat
  event : Option String
  user : Option String
  numberOfSeats : Int
  totalPrice : JSNum
  paymentStatus : String
  status : String
  deriving DecidableEq, Repr

/-- The two collections checkout touches. `bookings` is kept most recent first
(descending `bookingDate`). -/
structure Store where
  events : List Event
  bookings : List Booking
  deriving DecidableEq, Repr

/-- Modelled from the spec: `src/utils/models.js` is not among the sources; a newly
created event has no booked seats. The seat count is the `parseInt(availableSeats)`
of `router.post('/create')` in `events.js`. -/
def newEvent (id : String) (availableSeats : Int) : Event :=
  { id := id, availableSeats := availableSeats, bookedSeats := 0 }

/-- The store after `event.save()` of a new event. -/
def Store.addEvent (s : Store) (ev : Event) : Store :=
  { s with events := s.events ++ [ev] }

/-- The query `EventModel.findById(id)`. -/
def findById (events : List Event) (id : Option String) : Option Event :=
  match id with
  | none => none
  | some i => events.find? (fun ev => ev.id == i)

/-- The effect of `event.bookedSeats += q; event.save()` on the document `findById`
returned. -/
def bumpSeats (id : String) (q : Int) : List Event → List Event
  | [] => []
  | ev :: rest =>
    if ev.id == id then { ev with bookedSeats := ev.bookedSeats + q } :: rest
    else ev :: bumpSeats id q rest

/-- The query `BookingModel.findOne({ event, user }).sort({ bookingDate: -1 })`: the most
recent booking of the pair. -/
def findLatest (bookings : List Booking) (event user : Option String) : Option Booking :=
  bookings.find? (fun b => b.event == event && b.user == user)

/-- A fresh `_id`, different from every stored one. -/
def freshId (bookings : List Booking) : Nat :=
  bookings.foldr (fun b n => max (b.id + 1) n) 0

/-- The booked seat count of the event with the given id, if stored. -/
def bookedSeatsOf (s : Store) (id : String) : Option Int :=
  (findById s.events (some id)).map (·.bookedSeats)

/-! ## Payment capture: `router.post('/capture')` -/

/-- The value of `metadata` after the decode step: `JSON.parse(customId || '{}')`, or
`{}` when parsing throws. A value with readable properties is given by the three
properties the handler reads; `null` is the one value whose properties cannot be
read. `eventId` and `userId` are kept as the references they are stored and queried
as: the text of an id, or `none` when the property is undefined. -/
inductive Metadata where
  | obj (eventId userId : Option String) (quantity : JSVal) : Metadata
  | null : Metadata
  deriving DecidableEq, Repr

/-- What the handler reads of `capture.result`. -/
structure CaptureResult where
  id : String
  status : String
  metadata : Metadata
  amountValue : Option String
  deriving DecidableEq, Repr

/-- The outcome of `client.execute(request)`: it throws, or it returns a result. -/
inductive ProviderReply where
  | error (message : String) : ProviderReply
  | result (r : CaptureResult) : ProviderReply
  deriving DecidableEq, Repr

/-- Why the handler ended in its `catch` block. -/
inductive CaptureError where
  | provider (message : String) : CaptureError
  | metadataNull : CaptureError
  | bookingValidation : CaptureError
  | database : CaptureError
  deriving DecidableEq, Repr

/-- The responses of the capture handler. -/
inductive CaptureResponse where
  | notConfigured : CaptureResponse
  | orderIdRequired : CaptureResponse
  | created (orderId status : String) (booking : Booking) (metadata : Metadata) : CaptureResponse
  | alreadyConfirmed (orderId status : String) (booking : Booking) (metadata : Metadata) :
      CaptureResponse
  | notCompleted (status : String) : CaptureResponse
  | failed (details : CaptureError) : CaptureResponse
  deriving DecidableEq, Repr

/-- The HTTP status of a capture response. -/
def CaptureResponse.httpStatus : CaptureResponse → Nat
  | .notConfigured => 500
  | .orderIdRequired => 400
  | .created _ _ _ _ => 200
  | .alreadyConfirmed _ _ _ _ => 200
  | .notCompleted _ => 400
  | .failed _ => 500

/-- The `message` property of a capture response body. -/
def CaptureResponse.message : CaptureResponse → Option String
  | .alreadyConfirmed _ _ _ _ => some "Booking already confirmed"
  | _ => none

/-- The `booking` property of a capture response body. -/
def CaptureResponse.booking : CaptureResponse → Option Booking
  | .created _ _ b _ => some b
  | .alreadyConfirmed _ _ b _ => some b
  | _ => none

/-- The `status` property of an error body: the provider's reported status. -/
def CaptureResponse.reportedStatus : CaptureResponse → Option String
  | .notCompleted st => some st
  | _ => none

/-- The expression `parseInt(metadata.quantity || '1')`; `none` stands for `NaN`. -/
def seatCount (quantity : JSVal) : Option Int :=
  parseInt (if truthy quantity then toStr quantity else "1")

/-- The expression `parseFloat(amount?.value || '0')`. -/
def capturedAmount (amountValue : Option String) : JSNum :=
  match amountValue with
  | some v => parseFloat (if v != "" then v else "0")
  | none => parseFloat "0"

/-- The document `new BookingModel({ ..., paymentStatus: 'paid', status: 'confirmed' })`. -/
def paidBooking (id : Nat) (eventId userId : Option String) (n : Int) (total : JSNum) :
    Booking :=
  { id := id, event := eventId, user := userId, numberOfSeats := n, totalPrice := total,
    paymentStatus := "paid", status := "confirmed" }

/-- The event collection after `findById(metadata.eventId)` and, if it returned an event,
`event.bookedSeats += n; event.save()`. -/
def addSeats (events : List Event) (eventId : Option String) (n : Int) : List Event :=
  match findById events eventId, eventId with
  | some _, some e => bumpSeats e n events
  | _, _ => events

/-- Which of the database calls of a capture request reject, in the order the handler
makes them: `dbConnect()`, `BookingModel.findOne`, `booking.save()`, `EventModel.findById`
and `event.save()`. A call that rejects throws into the `catch` block of the handler and
writes nothing itself. -/
structure DbFaults where
  connect : Bool
  findOne : Bool
  bookingSave : Bool
  findById : Bool
  eventSave : Bool
  deriving DecidableEq, Repr

/-- The database whose calls all resolve. -/
def allResolve : DbFaults :=
  { connect := false, findOne := false, bookingSave := false, findById := false,
    eventSave := false }

/-- The branch that creates a booking: build it, `booking.save()`, then `findById` and, if
it returns an event, add the seats and `event.save()`. The three calls are separate steps:
when `findById` or `event.save()` rejects, the handler ends in its `catch` block with the
booking already stored.
Modelled from the spec: `src/utils/models.js` is not among the sources; the seat
count and the price are numeric fields, so `booking.save()` rejects `NaN` in either and
writes nothing. -/
def createBooking (db : DbFaults) (r : CaptureResult) (eventId userId : Option String)
    (quantity : JSVal) (s : Store) : CaptureResponse × Store :=
  let totalAmount := capturedAmount r.amountValue
  match seatCount quantity with
  | none => (.failed .bookingValidation, s)
  | some n =>
    if totalAmount.isNaN then (.failed .bookingValidation, s)
    else if db.bookingSave then (.failed .database, s)
    else
      let booking := paidBooking (freshId s.bookings) eventId userId n totalAmount
      if db.findById then
        (.failed .database, { events := s.events, bookings := booking :: s.bookings })
      else if (findById s.events eventId).isSome && db.eventSave then
        (.failed .database, { events := s.events, bookings := booking :: s.bookings })
      else
        (.created r.id r.status booking r.metadata,
          { events := addSeats s.events eventId n, bookings := booking :: s.bookings })

/-- The capture handler. `db` says which database calls reject, `configured` whether
`getPayPalClient()` built a client, `orderId` is `req.body.orderId`, `reply` is the
outcome of the provider call. -/
def captureWith (db : DbFaults) (configured : Bool) (orderId : JSVal) (reply : ProviderReply)
    (s : Store) : CaptureResponse × Store :=
  if !configured then (.notConfigured, s)
  else if !truthy orderId then (.orderIdRequired, s)
  else
    match reply with
    | .error msg => (.failed (.provider msg), s)
    | .result r =>
      if r.status == "COMPLETED" then
        if db.connect then (.failed .database, s)
        else
          match r.metadata with
          | .null => (.failed .metadataNull, s)
          | .obj eventId userId quantity =>
            if db.findOne then (.failed .database, s)
            else
              match findLatest s.bookings eventId userId with
              | none => createBooking db r eventId userId quantity s
              | some existing =>
                if existing.paymentStatus != "paid" then
                  createBooking db r eventId userId quantity s
                else (.alreadyConfirmed r.id r.status existing r.metadata, s)
      else (.notCompleted r.status, s)

/-- The capture handler with a database whose calls all resolve. -/
def capture (configured : Bool) (orderId : JSVal) (reply : ProviderReply) (s : Store) :
    CaptureResponse × Store :=
  captureWith allResolve configured orderId reply s

/-- A provider reply that reports the capture of an order as completed. -/
def completed (orderId : String) (eventId userId : Option String) (quantity : JSVal)
    (amountValue : Option String) : ProviderReply :=
  .result { id := orderId, status := "COMPLETED",
            metadata := .obj eventId userId quantity, amountValue := amountValue }

/-! ## Order creation: `router.post('/')` -/

/-- The five fields the handler reads from `req.body`. -/
structure OrderBody where
  amount : JSVal
  quantity : JSVal
  eventName : JSVal
  userId : JSVal
  eventId : JSVal
  deriving DecidableEq, Repr

/-- The object passed to `JSON.stringify` for `custom_id`. -/
structure CustomId where
  userId : JSVal
  eventId : JSVal
  quantity : String
  deriving DecidableEq, Repr

/-- The purchase unit and return addresses of the order sent to the provider. -/
structure OrderRequest where
  referenceId : JSVal
  description : String
  currencyCode : String
  value : String
  customId : CustomId
  returnUrl : String
  cancelUrl : String
  deriving DecidableEq, Repr

/-- The outcome of `client.execute(request)` for an order: it throws, or it returns
the order id and the `approve` link if there is one. -/
inductive OrderReply where
  | error (message : String) : OrderReply
  | result (id : String) (approvalUrl : Option String) : OrderReply
  deriving DecidableEq, Repr

/-- The responses of the order handler. -/
inductive OrderResponse where
  | notConfigured : OrderResponse
  | missingFields : OrderResponse
  | noApprovalUrl : OrderResponse
  | ok (id approvalUrl : String) : OrderResponse
  | failed (details : String) : OrderResponse
  deriving DecidableEq, Repr

/-- The HTTP status of an order response. -/
def OrderResponse.httpStatus : OrderResponse → Nat
  | .notConfigured => 500
  | .missingFields => 400
  | .noApprovalUrl => 500
  | .ok _ _ => 200
  | .failed _ => 500

/-- The `error` property of an order response body. -/
def OrderResponse.error : OrderResponse → Option String
  | .notConfigured => some ("PayPal is not configured. Please set PAYPAL_CLIENT_ID and " ++
      "PAYPAL_CLIENT_SECRET in your .env file and restart the server.")
  | .missingFields => some "Missing required fields"
  | .noApprovalUrl => some "Failed to create PayPal order"
  | .ok _ _ => none
  | .failed _ => some "Failed to create PayPal order"

/-- The test `!amount || !quantity || !eventName || !userId || !eventId`. -/
def missingFields (b : OrderBody) : Bool :=
  !truthy b.amount || !truthy b.quantity || !truthy b.eventName || !truthy b.userId ||
    !truthy b.eventId

/-- The expression `(amount * quantity).toFixed(2)`. -/
def totalAmount (amount quantity : JSVal) : String :=
  toFixed2 (jsMul (toNumber amount) (toNumber quantity))

/-- The request body built for `OrdersCreateRequest`. `origin` is `req.headers.origin`. -/
def orderRequest (origin : Option String) (b : OrderBody) : OrderRequest :=
  let base := match origin with
    | some o => if o != "" then o else "http://localhost:3000"
    | none => "http://localhost:3000"
  { referenceId := b.eventId,
    description := "Event Ticket - " ++ toStr b.eventName,
    currencyCode := "USD",
    value := totalAmount b.amount b.quantity,
    customId := { userId := b.userId, eventId := b.eventId, quantity := toStr b.quantity },
    returnUrl := base ++ "/success",
    cancelUrl := base ++ "/cancel" }

/-- The order handler. `configured` says whether a provider client could be built,
`provider` is the provider's answer to the order it is sent. The handler never
touches the database, so the store is returned as it came. -/
def createOrder (configured : Bool) (origin : Option String) (b : OrderBody)
    (provider : OrderRequest → OrderReply) (s : Store) : OrderResponse × Store :=
  if !configured then (.notConfigured, s)
  else if missingFields b then (.missingFields, s)
  else
    match provider (orderRequest origin b) with
    | .error msg => (.failed msg, s)
    | .result _ none => (.noApprovalUrl, s)
    | .result id (some url) => if url != "" then (.ok id url, s) else (.noApprovalUrl, s)

/-- The value the order handler sends to the provider for a request, when it sends
one: `none` when the request is answered before the provider is called. -/
def sentOrder (configured : Bool) (origin : Option String) (b : OrderBody) :
    Option OrderRequest :=
  if !configured then none
  else if missingFields b then none
  else some (orderRequest origin b)

/-! ## Reachable stores -/

/-- The calls that write to the event and booking collections, or are claimed not to. -/
inductive Call where
  | createEvent (id : String) (availableSeats : Int) : Call
  | order (configured : Bool) (origin : Option String) (b : OrderBody)
      (provider : OrderRequest → OrderReply) : Call
  | capture (configured : Bool) (orderId : JSVal) (reply : ProviderReply) : Call

/-- The store after one call. -/
def Call.run : Call → Store → Store
  | .createEvent id n, s => s.addEvent (newEvent id n)
  | .order c o b p, s => (EventBooking.createOrder c o b p s).2
  | .capture c o r, s => (EventBooking.capture c o r s).2

/-- The store after a sequence of calls, first call first. -/
def runCalls (calls : List Call) (s : Store) : Store :=
  calls.foldl (fun st c => c.run st) s

/-- The empty store. -/
def Store.empty : Store := { events := [], bookings := [] }

/-- The stores reachable from the empty one. -/
def Reachable (s : Store) : Prop := ∃ calls, runCalls calls Store.empty = s

/-- An order as capture sees it: the provider's order id, the buying user, the quantity
written in the metadata and the captured amount. -/
structure PlacedOrder where
  orderId : String
  user : String
  quantity : JSVal
  amountValue : Option String
  deriving DecidableEq, Repr

/-- The capture call for a placed order on the event `eventId`, reported as completed. -/
def PlacedOrder.call (eventId : String) (p : PlacedOrder) : Call :=
  .capture true (.str p.orderId)
    (completed p.orderId (some eventId) (some p.user) p.quantity p.amountValue)

/-- The stored bookings of an event, most recent first. -/
def bookingsOf (s : Store) (eventId : String) : List Booking :=
  s.bookings.filter (fun b => b.event == some eventId)

/-- The event `ev'` is the event `ev` with the same id and available seats and with
booked seats not below those of `ev`. -/
def SeatsNotLowered (ev ev' : Event) : Prop :=
  ev'.id = ev.id ∧ ev'.availableSeats = ev.availableSeats ∧ ev.bookedSeats ≤ ev'.bookedSeats

/-! ## JSON text: `JSON.parse` and `JSON.stringify` -/

/-- A JSON value. -/
inductive Json where
  | null : Json
  | bool (b : Bool) : Json
  | num (x : JSNum) : Json
  | str (s : String) : Json
  | arr (items : List Json) : Json
  | obj (members : List (String × Json)) : Json

/-- Drops the JSON white space (space, tab, line feed, carriage return) at the front. -/
def skipWs : List Char → List Char
  | c :: cs => if c = ' ' ∨ c = '\t' ∨ c = '\n' ∨ c = '\r' then skipWs cs else c :: cs
  | [] => []

/-- The character a one-letter escape stands for. -/
def unescape (e : Char) : Option Char :=
  if e = '"' then some '"'
  else if e = '\\' then some '\\'
  else if e = '/' then some '/'
  else if e = 'b' then some (Char.ofNat 8)
  else if e = 'f' then some (Char.ofNat 12)
  else if e = 'n' then some '\n'
  else if e = 'r' then some '\r'
  else if e = 't' then some '\t'
  else none

/-- The code unit written by four hexadecimal digits. -/
def hex4 (a b c d : Char) : Option Nat :=
  match digitVal 16 a, digitVal 16 b, digitVal 16 c, digitVal 16 d with
  | some w, some x, some y, some z => some (((w * 16 + x) * 16 + y) * 16 + z)
  | _, _, _, _ => none

/-- The character of a code unit read from a `\u` escape. A surrogate code unit has no
character of its own here and is read as U+FFFD; surrogate pairs are not combined. -/
def unitChar (n : Nat) : Char :=
  if 55296 ≤ n ∧ n ≤ 57343 then Char.ofNat 65533 else Char.ofNat n

/-- Reads a JSON string after its opening quote: the characters up to the closing quote,
and the rest. -/
def parseString : List Char → Option (List Char × List Char)
  | [] => none
  | c :: rest =>
    if c = '"' then some ([], rest)
    else if c = '\\' then
      match rest with
      | 'u' :: a :: b :: x :: d :: rest2 =>
        match hex4 a b x d with
        | some n => (parseString rest2).map (fun p => (unitChar n :: p.1, p.2))
        | none => none
      | e :: rest2 =>
        match unescape e with
        | some ch => (parseString rest2).map (fun p => (ch :: p.1, p.2))
        | none => none
      | [] => none
    else if c.toNat < 32 then none
    else (parseString rest).map (fun p => (c :: p.1, p.2))

/-- The integer part of a JSON number: a single `0`, or a run of digits. -/
def jsonInt (cs : List Char) : Option (Nat × List Char) :=
  match cs with
  | '0' :: r => some (0, r)
  | _ =>
    if (readDigits 10 cs 0 0).2.1 == 0 then none
    else some ((readDigits 10 cs 0 0).1, (readDigits 10 cs 0 0).2.2)

/-- The fraction part of a JSON number after the integer part `a`: a point and at least
one digit, or nothing. The result is the number written by all digits so far, the number
of digits after the point, and the rest. -/
def jsonFrac (a : Nat) (cs : List Char) : Option (Nat × Nat × List Char) :=
  match cs with
  | '.' :: fs => if (readDigits 10 fs a 0).2.1 == 0 then none else some (readDigits 10 fs a 0)
  | _ => some (a, 0, cs)

/-- The exponent part of a JSON number: `e` or `E`, a sign if any and at least one digit,
or nothing. -/
def jsonExp (cs : List Char) : Option (Int × List Char) :=
  match cs with
  | c :: es =>
    if c = 'e' ∨ c = 'E' then
      if (readDigits 10 (readSign es).2 0 0).2.1 == 0 then none
      else some (if (readSign es).1 then -((readDigits 10 (readSign es).2 0 0).1 : Int)
        else ((readDigits 10 (readSign es).2 0 0).1 : Int), (readDigits 10 (readSign es).2 0 0).2.2)
    else some (0, cs)
  | [] => some (0, [])

/-- Reads a JSON number at the front of `cs`, `-? int frac? exp?`, as the binary64 value
nearest to it. -/
def parseNumber (cs : List Char) : Option (JSNum × List Char) :=
  let neg := match cs with
    | '-' :: _ => true
    | _ => false
  let cs1 := match cs with
    | '-' :: r => r
    | _ => cs
  match jsonInt cs1 with
  | none => none
  | some (a, r1) =>
    match jsonFrac a r1 with
    | none => none
    | some (b, kb, r2) =>
      match jsonExp r2 with
      | none => none
      | some (x, r3) =>
        some (toBinary64 (scaleDecimal (if neg then -(b : Int) else (b : Int)) kb x), r3)

/-- What the parser is reading: a value, the rest of an array, or the rest of an object. -/
inductive Task where
  | value : Task
  | elems (acc : List Json) : Task
  | membs (acc : List (String × Json)) : Task

/-- The JSON parser, with a bound on the number of nested and successive values. -/
def parseJ : Nat → Task → List Char → Option (Json × List Char)
  | 0, _, _ => none
  | fuel + 1, .value, cs =>
    match skipWs cs with
    | '{' :: rest =>
      match skipWs rest with
      | '}' :: r => some (.obj [], r)
      | _ => parseJ fuel (.membs []) rest
    | '[' :: rest =>
      match skipWs rest with
      | ']' :: r => some (.arr [], r)
      | _ => parseJ fuel (.elems []) rest
    | '"' :: rest => (parseString rest).map (fun p => (.str (String.mk p.1), p.2))
    | 't' :: 'r' :: 'u' :: 'e' :: r => some (.bool true, r)
    | 'f' :: 'a' :: 'l' :: 's' :: 'e' :: r => some (.bool false, r)
    | 'n' :: 'u' :: 'l' :: 'l' :: r => some (.null, r)
    | other => (parseNumber other).map (fun p => (.num p.1, p.2))
  | fuel + 1, .elems acc, cs =>
    match parseJ fuel .value cs with
    | none => none
    | some (v, rest) =>
      match skipWs rest with
      | ',' :: r => parseJ fuel (.elems (acc ++ [v])) r
      | ']' :: r => some (.arr (acc ++ [v]), r)
      | _ => none
  | fuel + 1, .membs acc, cs =>
    match skipWs cs with
    | '"' :: rest =>
      match parseString rest with
      | none => none
      | some (k, r1) =>
        match skipWs r1 with
        | ':' :: r2 =>
          match parseJ fuel .value r2 with
          | none => none
          | some (v, r3) =>
            match skipWs r3 with
            | ',' :: r4 => parseJ fuel (.membs (acc ++ [(String.mk k, v)])) r4
            | '}' :: r4 => some (.obj (acc ++ [(String.mk k, v)]), r4)
            | _ => none
        | _ => none
    | _ => none

/-- JavaScript `JSON.parse(text)`; `none` stands for a thrown `SyntaxError`. Every call of
the parser reads at least one character of its own or follows a bracket or comma, so
`2 * length + 2` calls are enough for every text. -/
def jsonParse (s : String) : Option Json :=
  match parseJ (2 * s.length + 2) .value s.toList with
  | some (v, rest) => if skipWs rest = [] then some v else none
  | none => none

/-- The lower-case hexadecimal digit of a number below 16. -/
def hexDigit (n : Nat) : Char :=
  if n < 10 then Char.ofNat (48 + n) else Char.ofNat (87 + n)

/-- The rendering of one character inside a JSON string (`QuoteJSONString`). -/
def escapeChar (c : Char) : List Char :=
  if c = '"' then ['\\', '"']
  else if c = '\\' then ['\\', '\\']
  else if c = Char.ofNat 8 then ['\\', 'b']
  else if c = Char.ofNat 12 then ['\\', 'f']
  else if c = '\n' then ['\\', 'n']
  else if c = '\r' then ['\\', 'r']
  else if c = '\t' then ['\\', 't']
  else if c.toNat < 32 then ['\\', 'u', '0', '0', hexDigit (c.toNat / 16), hexDigit (c.toNat % 16)]
  else [c]

/-- The characters of a string between the quotes of its JSON rendering. -/
def escapeChars : List Char → List Char
  | [] => []
  | c :: cs => escapeChar c ++ escapeChars cs

/-- The JSON rendering of a string. -/
def quoteJSON (s : String) : List Char :=
  '"' :: (escapeChars s.toList ++ ['"'])

/-- The JSON rendering of a scalar property value; `none` for `undefined`, whose property
`JSON.stringify` leaves out. -/
def stringifyVal : JSVal → Option (List Char)
  | .undefined => none
  | .null => some "null".toList
  | .bool b => some (if b then "true".toList else "false".toList)
  | .num x =>
    match toBinary64 x with
    | .fin _ _ => some (numToString x).toList
    | _ => some "null".toList
  | .str s => some (quoteJSON s)

/-- One member `"key":value` of a rendered object, with the comma before it when it is
not the first. -/
def stringifyMember (first : Bool) (key : String) (v : Option (List Char)) : List Char :=
  match v with
  | none => []
  | some text => (if first then [] else [',']) ++ quoteJSON key ++ ':' :: text

/-- The text `JSON.stringify({ userId, eventId, quantity })` of order creation. -/
def stringifyCustomId (c : CustomId) : String :=
  let u := stringifyVal c.userId
  let e := stringifyVal c.eventId
  String.mk ('{' :: (stringifyMember true "userId" u ++
    stringifyMember u.isNone "eventId" e ++
    stringifyMember (u.isNone && e.isNone) "quantity" (some (quoteJSON c.quantity)) ++ ['}']))

/-- The own property `key` of a decoded value: the last member with that key of an
object, nothing for any other value. -/
def Json.prop (j : Json) (key : String) : Option Json :=
  match j with
  | .obj members => (members.reverse.find? (fun m => m.1 == key)).map (·.2)
  | _ => none

/-- A property read as a reference: absent or `null` is no reference, a string is the
text of an id; any other value is not a reference. -/
def refOf : Option Json → Option (Option String)
  | none => some none
  | some .null => some none
  | some (.str s) => some (some s)
  | some _ => none

/-- A property read as a scalar value; arrays and objects are not scalars. -/
def scalarOf : Option Json → Option JSVal
  | none => some .undefined
  | some .null => some .null
  | some (.bool b) => some (.bool b)
  | some (.num x) => some (.num x)
  | some (.str s) => some (.str s)
  | some _ => none

/-- The decoded value as the handler reads it: `null`, or the three properties
`eventId`, `userId` and `quantity`. The result is `none` for a value whose `eventId` or
`userId` is not the text of an id or whose `quantity` is an array or an object; such
values are outside this embedding. -/
def Json.toMetadata (j : Json) : Option Metadata :=
  match j with
  | .null => some .null
  | _ =>
    match refOf (j.prop "eventId"), refOf (j.prop "userId"), scalarOf (j.prop "quantity") with
    | some e, some u, some q => some (.obj e u q)
    | _, _, _ => none

/-- The decode step of capture: `JSON.parse(customId || '{}')`, and `{}` when that
throws. -/
def decodeCustomId (customId : Option String) : Json :=
  let text := match customId with
    | some t => if t != "" then t else "{}"
    | none => "{}"
  match jsonParse text with
  | some j => j
  | none => .obj []

/-- Whether `getPayPalClient()` builds a client: both `PAYPAL_CLIENT_ID` and
`PAYPAL_CLIENT_SECRET` are set and not empty. -/
def getPayPalClient (clientId clientSecret : Option String) : Bool :=
  match clientId, clientSecret with
  | some i, some k => i != "" && k != ""
  | _, _ => false

/-- The error whose message a capture response carries in `details`. -/
def CaptureResponse.details : CaptureResponse → Option CaptureError
  | .failed e => some e
  | _ => none

/-- The `details` property of an order response body. -/
def OrderResponse.details : OrderResponse → Option String
  | .failed m => some m
  | _ => none

/-! ## Identity: `server/routes/auth.js` -/

/-- A bcrypt hash, kept symbolically as the salt and the data hashed. Collisions are not
modelled; bcrypt reads only the first 72 bytes of the data, which `compareSync` follows. -/
structure BcryptHash where
  salt : String
  data : String
  deriving DecidableEq, Repr

/-- The call `bcrypt.hashSync(data, salt)`; `none` when it throws, which it does unless
`data` is a string. -/
def hashSync (data : JSVal) (salt : String) : Option BcryptHash :=
  match data with
  | .str p => some { salt := salt, data := p }
  | _ => none

/-- The bytes of a character in UTF-8. -/
def utf8Bytes (c : Char) : List Nat :=
  let n := c.toNat
  if n < 128 then [n]
  else if n < 2048 then [192 + n / 64, 128 + n % 64]
  else if n < 65536 then [224 + n / 4096, 128 + n / 64 % 64, 128 + n % 64]
  else [240 + n / 262144, 128 + n / 4096 % 64, 128 + n / 64 % 64, 128 + n % 64]

/-- The part of a text bcrypt hashes: the first 72 bytes of its UTF-8 encoding. -/
def bcryptKey (p : String) : List Nat :=
  (p.toList.flatMap utf8Bytes).take 72

/-- The call `bcrypt.compareSync(data, hash)`: whether `data` and the hashed data agree on
the bytes bcrypt hashes; `none` when it throws, which it does unless `data` is a string. -/
def compareSync (data : JSVal) (hash : BcryptHash) : Option Bool :=
  match data with
  | .str p => some (bcryptKey hash.data == bcryptKey p)
  | _ => none

/-- A user document.
Modelled from the spec: `src/utils/models.js` is not among the sources; a user has a
username, an email, a hashed password, a role, a profile picture and a balance. -/
structure User where
  id : Nat
  username : String
  email : String
  password : BcryptHash
  role : String
  profilePicture : String
  balance : JSVal
  deriving DecidableEq, Repr

/-- A fresh user `_id`, different from every stored one. -/
def freshUserId (users : List User) : Nat :=
  users.foldr (fun u n => max (u.id + 1) n) 0

/-- Modelled from the spec: `src/utils/models.js` is not among the sources; the balance a
newly registered user starts with. -/
def defaultBalance : JSVal := .num (.fin 0 0)

/-- The responses of `router.post('/register')`. -/
inductive RegisterResponse where
  | created : RegisterResponse
  | duplicate : RegisterResponse
  | serverError : RegisterResponse
  deriving DecidableEq, Repr

/-- The HTTP status of a register response. -/
def RegisterResponse.httpStatus : RegisterResponse → Nat
  | .created => 200
  | .duplicate => 200
  | .serverError => 500

/-- The `success` property of a register response. -/
def RegisterResponse.success : RegisterResponse → Bool
  | .created => true
  | _ => false

/-- The `message` property of a register response. -/
def RegisterResponse.message : RegisterResponse → String
  | .created => "Account created successfully!"
  | .duplicate => "There is already an account with this username or email!"
  | .serverError => "Server error"

/-- The register handler. `salt` is the value of `bcrypt.genSaltSync(10)`. The lookup is
`UserModel.findOne({ $or: [{ username }, { email }] })`; users are kept oldest first. -/
def register (username email : String) (password : JSVal) (salt : String)
    (users : List User) : RegisterResponse × List User :=
  match users.find? (fun u => u.username == username || u.email == email) with
  | some _ => (.duplicate, users)
  | none =>
    match hashSync password salt with
    | none => (.serverError, users)
    | some hash =>
      (.created, users ++ [{ id := freshUserId users, username := username, email := email,
                             password := hash, role := "user", profilePicture := "",
                             balance := defaultBalance }])

/-- The payload of a token issued at login, with the times `jwt.sign` adds (seconds). -/
structure TokenPayload where
  id : Nat
  username : String
  email : String
  iat : Nat
  exp : Nat
  deriving DecidableEq, Repr

/-- The text a request presents as its token, kept symbolically: a payload signed with a
key, or any other text (which no key verifies). -/
inductive Token where
  | signed (payload : TokenPayload) (key : String) : Token
  | text (s : String) : Token
  deriving DecidableEq, Repr

/-- The signing key `process.env.JWT_SECRET || process.env.NEXTAUTH_SECRET ||
'your-secret-key'` all handlers use. -/
def jwtSecret (jwtSecretEnv nextAuthSecretEnv : Option String) : String :=
  match jwtSecretEnv with
  | some k => if k != "" then k else
    match nextAuthSecretEnv with
    | some j => if j != "" then j else "your-secret-key"
    | none => "your-secret-key"
  | none =>
    match nextAuthSecretEnv with
    | some j => if j != "" then j else "your-secret-key"
    | none => "your-secret-key"

/-- The number of seconds of `expiresIn: '7d'`. -/
def sevenDays : Nat := 7 * 24 * 60 * 60

/-- The call `jwt.sign({ id, username, email }, key, { expiresIn: '7d' })` at time `now`. -/
def jwtSign (u : User) (key : String) (now : Nat) : Token :=
  .signed { id := u.id, username := u.username, email := u.email, iat := now,
            exp := now + sevenDays } key

/-- The call `jwt.verify(token, key)` at time `now`; `none` when it throws: the text is
not a signed token, the signature is of another key, or the token has expired. -/
def jwtVerify (token : Token) (key : String) (now : Nat) : Option TokenPayload :=
  match token with
  | .signed p k => if k == key && now < p.exp then some p else none
  | .text _ => none

/-- The test `!token` on `req.headers.authorization?.replace('Bearer ', '')`: the header
is absent or nothing is left of it. -/
def tokenMissing (authorization : Option Token) : Bool :=
  match authorization with
  | none => true
  | some (.text s) => s == ""
  | some (.signed _ _) => false

/-- The verified payload of a presented token, if there is one. -/
def verified (key : String) (now : Nat) (authorization : Option Token) :
    Option TokenPayload :=
  match authorization with
  | some t => jwtVerify t key now
  | none => none

/-- The user object of the login and `/me` responses. -/
structure Profile where
  id : Nat
  username : String
  email : String
  profilePicture : String
  balance : JSVal
  deriving DecidableEq, Repr

/-- The five properties the handlers copy from a user document. -/
def profileOf (u : User) : Profile :=
  { id := u.id, username := u.username, email := u.email,
    profilePicture := u.profilePicture, balance := u.balance }

/-- The responses of `router.post('/login')`. -/
inductive LoginResponse where
  | missing : LoginResponse
  | ok (token : Token) (user : Profile) : LoginResponse
  | invalid : LoginResponse
  | serverError : LoginResponse
  deriving DecidableEq, Repr

/-- The HTTP status of a login response. -/
def LoginResponse.httpStatus : LoginResponse → Nat
  | .missing => 400
  | .ok _ _ => 200
  | .invalid => 401
  | .serverError => 500

/-- The `message` property of a login response. -/
def LoginResponse.message : LoginResponse → Option String
  | .missing => some "Email and password are required"
  | .ok _ _ => none
  | .invalid => some "Invalid credentials"
  | .serverError => some "Server error"

/-- The lookup `UserModel.findOne({ $or: [{ email: id }, { username: id }] })` of login. -/
def findByIdentifier (users : List User) (identifier : String) : Option User :=
  users.find? (fun u => u.email == identifier || u.username == identifier)

/-- The login handler. `email` is the identifier of the body, empty when absent. -/
def login (key : String) (now : Nat) (email : String) (password : JSVal)
    (users : List User) : LoginResponse :=
  if email == "" || !truthy password then .missing
  else
    match findByIdentifier users email with
    | none => .invalid
    | some u =>
      match compareSync password u.password with
      | none => .serverError
      | some true => .ok (jwtSign u key now) (profileOf u)
      | some false => .invalid

/-- The responses of `router.get('/me')`. -/
inductive MeResponse where
  | noToken : MeResponse
  | invalidToken : MeResponse
  | notFound : MeResponse
  | ok (user : Profile) : MeResponse
  deriving DecidableEq, Repr

/-- The HTTP status of a `/me` response. -/
def MeResponse.httpStatus : MeResponse → Nat
  | .noToken => 401
  | .invalidToken => 401
  | .notFound => 404
  | .ok _ => 200

/-- The handler of `GET /api/auth/me`. -/
def me (key : String) (now : Nat) (authorization : Option Token) (users : List User) :
    MeResponse :=
  if tokenMissing authorization then .noToken
  else
    match verified key now authorization with
    | none => .invalidToken
    | some p =>
      match users.find? (fun u => u.id == p.id) with
      | none => .notFound
      | some u => .ok (profileOf u)

/-- The JSON rendering of a scalar property of a response body; `none` for `undefined`,
whose property is left out. -/
def jsonOfVal : JSVal → Option Json
  | .undefined => none
  | .null => some .null
  | .bool b => some (.bool b)
  | .num x =>
    match toBinary64 x with
    | .fin m e => some (.num (.fin m e))
    | _ => some .null
  | .str s => some (.str s)

/-- The user object of a response body. -/
def Profile.toJson (p : Profile) : Json :=
  .obj ([("id", .str (toString p.id)), ("username", .str p.username), ("email", .str p.email),
         ("profilePicture", .str p.profilePicture)] ++
        (match jsonOfVal p.balance with
         | some j => [("balance", j)]
         | none => []))

/-- The body of a `/me` response. -/
def MeResponse.body : MeResponse → Json
  | .noToken => .obj [("success", .bool false), ("message", .str "No token provided")]
  | .invalidToken => .obj [("success", .bool false), ("message", .str "Invalid token")]
  | .notFound => .obj [("success", .bool false), ("message", .str "User not found")]
  | .ok p => .obj [("success", .bool true), ("user", p.toJson)]

/-- The property names of an object, none for any other value. -/
def Json.keys : Json → List String
  | .obj members => members.map (·.1)
  | _ => []

/-- The users after a sequence of register calls `(username, email, password, salt)`. -/
def registerAll (calls : List (String × String × JSVal × String)) (users : List User) :
    List User :=
  calls.foldl (fun us c => (register c.1 c.2.1 c.2.2.1 c.2.2.2 us).2) users

/-! ## Event catalog: `server/routes/events.js` -/

/-- An event document of the catalog.
Modelled from the spec: `src/utils/models.js` is not among the sources; an event has a
title, description, category, derived address and city, a date, seat counts, a price, an
image reference, an organizer and a creation time. `location` is the path the list query
filters on; it is `none` on a document that never had it written. -/
structure CatalogEvent where
  id : Nat
  title : String
  description : String
  category : String
  address : String
  city : String
  location : Option String
  date : Int
  availableSeats : Int
  bookedSeats : Int
  price : JSNum
  imageUrl : String
  organizer : Nat
  createdAt : Int
  deriving DecidableEq, Repr

/-- A query or form parameter that is given: present and not empty. -/
def given (p : Option String) : Option String :=
  match p with
  | some s => if s != "" then some s else none
  | none => none

/-- The characters with a special meaning in a regular expression. -/
def isRegexMeta (c : Char) : Bool :=
  c = '\\' || c = '^' || c = '$' || c = '.' || c = '[' || c = ']' || c = '|' || c = '(' ||
  c = ')' || c = '?' || c = '*' || c = '+' || c = '{' || c = '}'

/-- One step of a pattern of the modelled fragment: a literal character or `.`. -/
inductive Atom where
  | lit (c : Char) : Atom
  | any : Atom
  deriving DecidableEq, Repr

/-- The pattern as a sequence of literal characters and `.`; `none` for a pattern with any
other special character, which this embedding does not follow. -/
def atomsOf : List Char → Option (List Atom)
  | [] => some []
  | c :: cs =>
    match atomsOf cs with
    | none => none
    | some rest =>
      if c = '.' then some (.any :: rest)
      else if isRegexMeta c then none
      else some (.lit c :: rest)

/-- Case folding of option `i`, for the letters A to Z. -/
def foldCase (c : Char) : Char := c.toLower

/-- Whether a pattern step matches a character, ignoring case; `.` matches any character
but a line feed. -/
def Atom.accepts : Atom → Char → Bool
  | .lit x, c => foldCase x == foldCase c
  | .any, c => c != '\n'

/-- Whether the pattern matches at the front of the text. -/
def matchHere : List Atom → List Char → Bool
  | [], _ => true
  | _ :: _, [] => false
  | a :: rest, c :: cs => a.accepts c && matchHere rest cs

/-- Whether the pattern matches somewhere in the text, as `$regex` does. -/
def matchAnywhere (atoms : List Atom) : List Char → Bool
  | [] => matchHere atoms []
  | c :: cs => matchHere atoms (c :: cs) || matchAnywhere atoms cs

/-- The condition `{ $regex: pattern, $options: "i" }` on a field: no condition when there
is no pattern, and no match on a document without the field. -/
def fieldMatches (pattern : Option (List Atom)) (field : Option String) : Bool :=
  match pattern with
  | none => true
  | some atoms =>
    match field with
    | some v => matchAnywhere atoms v.toList
    | none => false

/-- The parameters of `GET /api/events`. -/
structure ListQuery where
  category : Option String
  location : Option String
  name : Option String
  dateFrom : Option String
  dateTo : Option String
  page : Option String
  limit : Option String
  deriving DecidableEq, Repr

/-- The query object the list handler builds. -/
structure Filter where
  category : Option (List Atom)
  location : Option (List Atom)
  title : Option (List Atom)
  dateFrom : Option Int
  dateTo : Option Int
  deriving DecidableEq, Repr

/-- The condition on `category`. -/
def Filter.categoryHolds (f : Filter) (ev : CatalogEvent) : Bool :=
  fieldMatches f.category (some ev.category)

/-- The condition on `location`. -/
def Filter.locationHolds (f : Filter) (ev : CatalogEvent) : Bool :=
  fieldMatches f.location ev.location

/-- The condition on `title`. -/
def Filter.titleHolds (f : Filter) (ev : CatalogEvent) : Bool :=
  fieldMatches f.title (some ev.title)

/-- The condition on `date`: `$gte` the lower bound and `$lt` the upper bound, each when
given. -/
def Filter.dateHolds (f : Filter) (ev : CatalogEvent) : Bool :=
  (match f.dateFrom with
   | some t => decide (t ≤ ev.date)
   | none => true) &&
  (match f.dateTo with
   | some t => decide (ev.date < t)
   | none => true)

/-- Whether a document satisfies the query: all its conditions hold. -/
def Filter.accepts (f : Filter) (ev : CatalogEvent) : Bool :=
  f.categoryHolds ev && f.locationHolds ev && f.titleHolds ev && f.dateHolds ev

/-- The outcome of building the query. -/
inductive FilterResult where
  | ok (f : Filter) : FilterResult
  | castError : FilterResult
  | unmodelled : FilterResult
  deriving DecidableEq, Repr

/-- The pattern of a regular-expression parameter: `some none` when the parameter is not
given, `none` when its pattern is outside the modelled fragment. -/
def patternOf (p : Option String) : Option (Option (List Atom)) :=
  match given p with
  | none => some none
  | some c => (atomsOf c.toList).map some

/-- The bound of a date parameter, `new Date(text)`: `some none` when the parameter is not
given, `none` when the text is not a valid date. -/
def boundOf (dateParse : String → Option Int) (p : Option String) : Option (Option Int) :=
  match given p with
  | none => some none
  | some s => (dateParse s).map some

/-- The query object of the list handler. `dateParse` is the date parser of the runtime;
a bound that is an invalid date fails the cast of the query. -/
def buildFilter (dateParse : String → Option Int) (q : ListQuery) : FilterResult :=
  match patternOf (if q.category = some "all" then none else q.category),
        patternOf q.location, patternOf q.name with
  | some c, some l, some n =>
    match boundOf dateParse q.dateFrom, boundOf dateParse q.dateTo with
    | some lo, some hi =>
      .ok { category := c, location := l, title := n, dateFrom := lo, dateTo := hi }
    | _, _ => .castError
  | _, _, _ => .unmodelled

/-- The order of `sort({ createdAt: -1 })`: newer first. -/
def NewerFirst (a b : CatalogEvent) : Prop := b.createdAt ≤ a.createdAt

instance : DecidableRel NewerFirst :=
  fun a b => inferInstanceAs (Decidable (b.createdAt ≤ a.createdAt))

instance : IsTotal CatalogEvent NewerFirst := ⟨fun a b => le_total b.createdAt a.createdAt⟩

instance : IsTrans CatalogEvent NewerFirst :=
  ⟨fun _ _ _ hab hbc => le_trans hbc hab⟩

/-- The matching documents in the order of the query. -/
def matching (f : Filter) (events : List CatalogEvent) : List CatalogEvent :=
  (events.filter f.accepts).insertionSort NewerFirst

/-- The page `skip((page - 1) * limit).limit(limit)` of a list. -/
def pageOf (page limit : Nat) (xs : List CatalogEvent) : List CatalogEvent :=
  (xs.drop ((page - 1) * limit)).take limit

/-- The body of a list response. -/
structure ListResponse where
  events : List CatalogEvent
  currentPage : Nat
  totalPages : Nat
  deriving DecidableEq, Repr

/-- The responses of the list handler. -/
inductive ListResult where
  | ok (r : ListResponse) : ListResult
  | serverError : ListResult
  deriving DecidableEq, Repr

/-- The value `parseInt(param)` of a paging parameter with its default. -/
def pagingParam (p : Option String) (default : Int) : Option Int :=
  match p with
  | none => some default
  | some s => parseInt s

/-- The list handler `router.get('/')`. The result is `none` where this embedding does not
follow the database: a pattern outside the modelled fragment, or a page or limit that is
not a positive integer. -/
def listEvents (dateParse : String → Option Int) (q : ListQuery)
    (events : List CatalogEvent) : Option ListResult :=
  match buildFilter dateParse q with
  | .unmodelled => none
  | .castError => some .serverError
  | .ok f =>
    match pagingParam q.page 1, pagingParam q.limit 9 with
    | some p, some l =>
      if 0 < p ∧ 0 < l then
        some (.ok { events := pageOf p.toNat l.toNat (matching f events),
                    currentPage := p.toNat,
                    totalPages := ((events.filter f.accepts).length + l.toNat - 1) / l.toNat })
      else none
    | _, _ => none

/-- Whether a form field is given, the value of `!!field`. -/
def present (f : Option String) : Bool := (given f).isSome

/-- The text fields of the multipart form of `POST /api/events/create`. -/
structure CreateFields where
  title : Option String
  description : Option String
  category : Option String
  date : Option String
  availableSeats : Option String
  price : Option String
  time : Option String
  location : Option String
  deriving DecidableEq, Repr

/-- The `received` map of the validation error. -/
structure Received where
  title : Bool
  description : Bool
  category : Bool
  date : Bool
  availableSeats : Bool
  deriving DecidableEq, Repr

/-- One entry of `address_components` in a geocoding result. -/
structure AddressComponent where
  longName : String
  types : List String
  deriving DecidableEq, Repr

/-- One geocoding result. -/
structure GeoResult where
  formattedAddress : String
  addressComponents : List AddressComponent
  deriving DecidableEq, Repr

/-- The outcome of one geocoding request: it fails, or it returns results. -/
inductive GeoReply where
  | failed : GeoReply
  | results (rs : List GeoResult) : GeoReply
  deriving DecidableEq, Repr

/-- The external geocoder: its answers to the request of `getGeocodedAddress` and to the
request of `getGeocodedCity` for a latitude and a longitude. -/
structure Geocoder where
  address : Json → Json → GeoReply
  city : Json → Json → GeoReply

/-- The helper `getGeocodedAddress`; `none` when it throws. -/
def getGeocodedAddress (reply : GeoReply) : Option String :=
  match reply with
  | .results (r :: _) => some r.formattedAddress
  | _ => none

/-- The helper `getGeocodedCity`: the locality component, else the third component;
`none` when it throws. -/
def getGeocodedCity (reply : GeoReply) : Option String :=
  match reply with
  | .results (r :: _) =>
    match r.addressComponents.find? (fun c => c.types.contains "locality") with
    | some c => some c.longName
    | none => (r.addressComponents.get? 2).map (·.longName)
  | _ => none

/-- JavaScript `ToBoolean` on a decoded JSON value. -/
def Json.truthy : Json → Bool
  | .null => false
  | .bool b => b
  | .num x => !(x.isNaN || x.isZero)
  | .str s => s != ""
  | .arr _ => true
  | .obj _ => true

/-- The coordinates the create handler sends to the geocoder, if it sends any: the `lat`
and `lng` of the parsed location when `location.lat && location.lng` holds. -/
def geocoderConsulted (locationStr : Option String) : Option (Json × Json) :=
  match given locationStr with
  | none => none
  | some text =>
    match jsonParse text with
    | none => none
    | some loc =>
      match loc.prop "lat", loc.prop "lng" with
      | some lat, some lng => if lat.truthy && lng.truthy then some (lat, lng) else none
      | _, _ => none

/-- The values of `address` and `city` after the location of the form is handled: empty
when the geocoder is not consulted, the fallback texts when a lookup fails. -/
def resolveLocation (geo : Geocoder) (locationStr : Option String) : String × String :=
  match geocoderConsulted locationStr with
  | none => ("", "")
  | some (lat, lng) =>
    match getGeocodedAddress (geo.address lat lng), getGeocodedCity (geo.city lat lng) with
    | some a, some c => (a, c)
    | _, _ => ("Address not available", "City not available")

/-- The expression `text || fallback` on strings. -/
def orElse (text fallback : String) : String := if text != "" then text else fallback

/-- The text given to `new Date`: the date and time combined, or the date alone. -/
def dateText (f : CreateFields) : String :=
  match given f.time with
  | some t => f.date.getD "" ++ "T" ++ t ++ ":00"
  | none => f.date.getD ""

/-- The expression `parseFloat(price) || 0`. -/
def priceOf (price : Option String) : JSNum :=
  let x := parseFloat (price.getD "undefined")
  if x.isNaN || x.isZero then .fin 0 0 else x

/-- A fresh event `_id`, different from every stored one. -/
def freshEventId (events : List CatalogEvent) : Nat :=
  events.foldr (fun e n => max (e.id + 1) n) 0

/-- The responses of the create handler. -/
inductive CreateResponse where
  | unauthorized : CreateResponse
  | invalidToken : CreateResponse
  | missingFields (received : Received) : CreateResponse
  | invalidDate : CreateResponse
  | created (event : CatalogEvent) : CreateResponse
  | serverError : CreateResponse
  deriving DecidableEq, Repr

/-- The HTTP status of a create response. -/
def CreateResponse.httpStatus : CreateResponse → Nat
  | .unauthorized => 401
  | .invalidToken => 401
  | .missingFields _ => 400
  | .invalidDate => 400
  | .created _ => 200
  | .serverError => 500

/-- The `error` property of a create response. -/
def CreateResponse.error : CreateResponse → Option String
  | .unauthorized => some "Unauthorized"
  | .invalidToken => some "Invalid token"
  | .missingFields _ => some "Missing required fields"
  | .invalidDate => some "Invalid date format"
  | .created _ => none
  | .serverError => some "Failed to create event"

/-- The document `new EventModel({ ... })` of the create handler, for the verified token
`decoded`, the parsed date and the parsed seat count.
Modelled from the spec: `src/utils/models.js` is not among the sources; a new event has
no booked seats, no `location` and the time of the call as its creation time. -/
def createdEvent (nowMs : Nat) (geo : Geocoder) (f : CreateFields) (file : Option String)
    (events : List CatalogEvent) (decoded : TokenPayload) (eventDate seats : Int) :
    CatalogEvent :=
  { id := freshEventId events, title := f.title.getD "",
    description := f.description.getD "", category := f.category.getD "",
    address := orElse (resolveLocation geo f.location).1 "Address not specified",
    city := orElse (resolveLocation geo f.location).2 "City not specified", location := none,
    date := eventDate, availableSeats := seats, bookedSeats := 0,
    price := priceOf f.price,
    imageUrl := (match file with
      | some name => "/uploads/" ++ name
      | none => "/images/mockhead.jpg"),
    organizer := decoded.id, createdAt := nowMs }

/-- Whether the five required fields of the form are all given. -/
def complete (f : CreateFields) : Bool :=
  present f.title && present f.description && present f.category && present f.date &&
    present f.availableSeats

/-- The create handler `router.post('/create')`. `nowMs` is the time in milliseconds,
`dateParse` the date parser of the runtime, `file` the name of the uploaded image.
Modelled from the spec: `src/utils/models.js` is not among the sources; the seat count is
a numeric field, so `save` rejects `NaN`. -/
def createEvent (key : String) (nowMs : Nat) (dateParse : String → Option Int)
    (geo : Geocoder) (authorization : Option Token) (f : CreateFields) (file : Option String)
    (events : List CatalogEvent) : CreateResponse × List CatalogEvent :=
  if tokenMissing authorization then (.unauthorized, events)
  else
    match verified key (nowMs / 1000) authorization with
    | none => (.invalidToken, events)
    | some decoded =>
      if !complete f then
        (.missingFields { title := present f.title, description := present f.description,
                          category := present f.category, date := present f.date,
                          availableSeats := present f.availableSeats }, events)
      else
        match dateParse (dateText f) with
        | none => (.invalidDate, events)
        | some eventDate =>
          match parseInt (f.availableSeats.getD "") with
          | none => (.serverError, events)
          | some seats =>
            (.created (createdEvent nowMs geo f file events decoded eventDate seats),
              events ++ [createdEvent nowMs geo f file events decoded eventDate seats])

/-! ## Reviews and user routes: `server/routes/rating.js`, `server/routes/user.js` -/

/-- A review document.
Modelled from the spec: `src/utils/models.js` is not among the sources; a review
references a user and an event and has a numeric rating and a comment. -/
structure Review where
  id : Nat
  user : Nat
  event : String
  rating : Option JSNum
  reviewText : Option String
  deriving DecidableEq, Repr

/-- The cast of a value to a numeric field: `none` when the cast fails, `some none` when
the field stays empty. -/
def castNumber : JSVal → Option (Option JSNum)
  | .undefined => some none
  | .null => some none
  | .bool b => some (some (.fin (if b then 1 else 0) 0))
  | .num x => if (toBinary64 x).isNaN then none else some (some (toBinary64 x))
  | .str s =>
    if s == "" then some none
    else if (stringToNumber s).isNaN then none else some (some (stringToNumber s))

/-- The cast of a value to a text field. -/
def castString : JSVal → Option String
  | .undefined => none
  | .null => none
  | v => some (toStr v)

/-- The responses of `router.post('/:id')` of the rating routes. -/
inductive ReviewResponse where
  | unauthorized : ReviewResponse
  | created (review : Review) : ReviewResponse
  | serverError : ReviewResponse
  deriving DecidableEq, Repr

/-- The HTTP status of a review response. -/
def ReviewResponse.httpStatus : ReviewResponse → Nat
  | .unauthorized => 401
  | .created _ => 200
  | .serverError => 500

/-- A fresh review `_id`. -/
def freshReviewId (reviews : List Review) : Nat :=
  reviews.foldr (fun r n => max (r.id + 1) n) 0

/-- The handler that creates a review. A token that does not verify makes `jwt.verify`
throw inside the only `try` block, whose `catch` answers 500. -/
def postReview (key : String) (now : Nat) (authorization : Option Token) (eventId : String)
    (rating reviewText : JSVal) (reviews : List Review) : ReviewResponse × List Review :=
  if tokenMissing authorization then (.unauthorized, reviews)
  else
    match verified key now authorization with
    | none => (.serverError, reviews)
    | some decoded =>
      match castNumber rating with
      | none => (.serverError, reviews)
      | some r =>
        let review : Review :=
          { id := freshReviewId reviews, user := decoded.id, event := eventId, rating := r,
            reviewText := castString reviewText }
        (.created review, reviews ++ [review])

/-- The handler that lists the reviews of an event: `ReviewModel.find({ event: id })`. -/
def listReviews (eventId : String) (reviews : List Review) : List Review :=
  reviews.filter (fun r => r.event == eventId)

/-- The responses of `router.get('/balance')`. -/
inductive BalanceResponse where
  | unauthorized : BalanceResponse
  | notFound : BalanceResponse
  | ok (balance : JSVal) : BalanceResponse
  | serverError : BalanceResponse
  deriving DecidableEq, Repr

/-- The HTTP status of a balance response. -/
def BalanceResponse.httpStatus : BalanceResponse → Nat
  | .unauthorized => 401
  | .notFound => 404
  | .ok _ => 200
  | .serverError => 500

/-- The handler of `GET /api/user/balance`. -/
def getBalance (key : String) (now : Nat) (authorization : Option Token)
    (users : List User) : BalanceResponse :=
  if tokenMissing authorization then .unauthorized
  else
    match verified key now authorization with
    | none => .serverError
    | some decoded =>
      match users.find? (fun u => u.id == decoded.id) with
      | none => .notFound
      | some u => .ok (if truthy u.balance then u.balance else .num (.fin 0 0))

/-- The responses of `router.get('/events')` of the user routes. -/
inductive UserEventsResponse where
  | unauthorized : UserEventsResponse
  | ok (events : List CatalogEvent) : UserEventsResponse
  | serverError : UserEventsResponse
  deriving DecidableEq, Repr

/-- The HTTP status of a user-events response. -/
def UserEventsResponse.httpStatus : UserEventsResponse → Nat
  | .unauthorized => 401
  | .ok _ => 200
  | .serverError => 500

/-- The handler of `GET /api/user/events`: `EventModel.find({ organizer: decoded.id })`. -/
def getUserEvents (key : String) (now : Nat) (authorization : Option Token)
    (events : List CatalogEvent) : UserEventsResponse :=
  if tokenMissing authorization then .unauthorized
  else
    match verified key now authorization with
    | none => .serverError
    | some decoded => .ok (events.filter (fun e => e.organizer == decoded.id))

/-- Whether `text` contains `c` as a substring when case is ignored. -/
def ciContains (text c : String) : Prop :=
  (c.toList.map foldCase) <:+: (text.toList.map foldCase)

instance (text c : String) : Decidable (ciContains text c) :=
  inferInstanceAs (Decidable ((c.toList.map foldCase) <:+: (text.toList.map foldCase)))

/-- A date parser for examples: it reads a text of decimal digits as milliseconds and
rejects every other text. -/
def sampleDateParse (s : String) : Option Int :=
  if s.toList.all Char.isDigit && s != "" then
    some (s.toList.foldl (fun n c => 10 * n + ((c.toNat - 48 : Nat) : Int)) 0)
  else none

/-- A geocoding result for examples. -/
def samplePlace : GeoResult :=
  { formattedAddress := "Main Street 1, Berlin",
    addressComponents := [{ longName := "Berlin", types := ["locality", "political"] }] }

/-- A geocoder for examples: it resolves every pair of coordinates to the same place. -/
def sampleGeocoder : Geocoder :=
  { address := fun _ _ => .results [samplePlace],
    city := fun _ _ => .results [samplePlace] }

/-- A geocoder for examples that fails every lookup. -/
def failingGeocoder : Geocoder :=
  { address := fun _ _ => .failed, city := fun _ _ => .failed }

/-- A token payload for examples, valid for the first seven days. -/
def samplePayload : TokenPayload :=
  { id := 7, username := "ann", email := "ann@x.org", iat := 0, exp := 604800 }

/-- A token for examples: the sample payload signed with the key "k". -/
def sampleToken : Token := .signed samplePayload "k"

/-- A create form for examples, with all five required fields and no location. -/
def sampleForm : CreateFields :=
  { title := some "Jazz night", description := some "Live", category := some "Music",
    date := some "1000", availableSeats := some "50", price := some "12.5", time := none,
    location := none }

/-- The sample form with coordinates in Berlin as its location. -/
def locatedForm : CreateFields :=
  { sampleForm with location := some "\x7b\"lat\":52.5,\"lng\":13.4\x7d" }

/-- The list query without any parameter. -/
def noFilter : ListQuery :=
  { category := none, location := none, name := none, dateFrom := none, dateTo := none,
    page := none, limit := none }

/-- A stored review for examples, by the user of the sample token. -/
def sampleReview : Review :=
  { id := 0, user := 7, event := "e1", rating := some (.fin 5 0), reviewText := some "fine" }

/-- The query object without any condition. -/
def emptyFilter : Filter :=
  { category := none, location := none, title := none, dateFrom := none, dateTo := none }

/-- Two stored events for examples, the second created after the first. -/
def twoEvents : List CatalogEvent :=
  [createdEvent 5000 sampleGeocoder sampleForm none [] samplePayload 1000 50,
   createdEvent 6000 sampleGeocoder { sampleForm with title := some "Salsa night" } none
     [createdEvent 5000 sampleGeocoder sampleForm none [] samplePayload 1000 50]
     samplePayload 2000 30]

/-- Whether a decimal is the writing in lowest terms of a binary64 value other than zero.
Every finite JavaScript number other than 0 has exactly one such decimal. -/
def JSNum.isFinite64 : JSNum → Bool
  | .fin m e => m != 0 && (e == 0 || m % 10 != 0) && toBinary64 (.fin m e) == .fin m e
  | _ => false

/-- Whether a scalar value is an id that order creation accepts and `JSON.stringify`
writes as it is: a string that is not empty, `true`, or a finite number other than 0. -/
def acceptedId : JSVal → Bool
  | .str s => s != ""
  | .bool b => b
  | .num x => x.isFinite64
  | _ => false

/-- Whether a decoded JSON value is the given scalar value. -/
def Json.isValue : Json → JSVal → Bool
  | .str s, .str t => s == t
  | .bool a, .bool b => a == b
  | .num y, .num x => y.sameValue (toBinary64 x)
  | .null, .null => true
  | _, _ => false

/-! ## Lemmas on the capture handler -/

/-- The branch that creates a booking when every database call resolves: it fails before
anything is written, or it stores the booking and adds the seats. -/
theorem createBooking_resolves (r : CaptureResult) (e u : Option String) (q : JSVal)
    (s : Store) :
    createBooking allResolve r e u q s =
      match seatCount q with
      | none => (.failed .bookingValidation, s)
      | some n =>
        if (capturedAmount r.amountValue).isNaN then (.failed .bookingValidation, s)
        else
          (.created r.id r.status
              (paidBooking (freshId s.bookings) e u n (capturedAmount r.amountValue)) r.metadata,
            { events := addSeats s.events e n,
              bookings := paidBooking (freshId s.bookings) e u n (capturedAmount r.amountValue) ::
                s.bookings }) := by
  unfold createBooking
  cases seatCount q with
  | none => rfl
  | some n => simp [allResolve]

/-- The capture handler when every database call resolves. -/
theorem capture_eq (c : Bool) (o : JSVal) (reply : ProviderReply) (s : Store) :
    capture c o reply s =
      if !c then (.notConfigured, s)
      else if !truthy o then (.orderIdRequired, s)
      else
        match reply with
        | .error msg => (.failed (.provider msg), s)
        | .result r =>
          if r.status == "COMPLETED" then
            match r.metadata with
            | .null => (.failed .metadataNull, s)
            | .obj eventId userId quantity =>
              match findLatest s.bookings eventId userId with
              | none => createBooking allResolve r eventId userId quantity s
              | some existing =>
                if existing.paymentStatus != "paid" then
                  createBooking allResolve r eventId userId quantity s
                else (.alreadyConfirmed r.id r.status existing r.metadata, s)
          else (.notCompleted r.status, s) := by
  unfold capture captureWith
  simp [allResolve]

/-- A fresh id is above every stored id. -/
theorem freshId_gt (bs : List Booking) : ∀ b ∈ bs, b.id < freshId bs := by
  induction bs with
  | nil => intro b hb; cases hb
  | cons a t ih =>
    intro b hb
    simp only [freshId, List.foldr_cons] at ih ⊢
    rcases List.mem_cons.mp hb with h | h
    · subst h; omega
    · have := ih b h; omega

/-- A booking returned by the lookup is stored and belongs to the pair asked for. -/
theorem findLatest_some {bs : List Booking} {e u : Option String} {b : Booking}
    (h : findLatest bs e u = some b) : b ∈ bs ∧ b.event = e ∧ b.user = u := by
  unfold findLatest at h
  have hm := List.mem_of_find?_eq_some h
  have hp := List.find?_some h
  simp at hp
  exact ⟨hm, hp.1, hp.2⟩

/-- A booking just saved for a pair is the most recent one of that pair. -/
theorem findLatest_paidBooking (i : Nat) (e u : Option String) (n : Int) (t : JSNum)
    (bs : List Booking) :
    findLatest (paidBooking i e u n t :: bs) e u = some (paidBooking i e u n t) := by
  simp [findLatest, paidBooking]

/-- The decision of the handler once the provider reports a completed capture with
readable metadata. -/
theorem capture_completed (o : JSVal) (r : CaptureResult) (e u : Option String) (q : JSVal)
    (s : Store) (ho : truthy o = true) (hs : r.status = "COMPLETED")
    (hm : r.metadata = .obj e u q) :
    capture true o (.result r) s =
      match findLatest s.bookings e u with
      | none => createBooking allResolve r e u q s
      | some b =>
        if b.paymentStatus = "paid" then (.alreadyConfirmed r.id r.status b r.metadata, s)
        else createBooking allResolve r e u q s := by
  simp only [capture_eq, ho, hs, hm]
  cases h : findLatest s.bookings e u with
  | none => simp
  | some b => by_cases hp : b.paymentStatus = "paid" <;> simp [hp]

/-- The creating branch either fails validation and writes nothing, or saves one paid
booking and adds its seats. -/
theorem createBooking_cases (r : CaptureResult) (e u : Option String) (q : JSVal) (s : Store) :
    createBooking allResolve r e u q s = (.failed .bookingValidation, s) ∨
    ∃ n, seatCount q = some n ∧ (capturedAmount r.amountValue).isNaN = false ∧
      createBooking allResolve r e u q s =
        (.created r.id r.status
            (paidBooking (freshId s.bookings) e u n (capturedAmount r.amountValue)) r.metadata,
          { events := addSeats s.events e n,
            bookings := paidBooking (freshId s.bookings) e u n (capturedAmount r.amountValue)
              :: s.bookings }) := by
  rw [createBooking_resolves]
  cases hq : seatCount q with
  | none => left; rfl
  | some n =>
    cases ht : (capturedAmount r.amountValue).isNaN with
    | true => left; simp [ht]
    | false => right; exact ⟨n, rfl, rfl, by simp [ht]⟩

/-- Every capture call either leaves the store as it was, or is a completed capture that
prepends one paid booking and adds its seats. -/
theorem capture_effect (c : Bool) (o : JSVal) (reply : ProviderReply) (s : Store) :
    ((capture c o reply s).2 = s ∧ ∀ a b x m, (capture c o reply s).1 ≠ .created a b x m) ∨
    ∃ r e u q n, c = true ∧ truthy o = true ∧ reply = .result r ∧ r.status = "COMPLETED" ∧
      r.metadata = .obj e u q ∧
      seatCount q = some n ∧ (capturedAmount r.amountValue).isNaN = false ∧
      (∀ b, findLatest s.bookings e u = some b → b.paymentStatus ≠ "paid") ∧
      capture c o reply s =
        (.created r.id r.status
            (paidBooking (freshId s.bookings) e u n (capturedAmount r.amountValue)) r.metadata,
          { events := addSeats s.events e n,
            bookings := paidBooking (freshId s.bookings) e u n (capturedAmount r.amountValue)
              :: s.bookings }) := by
  cases c with
  | false => left; simp [capture_eq]
  | true =>
    cases ho : truthy o with
    | false => left; simp [capture_eq, ho]
    | true =>
      cases reply with
      | error msg => left; simp [capture_eq, ho]
      | result r =>
        by_cases hs : r.status = "COMPLETED"
        · cases hm : r.metadata with
          | null => left; simp [capture_eq, ho, hs, hm]
          | obj e u q =>
            have hcreate : (∀ b, findLatest s.bookings e u = some b → b.paymentStatus ≠ "paid") →
                capture true o (.result r) s = createBooking allResolve r e u q s := by
              intro hnp
              rw [capture_completed o r e u q s ho hs hm]
              cases hf : findLatest s.bookings e u with
              | none => rfl
              | some b => simp [hnp b hf]
            by_cases hnp : ∀ b, findLatest s.bookings e u = some b → b.paymentStatus ≠ "paid"
            · rw [hcreate hnp]
              rcases createBooking_cases r e u q s with h | ⟨n, hq, ht, h⟩
              · left; simp [h]
              · right; exact ⟨r, e, u, q, n, rfl, rfl, rfl, hs, hm, hq, ht, hnp, h⟩
            · left
              push_neg at hnp
              obtain ⟨b, hf, hp⟩ := hnp
              rw [capture_completed o r e u q s ho hs hm, hf]
              simp [hp]
        · left; simp [capture_eq, ho, hs]

/-- Looking up the event whose seats were just added returns it with the seats added. -/
theorem findById_bumpSeats (id : String) (n : Int) (events : List Event) (ev : Event)
    (h : findById events (some id) = some ev) :
    findById (bumpSeats id n events) (some id) =
      some { ev with bookedSeats := ev.bookedSeats + n } := by
  induction events with
  | nil => simp [findById] at h
  | cons a t ih =>
    simp only [findById, List.find?_cons] at h ih ⊢
    by_cases ha : (a.id == id) = true
    · simp only [bumpSeats, ha, if_true, List.find?_cons] at h ⊢
      cases h; rfl
    · have ha' : (a.id == id) = false := by simpa using ha
      simp only [bumpSeats, ha', List.find?_cons] at h ⊢
      simp only [Bool.false_eq_true, if_false, List.find?_cons, ha']
      exact ih h

/-- Adding seats to one event leaves the lookup of every other id as it was. -/
theorem findById_bumpSeats_ne (id id' : String) (n : Int) (events : List Event)
    (hne : id' ≠ id) :
    findById (bumpSeats id n events) (some id') = findById events (some id') := by
  induction events with
  | nil => rfl
  | cons a t ih =>
    simp only [findById] at ih ⊢
    by_cases ha : (a.id == id) = true
    · have ha' : a.id = id := by simpa using ha
      have : (a.id == id') = false := by
        simp only [beq_eq_false_iff_ne, ne_eq]
        intro h; exact hne (h.symm.trans ha')
      simp [bumpSeats, ha, List.find?_cons, this]
    · have ha' : (a.id == id) = false := by simpa using ha
      simp only [bumpSeats, ha', Bool.false_eq_true, if_false, List.find?_cons]
      by_cases hb : (a.id == id') = true
      · simp [hb]
      · have hb' : (a.id == id') = false := by simpa using hb
        simp only [hb']; exact ih

/-- Running the capture handler again with the same request and the same provider
reply changes nothing more. -/
theorem capture_twice (c : Bool) (o : JSVal) (reply : ProviderReply) (s : Store) :
    (capture c o reply (capture c o reply s).2).2 = (capture c o reply s).2 := by
  rcases capture_effect c o reply s with ⟨h, -⟩ | ⟨r, e, u, q, n, hc, ho, hr, hs, hm, hq, ht, -, h⟩
  · rw [h]; exact h
  · subst hc hr
    rw [h]
    simp only
    rw [capture_completed o r e u q _ ho hs hm]
    simp only [findLatest_paidBooking]
    simp [paidBooking]

/-! ## The claims on capture -/

/-- C2: capture is idempotent per (event, user). If the most recent booking stored for
the pair of the order metadata is paid, a completed capture answers 200 with that booking
and the message "Booking already confirmed", stores no booking and leaves every event as
it was; and running the handler twice on the same order (same request, same provider
reply) leaves the same store as running it once. -/
theorem capture_idempotent_per_pair (o : JSVal) (r : CaptureResult) (e u : Option String)
    (q : JSVal) (b : Booking) (s : Store)
    (ho : truthy o = true) (hs : r.status = "COMPLETED") (hm : r.metadata = .obj e u q)
    (hb : findLatest s.bookings e u = some b) (hp : b.paymentStatus = "paid") :
    (capture true o (.result r) s).1.booking = some b ∧
    (capture true o (.result r) s).1.message = some "Booking already confirmed" ∧
    (capture true o (.result r) s).1.httpStatus = 200 ∧
    (capture true o (.result r) s).2.bookings = s.bookings ∧
    (capture true o (.result r) s).2.events = s.events ∧
    ∀ (c : Bool) (o' : JSVal) (reply : ProviderReply) (s0 : Store),
      (capture c o' reply (capture c o' reply s0).2).2 = (capture c o' reply s0).2 := by
  have h : capture true o (.result r) s = (.alreadyConfirmed r.id r.status b r.metadata, s) := by
    rw [capture_completed o r e u q s ho hs hm, hb]
    simp [hp]
  rw [h]
  exact ⟨rfl, rfl, rfl, rfl, rfl, capture_twice⟩

/-- C2, on a store holding one paid booking of user `u1` for event `e1`: a second completed
capture for the pair returns that booking and writes nothing. -/
theorem capture_idempotent_per_pair_witness :
    (capture true (.str "O2")
        (completed "O2" (some "e1") (some "u1") (.str "2") (some "20.00"))
        { events := [{ id := "e1", availableSeats := 10, bookedSeats := 3 }],
          bookings := [paidBooking 0 (some "e1") (some "u1") 3 (.fin 3000 2)] }).1.booking
      = some (paidBooking 0 (some "e1") (some "u1") 3 (.fin 3000 2)) :=
  (capture_idempotent_per_pair (.str "O2")
    { id := "O2", status := "COMPLETED",
      metadata := .obj (some "e1") (some "u1") (.str "2"), amountValue := some "20.00" }
    (some "e1") (some "u1") (.str "2") (paidBooking 0 (some "e1") (some "u1") 3 (.fin 3000 2))
    { events := [{ id := "e1", availableSeats := 10, bookedSeats := 3 }],
      bookings := [paidBooking 0 (some "e1") (some "u1") 3 (.fin 3000 2)] }
    (by decide) rfl rfl (by decide) rfl).1

/-- C3: when the provider reports COMPLETED and the pair of the metadata has no booking,
or its most recent booking is not paid, capture stores exactly one new booking, with the
event, user, seat count (`parseInt(metadata.quantity || '1')`) and captured amount of the
order, paid and confirmed; the referenced event then has its previous booked seats plus
the seat count, and every other event is looked up as before. -/
theorem capture_creates_booking (o : JSVal) (r : CaptureResult) (e u : Option String)
    (q : JSVal) (n : Int) (s : Store)
    (ho : truthy o = true) (hs : r.status = "COMPLETED") (hm : r.metadata = .obj e u q)
    (hq : seatCount q = some n) (ht : (capturedAmount r.amountValue).isNaN = false)
    (hnew : ∀ b, findLatest s.bookings e u = some b → b.paymentStatus ≠ "paid") :
    ∃ b : Booking,
      (capture true o (.result r) s).1 = .created r.id r.status b r.metadata ∧
      (capture true o (.result r) s).2.bookings = b :: s.bookings ∧
      b ∉ s.bookings ∧
      b.event = e ∧ b.user = u ∧ b.numberOfSeats = n ∧
      b.totalPrice = capturedAmount r.amountValue ∧
      b.paymentStatus = "paid" ∧ b.status = "confirmed" ∧
      (∀ id ev, e = some id → findById s.events (some id) = some ev →
        bookedSeatsOf (capture true o (.result r) s).2 id = some (ev.bookedSeats + n)) ∧
      (∀ id', e ≠ some id' →
        bookedSeatsOf (capture true o (.result r) s).2 id' = bookedSeatsOf s id') := by
  have hcap : capture true o (.result r) s = createBooking allResolve r e u q s := by
    rw [capture_completed o r e u q s ho hs hm]
    cases hf : findLatest s.bookings e u with
    | none => rfl
    | some b => simp [hnew b hf]
  have hcb : createBooking allResolve r e u q s =
      (.created r.id r.status
          (paidBooking (freshId s.bookings) e u n (capturedAmount r.amountValue)) r.metadata,
        { events := addSeats s.events e n,
          bookings := paidBooking (freshId s.bookings) e u n (capturedAmount r.amountValue)
            :: s.bookings }) := by
    simp [createBooking_resolves, hq, ht]
  rw [hcap, hcb]
  refine ⟨_, rfl, rfl, ?_, rfl, rfl, rfl, rfl, rfl, rfl, ?_, ?_⟩
  · intro hmem
    have := freshId_gt s.bookings _ hmem
    simp [paidBooking] at this
  · intro id ev he hev
    subst he
    simp only [bookedSeatsOf, addSeats, hev]
    rw [findById_bumpSeats id n s.events ev hev]
    rfl
  · intro id' hne
    simp only [bookedSeatsOf, addSeats]
    cases e with
    | none => cases hf : findById s.events none <;> rfl
    | some id =>
      have hid : id' ≠ id := fun h => hne (by rw [h])
      cases hf : findById s.events (some id) with
      | none => rfl
      | some ev => simp only; rw [findById_bumpSeats_ne id id' n s.events hid]

/-- C3, on a store with one event and no booking: capturing an order of 3 seats books
3 seats on the event. -/
theorem capture_creates_booking_witness :
    ∃ b : Booking,
      (capture true (.str "O1")
        (.result { id := "O1", status := "COMPLETED",
                   metadata := .obj (some "e1") (some "u1") (.str "3"),
                   amountValue := some "30.00" })
        (Store.empty.addEvent (newEvent "e1" 10))).2.bookings = [b] ∧
      b.numberOfSeats = 3 ∧ b.paymentStatus = "paid" := by
  obtain ⟨b, -, h2, -, -, -, h6, -, h8, -⟩ :=
    capture_creates_booking (.str "O1")
      { id := "O1", status := "COMPLETED",
        metadata := .obj (some "e1") (some "u1") (.str "3"), amountValue := some "30.00" }
      (some "e1") (some "u1") (.str "3") 3 (Store.empty.addEvent (newEvent "e1" 10))
      (by decide) rfl rfl (by decide) (by decide) (by decide)
  exact ⟨b, h2, h6, h8⟩

/-- C4: a capture call whose provider status is anything other than COMPLETED is answered
with HTTP 400 carrying the status the provider reported, and the store (the booking
collection and every event) is the same after the call as before. -/
theorem capture_not_completed (o : JSVal) (r : CaptureResult) (s : Store)
    (ho : truthy o = true) (hr : r.status ≠ "COMPLETED") :
    (capture true o (.result r) s).1.httpStatus = 400 ∧
    (capture true o (.result r) s).1.reportedStatus = some r.status ∧
    (capture true o (.result r) s).1.booking = none ∧
    (capture true o (.result r) s).2 = s := by
  have h : capture true o (.result r) s = (.notCompleted r.status, s) := by
    simp [capture_eq, ho, hr]
  rw [h]
  exact ⟨rfl, rfl, rfl, rfl⟩

/-- C4, for an order the provider reports as PENDING. -/
theorem capture_not_completed_witness :
    (capture true (.str "O1")
      (.result { id := "O1", status := "PENDING",
                 metadata := .obj (some "e1") (some "u1") (.str "3"),
                 amountValue := some "30.00" })
      (Store.empty.addEvent (newEvent "e1" 10))).1.httpStatus = 400 :=
  (capture_not_completed (.str "O1")
    { id := "O1", status := "PENDING",
      metadata := .obj (some "e1") (some "u1") (.str "3"), amountValue := some "30.00" }
    (Store.empty.addEvent (newEvent "e1" 10)) (by decide) (by decide)).1

/-- C1: the bound `bookedSeats ≤ availableSeats` is not kept by capture. After an event
with 10 seats is created, two completed captures of 8 seats each, by two users, leave the
event with 16 booked seats of 10 available: the handler adds the seats without comparing
them with the seats left. -/
theorem capture_overbooks :
    findById (runCalls
        [.createEvent "e1" 10,
         .capture true (.str "O1")
           (completed "O1" (some "e1") (some "u1") (.str "8") (some "80.00")),
         .capture true (.str "O2")
           (completed "O2" (some "e1") (some "u2") (.str "8") (some "80.00"))]
        Store.empty).events (some "e1")
      = some { id := "e1", availableSeats := 10, bookedSeats := 16 } := by
  decide

/-- C9: a request that supplies all five fields with `amount: 0`, as the event page sends
for a free event, is answered 400 "Missing required fields" and nothing is sent to the
provider. -/
theorem createOrder_rejects_free_event (provider : OrderRequest → OrderReply) (s : Store) :
    (createOrder true none
      { amount := .num (.fin 0 0), quantity := .num (.fin 1 0), eventName := .str "Meetup",
        userId := .str "u1", eventId := .str "e1" } provider s).1 = .missingFields ∧
    OrderResponse.missingFields.httpStatus = 400 ∧
    OrderResponse.missingFields.error = some "Missing required fields" ∧
    sentOrder true none
      { amount := .num (.fin 0 0), quantity := .num (.fin 1 0), eventName := .str "Meetup",
        userId := .str "u1", eventId := .str "e1" } = none := by
  refine ⟨?_, rfl, rfl, ?_⟩
  · have hm : missingFields
        { amount := .num (.fin 0 0), quantity := .num (.fin 1 0), eventName := .str "Meetup",
          userId := .str "u1", eventId := .str "e1" } = true := by decide
    simp [createOrder, hm]
  · decide

/-! ## Invariants of the store -/

/-- The order handler returns the store it was given. -/
theorem createOrder_store (c : Bool) (origin : Option String) (b : OrderBody)
    (provider : OrderRequest → OrderReply) (s : Store) :
    (createOrder c origin b provider s).2 = s := by
  unfold createOrder
  repeat' split
  all_goals rfl

/-- One call either keeps the booking list or is a completed capture that prepends one
booking with a fresh id, paid and confirmed. -/
theorem run_bookings (call : Call) (s : Store) :
    (call.run s).bookings = s.bookings ∨
    ∃ (c : Bool) (o : JSVal) (r : CaptureResult) (b : Booking),
      call = .capture c o (.result r) ∧ r.status = "COMPLETED" ∧
      (call.run s).bookings = b :: s.bookings ∧ b.id = freshId s.bookings ∧
      b.paymentStatus = "paid" ∧ b.status = "confirmed" := by
  cases call with
  | createEvent id n => left; rfl
  | order c o b p => left; simp [Call.run, createOrder_store]
  | capture c o reply =>
    rcases capture_effect c o reply s with ⟨h, -⟩ | ⟨r, e, u, q, n, -, -, hr, hs, -, -, -, -, h⟩
    · left; simp [Call.run, h]
    · right
      refine ⟨c, o, r, paidBooking (freshId s.bookings) e u n (capturedAmount r.amountValue),
        by rw [hr], hs, ?_, rfl, rfl, rfl⟩
      simp [Call.run, h]

/-- Every booking stored before a call is stored after it. -/
theorem run_bookings_mem (call : Call) (s : Store) (b : Booking) (hb : b ∈ s.bookings) :
    b ∈ (call.run s).bookings := by
  rcases run_bookings call s with h | ⟨_, _, _, b', _, _, h, _⟩
  · rw [h]; exact hb
  · rw [h]; exact List.mem_cons_of_mem _ hb

/-- Every booking stored before a sequence of calls is stored after it. -/
theorem runCalls_bookings_mem (calls : List Call) (s : Store) (b : Booking)
    (hb : b ∈ s.bookings) : b ∈ (runCalls calls s).bookings := by
  induction calls generalizing s with
  | nil => exact hb
  | cons call rest ih =>
    simp only [runCalls, List.foldl_cons]
    exact ih (call.run s) (run_bookings_mem call s b hb)

/-- A call keeps the stored booking ids pairwise different. -/
theorem run_ids_nodup (call : Call) (s : Store)
    (h : (s.bookings.map (·.id)).Nodup) : ((call.run s).bookings.map (·.id)).Nodup := by
  rcases run_bookings call s with hb | ⟨_, _, _, b, _, _, hb, hid, _⟩
  · rw [hb]; exact h
  · rw [hb, List.map_cons, List.nodup_cons]
    refine ⟨?_, h⟩
    intro hmem
    obtain ⟨b', hb', hbid⟩ := List.mem_map.mp hmem
    have := freshId_gt s.bookings b' hb'
    omega

/-- A sequence of calls keeps the stored booking ids pairwise different. -/
theorem runCalls_ids_nodup (calls : List Call) (s : Store)
    (h : (s.bookings.map (·.id)).Nodup) :
    ((runCalls calls s).bookings.map (·.id)).Nodup := by
  induction calls generalizing s with
  | nil => exact h
  | cons call rest ih =>
    simp only [runCalls, List.foldl_cons]
    exact ih (call.run s) (run_ids_nodup call s h)

/-- A sequence of calls keeps every stored booking paid and confirmed. -/
theorem runCalls_paid (calls : List Call) (s : Store)
    (h : ∀ b ∈ s.bookings, b.paymentStatus = "paid" ∧ b.status = "confirmed") :
    ∀ b ∈ (runCalls calls s).bookings, b.paymentStatus = "paid" ∧ b.status = "confirmed" := by
  induction calls generalizing s with
  | nil => exact h
  | cons call rest ih =>
    simp only [runCalls, List.foldl_cons]
    apply ih (call.run s)
    rcases run_bookings call s with hb | ⟨_, _, _, b, _, _, hb, _, hp, hc⟩
    · rw [hb]; exact h
    · rw [hb]
      intro x hx
      rcases List.mem_cons.mp hx with rfl | hx
      · exact ⟨hp, hc⟩
      · exact h x hx

/-- The booking a capture response carries is stored afterwards and belongs to the pair
of the order metadata. -/
theorem capture_booking_mem (c : Bool) (o : JSVal) (r : CaptureResult)
    (e u : Option String) (q : JSVal) (s : Store) (b : Booking)
    (hm : r.metadata = .obj e u q)
    (hb : (capture c o (.result r) s).1.booking = some b) :
    b ∈ (capture c o (.result r) s).2.bookings ∧ b.event = e ∧ b.user = u ∧
      r.status = "COMPLETED" := by
  cases c with
  | false => simp [capture_eq, CaptureResponse.booking] at hb
  | true =>
    cases ho : truthy o with
    | false => simp [capture_eq, ho, CaptureResponse.booking] at hb
    | true =>
      by_cases hs : r.status = "COMPLETED"
      · rw [capture_completed o r e u q s ho hs hm] at hb ⊢
        have hcreate : ∀ b, (createBooking allResolve r e u q s).1.booking = some b →
            b ∈ (createBooking allResolve r e u q s).2.bookings ∧ b.event = e ∧ b.user = u := by
          intro b hb
          rcases createBooking_cases r e u q s with h | ⟨n, -, -, h⟩
          · rw [h] at hb; simp [CaptureResponse.booking] at hb
          · rw [h] at hb ⊢
            simp only [CaptureResponse.booking, Option.some.injEq] at hb
            subst hb
            exact ⟨List.mem_cons_self _ _, rfl, rfl⟩
        cases hf : findLatest s.bookings e u with
        | none =>
          rw [hf] at hb
          exact ⟨(hcreate b hb).1, (hcreate b hb).2.1, (hcreate b hb).2.2, hs⟩
        | some x =>
          rw [hf] at hb
          by_cases hp : x.paymentStatus = "paid"
          · simp only [hp, if_true, CaptureResponse.booking, Option.some.injEq] at hb ⊢
            subst hb
            have := findLatest_some hf
            exact ⟨this.1, this.2.1, this.2.2, hs⟩
          · simp only [hp, if_false] at hb ⊢
            exact ⟨(hcreate b hb).1, (hcreate b hb).2.1, (hcreate b hb).2.2, hs⟩
      · simp [capture_eq, ho, hs, CaptureResponse.booking] at hb

/-! ## The claims on the store -/

/-- C8: bookings are created only by a capture the provider reported as completed. The
order handler returns the store unchanged; a call that changes the booking list is a
capture whose provider reply has status COMPLETED; and every booking of every reachable
store has paymentStatus "paid" and status "confirmed". -/
theorem bookings_only_by_completed_capture :
    (∀ (c : Bool) (origin : Option String) (b : OrderBody)
        (provider : OrderRequest → OrderReply) (s : Store),
        (createOrder c origin b provider s).2 = s) ∧
    (∀ (call : Call) (s : Store), (call.run s).bookings ≠ s.bookings →
        ∃ c o r, call = .capture c o (.result r) ∧ r.status = "COMPLETED") ∧
    (∀ s : Store, Reachable s →
        ∀ b ∈ s.bookings, b.paymentStatus = "paid" ∧ b.status = "confirmed") := by
  refine ⟨createOrder_store, ?_, ?_⟩
  · intro call s hne
    rcases run_bookings call s with h | ⟨c, o, r, _, hc, hs, _⟩
    · exact absurd h hne
    · exact ⟨c, o, r, hc, hs⟩
  · rintro s ⟨calls, rfl⟩
    exact runCalls_paid calls Store.empty (by intro b hb; cases hb)

/-- C8, on the store reached by creating an event and capturing one order: all its
bookings are paid and confirmed. -/
theorem bookings_only_by_completed_capture_witness :
    (runCalls
        [.createEvent "e1" 10,
         .capture true (.str "O1")
           (completed "O1" (some "e1") (some "u1") (.str "3") (some "30.00"))]
        Store.empty).bookings.all
      (fun b => b.paymentStatus == "paid" && b.status == "confirmed") = true :=
  List.all_eq_true.mpr (fun b hb => by
    have h := bookings_only_by_completed_capture.2.2 _ ⟨_, rfl⟩ b hb
    simp [h.1, h.2])

/-- C6 fails as stated: two distinct orders of the same user for the same event, both
captured with status COMPLETED, are answered with the same booking record; the second
capture stores no booking and adds no seats. -/
theorem second_order_same_pair_returns_first_booking :
    (capture true (.str "O2") (completed "O2" (some "e1") (some "u1") (.str "5") (some "50.00"))
        (capture true (.str "O1")
          (completed "O1" (some "e1") (some "u1") (.str "3") (some "30.00"))
          (Store.empty.addEvent (newEvent "e1" 10))).2).1.booking
      = (capture true (.str "O1")
          (completed "O1" (some "e1") (some "u1") (.str "3") (some "30.00"))
          (Store.empty.addEvent (newEvent "e1" 10))).1.booking ∧
    (capture true (.str "O1")
          (completed "O1" (some "e1") (some "u1") (.str "3") (some "30.00"))
          (Store.empty.addEvent (newEvent "e1" 10))).1.booking
      = some (paidBooking 0 (some "e1") (some "u1") 3 (.fin 3000 2)) ∧
    (capture true (.str "O2") (completed "O2" (some "e1") (some "u1") (.str "5") (some "50.00"))
        (capture true (.str "O1")
          (completed "O1" (some "e1") (some "u1") (.str "3") (some "30.00"))
          (Store.empty.addEvent (newEvent "e1" 10))).2).2
      = { events := [{ id := "e1", availableSeats := 10, bookedSeats := 3 }],
          bookings := [paidBooking 0 (some "e1") (some "u1") 3 (.fin 3000 2)] } := by
  decide

/-- C6 as amended: when two orders whose metadata name different (event, user) pairs are
captured, the second after any calls that follow the first, and both capture calls return
a booking, then both were reported COMPLETED and the two bookings are different records
with different ids, both stored. -/
theorem distinct_pairs_distinct_bookings (s : Store) (mid : List Call)
    (c1 c2 : Bool) (o1 o2 : JSVal) (r1 r2 : CaptureResult)
    (e1 u1 e2 u2 : Option String) (q1 q2 : JSVal) (b1 b2 : Booking)
    (hn : (s.bookings.map (·.id)).Nodup)
    (hm1 : r1.metadata = .obj e1 u1 q1) (hm2 : r2.metadata = .obj e2 u2 q2)
    (hpair : (e1, u1) ≠ (e2, u2))
    (h1 : (capture c1 o1 (.result r1) s).1.booking = some b1)
    (h2 : (capture c2 o2 (.result r2)
            (runCalls mid (capture c1 o1 (.result r1) s).2)).1.booking = some b2) :
    r1.status = "COMPLETED" ∧ r2.status = "COMPLETED" ∧ b1.id ≠ b2.id ∧
    b1 ∈ (capture c2 o2 (.result r2) (runCalls mid (capture c1 o1 (.result r1) s).2)).2.bookings ∧
    b2 ∈ (capture c2 o2 (.result r2)
            (runCalls mid (capture c1 o1 (.result r1) s).2)).2.bookings := by
  obtain ⟨hb1, he1, hu1, hs1⟩ := capture_booking_mem c1 o1 r1 e1 u1 q1 s b1 hm1 h1
  obtain ⟨hb2, he2, hu2, hs2⟩ := capture_booking_mem c2 o2 r2 e2 u2 q2 _ b2 hm2 h2
  have hb1' : b1 ∈ (capture c2 o2 (.result r2)
      (runCalls mid (capture c1 o1 (.result r1) s).2)).2.bookings :=
    run_bookings_mem (.capture c2 o2 (.result r2)) _ b1
      (runCalls_bookings_mem mid _ b1 hb1)
  have hnd : ((capture c2 o2 (.result r2)
      (runCalls mid (capture c1 o1 (.result r1) s).2)).2.bookings.map (·.id)).Nodup :=
    run_ids_nodup (.capture c2 o2 (.result r2)) _
      (runCalls_ids_nodup mid _ (run_ids_nodup (.capture c1 o1 (.result r1)) s hn))
  refine ⟨hs1, hs2, ?_, hb1', hb2⟩
  intro hid
  have hbb : b1 = b2 := List.inj_on_of_nodup_map hnd hb1' hb2 hid
  apply hpair
  rw [← he1, ← hu1, ← he2, ← hu2, hbb]

/-- C6 as amended, for two orders of the users `u1` and `u2` on the event `e1`. -/
theorem distinct_pairs_distinct_bookings_witness :
    (paidBooking 0 (some "e1") (some "u1") 3 (.fin 3000 2)).id ≠
      (paidBooking 1 (some "e1") (some "u2") 5 (.fin 5000 2)).id :=
  (distinct_pairs_distinct_bookings (Store.empty.addEvent (newEvent "e1" 10)) []
    true true (.str "O1") (.str "O2")
    { id := "O1", status := "COMPLETED",
      metadata := .obj (some "e1") (some "u1") (.str "3"), amountValue := some "30.00" }
    { id := "O2", status := "COMPLETED",
      metadata := .obj (some "e1") (some "u2") (.str "5"), amountValue := some "50.00" }
    (some "e1") (some "u1") (some "e1") (some "u2") (.str "3") (.str "5")
    (paidBooking 0 (some "e1") (some "u1") 3 (.fin 3000 2))
    (paidBooking 1 (some "e1") (some "u2") 5 (.fin 5000 2))
    (by decide) rfl rfl (by decide) (by decide) (by decide)).2.2.1

/-- Adding a non-negative number of seats to one event keeps every event in place, with
its id and available seats, and lowers no booked seat count. -/
theorem bumpSeats_monotone (id : String) (n : Int) (hn : 0 ≤ n) (events : List Event) :
    List.Forall₂ SeatsNotLowered events (bumpSeats id n events) := by
  have hrefl : ∀ l : List Event, List.Forall₂ SeatsNotLowered l l := by
    intro l
    induction l with
    | nil => exact List.Forall₂.nil
    | cons a t ih => exact List.Forall₂.cons ⟨rfl, rfl, le_refl _⟩ ih
  induction events with
  | nil => exact List.Forall₂.nil
  | cons a t ih =>
    by_cases ha : (a.id == id) = true
    · simp only [bumpSeats, ha, if_true]
      exact List.Forall₂.cons ⟨rfl, rfl, by simp only; omega⟩ (hrefl t)
    · have ha' : (a.id == id) = false := by simpa using ha
      simp only [bumpSeats, ha', Bool.false_eq_true, if_false]
      exact List.Forall₂.cons ⟨rfl, rfl, le_refl _⟩ ih

/-- C7 fails as stated: the request `amount: -5, quantity: -3` passes the validation of
order creation, which sends the amount "15.00" and the quantity "-3" in the metadata; the
completed capture of that order takes the booked seats of the event from 5 to 2. -/
theorem capture_negative_quantity_lowers_bookedSeats :
    missingFields { amount := .num (.fin (-5) 0), quantity := .num (.fin (-3) 0),
                    eventName := .str "Concert", userId := .str "u1", eventId := .str "e1" }
      = false ∧
    (orderRequest none
        { amount := .num (.fin (-5) 0), quantity := .num (.fin (-3) 0),
          eventName := .str "Concert", userId := .str "u1", eventId := .str "e1" }).value
      = "15.00" ∧
    (orderRequest none
        { amount := .num (.fin (-5) 0), quantity := .num (.fin (-3) 0),
          eventName := .str "Concert", userId := .str "u1",
          eventId := .str "e1" }).customId.quantity
      = "-3" ∧
    bookedSeatsOf { events := [{ id := "e1", availableSeats := 10, bookedSeats := 5 }],
                    bookings := [] } "e1" = some 5 ∧
    bookedSeatsOf (capture true (.str "O1")
        (completed "O1" (some "e1") (some "u1") (.str "-3") (some "15.00"))
        { events := [{ id := "e1", availableSeats := 10, bookedSeats := 5 }],
          bookings := [] }).2 "e1" = some 2 := by
  decide

/-- C7 as amended: for every capture call whose order metadata does not decode to a
negative seat count, every event is still stored after the call, in place, with the same
available seats and with booked seats greater than or equal to those before the call. -/
theorem capture_seats_monotone (c : Bool) (o : JSVal) (reply : ProviderReply) (s : Store)
    (hq : ∀ r e u q n, reply = .result r → r.metadata = .obj e u q →
      seatCount q = some n → 0 ≤ n) :
    List.Forall₂ SeatsNotLowered s.events (capture c o reply s).2.events := by
  have hrefl : ∀ l : List Event, List.Forall₂ SeatsNotLowered l l := by
    intro l
    induction l with
    | nil => exact List.Forall₂.nil
    | cons a t ih => exact List.Forall₂.cons ⟨rfl, rfl, le_refl _⟩ ih
  rcases capture_effect c o reply s with ⟨h, -⟩ | ⟨r, e, u, q, n, -, -, hr, -, hm, hn, -, -, h⟩
  · rw [h]; exact hrefl _
  · rw [h]
    simp only [addSeats]
    have h0 : 0 ≤ n := hq r e u q n hr hm hn
    cases e with
    | none => cases findById s.events none <;> exact hrefl _
    | some id =>
      cases findById s.events (some id) with
      | none => exact hrefl _
      | some ev => exact bumpSeats_monotone id n h0 s.events

/-- C7 as amended, for a completed capture of 3 seats on an event with 5 booked seats. -/
theorem capture_seats_monotone_witness :
    List.Forall₂ SeatsNotLowered
      [{ id := "e1", availableSeats := 10, bookedSeats := 5 }]
      (capture true (.str "O1")
        (completed "O1" (some "e1") (some "u1") (.str "3") (some "30.00"))
        { events := [{ id := "e1", availableSeats := 10, bookedSeats := 5 }],
          bookings := [] }).2.events :=
  capture_seats_monotone true (.str "O1")
    (completed "O1" (some "e1") (some "u1") (.str "3") (some "30.00"))
    { events := [{ id := "e1", availableSeats := 10, bookedSeats := 5 }], bookings := [] }
    (by
      intro r e u q n hr hm hn
      simp only [completed, ProviderReply.result.injEq] at hr
      subst hr
      simp only [Metadata.obj.injEq] at hm
      obtain ⟨-, -, rfl⟩ := hm
      have : seatCount (.str "3") = some 3 := by decide
      rw [this] at hn
      cases hn
      decide)

/-! ## Captures by distinct users -/

/-- The effect of the capture call of a placed order whose user has no booking for the
event yet. -/
theorem PlacedOrder.run_call (e : String) (p : PlacedOrder) (n : Int) (s : Store)
    (hid : p.orderId ≠ "") (hq : seatCount p.quantity = some n)
    (ht : (capturedAmount p.amountValue).isNaN = false)
    (hf : findLatest s.bookings (some e) (some p.user) = none) :
    (p.call e).run s =
      { events := addSeats s.events (some e) n,
        bookings := paidBooking (freshId s.bookings) (some e) (some p.user) n
          (capturedAmount p.amountValue) :: s.bookings } := by
  have ho : truthy (.str p.orderId) = true := by simp [truthy, hid]
  simp only [PlacedOrder.call, Call.run, completed]
  rw [capture_completed (.str p.orderId) _ (some e) (some p.user) p.quantity s ho rfl rfl, hf]
  simp [createBooking_resolves, hq, ht]

/-- The lookup for a pair skips a newer booking of another user. -/
theorem findLatest_cons_ne (b : Booking) (bs : List Booking) (e u : Option String)
    (hu : b.user ≠ u) : findLatest (b :: bs) e u = findLatest bs e u := by
  simp [findLatest, List.find?_cons, hu]

/-- Captures of orders placed for one event by pairwise distinct users, none of whom has
a booking for the event, store one booking per order, newest first. -/
theorem run_placed_orders (e : String) (orders : List PlacedOrder) :
    ∀ (s : Store) (ev : Event), findById s.events (some e) = some ev →
    (∀ p ∈ orders, findLatest s.bookings (some e) (some p.user) = none) →
    (orders.map (·.user)).Nodup →
    (∀ p ∈ orders, p.orderId ≠ "" ∧ (seatCount p.quantity).isSome = true ∧
      (capturedAmount p.amountValue).isNaN = false) →
    ∃ news : List Booking,
      bookingsOf (runCalls (orders.map (PlacedOrder.call e)) s) e = news ++ bookingsOf s e ∧
      news.map (·.user) = (orders.map (fun p => some p.user)).reverse ∧
      news.map (fun b => some b.numberOfSeats) =
        (orders.map (fun p => seatCount p.quantity)).reverse ∧
      (∀ b ∈ news, b.paymentStatus = "paid" ∧ b.status = "confirmed" ∧
        freshId s.bookings ≤ b.id) ∧
      (news.map (·.id)).Nodup ∧
      bookedSeatsOf (runCalls (orders.map (PlacedOrder.call e)) s) e =
        some (ev.bookedSeats + (news.map (·.numberOfSeats)).sum) := by
  induction orders with
  | nil =>
    intro s ev hev _ _ _
    refine ⟨[], rfl, rfl, rfl, ?_, List.nodup_nil, ?_⟩
    · intro b hb; cases hb
    · simp [runCalls, bookedSeatsOf, hev]
  | cons p rest ih =>
    intro s ev hev hf hu hq
    obtain ⟨hid, hsome, ht⟩ := hq p (List.mem_cons_self _ _)
    obtain ⟨n, hn⟩ := Option.isSome_iff_exists.mp hsome
    have hstep := PlacedOrder.run_call e p n s hid hn ht (hf p (List.mem_cons_self _ _))
    rw [List.map_cons, List.nodup_cons] at hu
    have hev1 : findById ((p.call e).run s).events (some e) =
        some { ev with bookedSeats := ev.bookedSeats + n } := by
      rw [hstep]
      simp only [addSeats, hev]
      exact findById_bumpSeats e n s.events ev hev
    have hf1 : ∀ p' ∈ rest, findLatest ((p.call e).run s).bookings (some e) (some p'.user)
        = none := by
      intro p' hp'
      rw [hstep]
      simp only
      rw [findLatest_cons_ne]
      · exact hf p' (List.mem_cons_of_mem _ hp')
      · simp only [paidBooking, ne_eq, Option.some.injEq]
        intro h
        exact hu.1 (h ▸ List.mem_map_of_mem _ hp')
    obtain ⟨news, h1, h2, h3, h4, h5, h6⟩ := ih ((p.call e).run s) _ hev1 hf1 hu.2
      (fun p' hp' => hq p' (List.mem_cons_of_mem _ hp'))
    have hb0 : bookingsOf ((p.call e).run s) e =
        paidBooking (freshId s.bookings) (some e) (some p.user) n
          (capturedAmount p.amountValue) :: bookingsOf s e := by
      rw [hstep]
      simp [bookingsOf, paidBooking, List.filter_cons]
    have hfresh : freshId s.bookings < freshId ((p.call e).run s).bookings := by
      rw [hstep]
      have := freshId_gt (paidBooking (freshId s.bookings) (some e) (some p.user) n
          (capturedAmount p.amountValue) :: s.bookings) _ (List.mem_cons_self _ _)
      simpa [paidBooking] using this
    refine ⟨news ++ [paidBooking (freshId s.bookings) (some e) (some p.user) n
      (capturedAmount p.amountValue)], ?_, ?_, ?_, ?_, ?_, ?_⟩
    · simp only [List.map_cons, runCalls, List.foldl_cons] at h1 ⊢
      rw [h1, hb0]; simp
    · simp only [List.map_append, h2, List.map_cons, List.reverse_cons]
      simp [paidBooking]
    · simp only [List.map_append, h3, List.map_cons, List.reverse_cons]
      simp [paidBooking, hn]
    · intro b hb
      rcases List.mem_append.mp hb with hb | hb
      · obtain ⟨a1, a2, a3⟩ := h4 b hb
        exact ⟨a1, a2, by omega⟩
      · simp only [List.mem_singleton] at hb
        subst hb
        exact ⟨rfl, rfl, le_refl _⟩
    · rw [List.map_append, List.nodup_append]
      refine ⟨h5, by simp, ?_⟩
      intro a ha hb
      obtain ⟨b, hb', rfl⟩ := List.mem_map.mp ha
      have := (h4 b hb').2.2
      simp [paidBooking] at hb
      omega
    · simp only [List.map_cons, runCalls, List.foldl_cons] at h6 ⊢
      rw [h6]
      simp only [List.map_append, List.sum_append, List.map_cons, List.map_nil,
        List.sum_cons, List.sum_nil, paidBooking]
      congr 1
      ring

/-- An event without bookings has no most recent booking for any user. -/
theorem findLatest_of_bookingsOf_nil (s : Store) (e : String) (u : Option String)
    (h : bookingsOf s e = []) : findLatest s.bookings (some e) u = none := by
  simp only [bookingsOf, List.filter_eq_nil_iff] at h
  simp only [findLatest, List.find?_eq_none]
  intro b hb
  have := h b hb
  simp only [Bool.and_eq_true, not_and]
  intro h1
  exact absurd h1 this

/-- C5: starting from an event with no booked seats and no bookings, after the completed
captures of any sequence of orders placed for that event by pairwise distinct users (each
with an order id, a quantity that reads as an integer and a numeric amount), the event has
one booking per capture, in capture order with the user and seat count of the order, all
paid and confirmed with pairwise different ids, and its bookedSeats is the sum of
numberOfSeats over those bookings. -/
theorem captures_by_distinct_users (s : Store) (e : String) (ev : Event)
    (orders : List PlacedOrder)
    (hev : findById s.events (some e) = some ev) (h0 : ev.bookedSeats = 0)
    (hnone : bookingsOf s e = [])
    (hu : (orders.map (·.user)).Nodup)
    (hq : ∀ p ∈ orders, p.orderId ≠ "" ∧ (seatCount p.quantity).isSome = true ∧
      (capturedAmount p.amountValue).isNaN = false) :
    (bookingsOf (runCalls (orders.map (PlacedOrder.call e)) s) e).map (·.user)
      = (orders.map (fun p => some p.user)).reverse ∧
    (bookingsOf (runCalls (orders.map (PlacedOrder.call e)) s) e).map
        (fun b => some b.numberOfSeats)
      = (orders.map (fun p => seatCount p.quantity)).reverse ∧
    (bookingsOf (runCalls (orders.map (PlacedOrder.call e)) s) e).length = orders.length ∧
    ((bookingsOf (runCalls (orders.map (PlacedOrder.call e)) s) e).map (·.id)).Nodup ∧
    (∀ b ∈ bookingsOf (runCalls (orders.map (PlacedOrder.call e)) s) e,
      b.paymentStatus = "paid" ∧ b.status = "confirmed") ∧
    bookedSeatsOf (runCalls (orders.map (PlacedOrder.call e)) s) e
      = some ((bookingsOf (runCalls (orders.map (PlacedOrder.call e)) s) e).map
          (·.numberOfSeats)).sum := by
  obtain ⟨news, h1, h2, h3, h4, h5, h6⟩ := run_placed_orders e orders s ev hev
    (fun p _ => findLatest_of_bookingsOf_nil s e (some p.user) hnone) hu hq
  rw [hnone, List.append_nil] at h1
  rw [h1, h6, h0, zero_add]
  refine ⟨h2, h3, ?_, h5, fun b hb => ⟨(h4 b hb).1, (h4 b hb).2.1⟩, rfl⟩
  have := congrArg List.length h2
  simpa using this

/-- C5, the scenario of the specification: an event with 10 seats, an order of 3 seats
and then an order of 5 seats by another user give 3 and then 8 booked seats and two
bookings. -/
theorem captures_by_distinct_users_witness :
    bookedSeatsOf (runCalls
        ([{ orderId := "O1", user := "u1", quantity := .str "3", amountValue := some "30.00" },
          { orderId := "O2", user := "u2", quantity := .str "5", amountValue := some "50.00" }].map
          (PlacedOrder.call "e1"))
        (Store.empty.addEvent (newEvent "e1" 10))) "e1"
      = some ((bookingsOf (runCalls
        ([{ orderId := "O1", user := "u1", quantity := .str "3", amountValue := some "30.00" },
          { orderId := "O2", user := "u2", quantity := .str "5", amountValue := some "50.00" }].map
          (PlacedOrder.call "e1"))
        (Store.empty.addEvent (newEvent "e1" 10))) "e1").map (·.numberOfSeats)).sum ∧
    bookedSeatsOf (runCalls
        ([{ orderId := "O1", user := "u1", quantity := .str "3", amountValue := some "30.00" },
          { orderId := "O2", user := "u2", quantity := .str "5", amountValue := some "50.00" }].map
          (PlacedOrder.call "e1"))
        (Store.empty.addEvent (newEvent "e1" 10))) "e1" = some 8 ∧
    bookedSeatsOf (runCalls
        ([{ orderId := "O1", user := "u1", quantity := .str "3",
            amountValue := some "30.00" }].map (PlacedOrder.call "e1"))
        (Store.empty.addEvent (newEvent "e1" 10))) "e1" = some 3 ∧
    (runCalls
        ([{ orderId := "O1", user := "u1", quantity := .str "3", amountValue := some "30.00" },
          { orderId := "O2", user := "u2", quantity := .str "5", amountValue := some "50.00" }].map
          (PlacedOrder.call "e1"))
        (Store.empty.addEvent (newEvent "e1" 10))).bookings.length = 2 :=
  ⟨(captures_by_distinct_users (Store.empty.addEvent (newEvent "e1" 10)) "e1"
      (newEvent "e1" 10)
      [{ orderId := "O1", user := "u1", quantity := .str "3", amountValue := some "30.00" },
       { orderId := "O2", user := "u2", quantity := .str "5", amountValue := some "50.00" }]
      (by decide) (by decide) (by decide) (by decide) (by decide)).2.2.2.2.2,
    by decide, by decide, by decide⟩

/-! ## Order creation -/

/-- Every character `Nat.toDigitsCore` adds in base 10 is a decimal digit. -/
theorem toDigitsCore_isDigit (fuel : Nat) : ∀ (n : Nat) (ds : List Char),
    (∀ c ∈ ds, c.isDigit = true) → ∀ c ∈ Nat.toDigitsCore 10 fuel n ds, c.isDigit = true := by
  induction fuel with
  | zero => intro n ds h; simpa [Nat.toDigitsCore] using h
  | succ k ih =>
    intro n ds h
    have hd : (Nat.digitChar (n % 10)).isDigit = true := by
      have hlt : n % 10 < 10 := Nat.mod_lt _ (by decide)
      interval_cases (n % 10) <;> decide
    have hcons : ∀ c ∈ Nat.digitChar (n % 10) :: ds, c.isDigit = true := by
      intro c hc
      rcases List.mem_cons.mp hc with rfl | hc
      · exact hd
      · exact h c hc
    simp only [Nat.toDigitsCore]
    split
    · exact hcons
    · exact ih _ _ hcons

/-- The decimal rendering of a natural number consists of decimal digits. -/
theorem toDigits_isDigit (n : Nat) : ∀ c ∈ Nat.toDigits 10 n, c.isDigit = true :=
  toDigitsCore_isDigit _ _ _ (by intro c hc; cases hc)

/-- The two-digit rendering consists of two decimal digits. -/
theorem twoDigits_isDigit (n : Nat) :
    (twoDigits n).length = 2 ∧ ∀ c ∈ twoDigits n, c.isDigit = true := by
  refine ⟨rfl, ?_⟩
  intro c hc
  simp only [twoDigits, List.mem_cons, List.mem_singleton, List.not_mem_nil, or_false] at hc
  have h1 : n / 10 % 10 < 10 := Nat.mod_lt _ (by decide)
  have h2 : n % 10 < 10 := Nat.mod_lt _ (by decide)
  rcases hc with rfl | rfl
  · interval_cases (n / 10 % 10) <;> decide
  · interval_cases (n % 10) <;> decide

/-- The integer `toFixed(2)` picks is within half a hundredth of the number, and on a tie
is the larger candidate. -/
theorem nearestHundredths_spec (a e : Nat) :
    2 * nearestHundredths a e * 10 ^ e ≤ 2 * (a * 100) + 10 ^ e ∧
    2 * (a * 100) + 10 ^ e < 2 * (nearestHundredths a e + 1) * 10 ^ e := by
  have hpos : 0 < 2 * 10 ^ e := by positivity
  unfold nearestHundredths
  constructor
  · have := Nat.div_mul_le_self (2 * (a * 100) + 10 ^ e) (2 * 10 ^ e)
    nlinarith
  · have := Nat.lt_div_mul_add (a := 2 * (a * 100) + 10 ^ e) hpos
    nlinarith

/-- A number with at most two decimals is rendered exactly. -/
theorem nearestHundredths_exact (a e : Nat) (he : e ≤ 2) :
    nearestHundredths a e = a * 10 ^ (2 - e) := by
  unfold nearestHundredths
  have h100 : (100 : Nat) = 10 ^ (2 - e) * 10 ^ e := by
    rw [← pow_add, Nat.sub_add_cancel he]; norm_num
  have hpos : 0 < 10 ^ e := by positivity
  rw [h100]
  have : 2 * (a * (10 ^ (2 - e) * 10 ^ e)) + 10 ^ e = 10 ^ e * (2 * (a * 10 ^ (2 - e)) + 1) := by
    ring
  rw [this, Nat.mul_comm 2 (10 ^ e), Nat.mul_div_mul_left _ _ hpos]
  omega

/-! ## The claims on decoding and on failures of checkout -/

/-- C12 fails as stated: the custom_id `null` is valid JSON, the decode step yields `null`
and not a record, and the completed capture ends in the `catch` block with status 500 and
an unchanged store. -/
theorem capture_custom_id_null_fails :
    (decodeCustomId (some "null")).toMetadata = some .null ∧
    capture true (.str "O1")
        (.result { id := "O1", status := "COMPLETED", metadata := .null,
                   amountValue := some "30.00" })
        (Store.empty.addEvent (newEvent "e1" 10))
      = (.failed .metadataNull, Store.empty.addEvent (newEvent "e1" 10)) ∧
    (CaptureResponse.failed .metadataNull).httpStatus = 500 := by
  decide

/-- C12 as amended: for a custom_id that is absent, empty or not valid JSON the decode
step yields the empty record, read with event and user undefined and a seat count of 1,
and a completed capture then stores one paid booking without event and user for 1 seat
and leaves the events as they were (unless a paid booking without event and user is
already the most recent one); for a custom_id that is valid JSON the decode step yields
the parsed value. -/
theorem decode_failure_is_empty_record (customId : Option String)
    (hbad : customId = none ∨ customId = some "" ∨
      ∃ t, customId = some t ∧ jsonParse t = none) :
    (decodeCustomId customId).toMetadata = some (.obj none none .undefined) ∧
    seatCount .undefined = some 1 ∧
    (∀ (o : JSVal) (r : CaptureResult) (s : Store), truthy o = true →
      r.status = "COMPLETED" → r.metadata = .obj none none .undefined →
      (capturedAmount r.amountValue).isNaN = false →
      (∀ b, findLatest s.bookings none none = some b → b.paymentStatus ≠ "paid") →
      capture true o (.result r) s =
        (.created r.id r.status
            (paidBooking (freshId s.bookings) none none 1 (capturedAmount r.amountValue))
            r.metadata,
          { events := s.events,
            bookings := paidBooking (freshId s.bookings) none none 1
              (capturedAmount r.amountValue) :: s.bookings })) ∧
    (∀ (t : String) (j : Json), t ≠ "" → jsonParse t = some j →
      decodeCustomId (some t) = j) := by
  have hempty : jsonParse "{}" = some (.obj []) := by rfl
  refine ⟨?_, by decide, ?_, ?_⟩
  · rcases hbad with h | h | ⟨t, h, ht⟩
    · subst h; simp only [decodeCustomId, hempty]; rfl
    · subst h; simp only [decodeCustomId, bne_self_eq_false, Bool.false_eq_true, if_false,
        hempty]; rfl
    · subst h
      by_cases he : t = ""
      · subst he; simp only [decodeCustomId, bne_self_eq_false, Bool.false_eq_true,
          if_false, hempty]; rfl
      · have hne : (t != "") = true := by simpa using he
        simp only [decodeCustomId, hne, if_true, ht]; rfl
  · intro o r s ho hs hm ht hnew
    rw [capture_completed o r none none .undefined s ho hs hm]
    have h1 : seatCount .undefined = some 1 := by decide
    have hcb : createBooking allResolve r none none .undefined s =
        (.created r.id r.status
            (paidBooking (freshId s.bookings) none none 1 (capturedAmount r.amountValue))
            r.metadata,
          { events := s.events,
            bookings := paidBooking (freshId s.bookings) none none 1
              (capturedAmount r.amountValue) :: s.bookings }) := by
      simp [createBooking_resolves, h1, ht, addSeats, findById]
    cases hf : findLatest s.bookings none none with
    | none => simpa using hcb
    | some b => simp [hnew b hf, hcb]
  · intro t j hne hj
    have hne' : (t != "") = true := by simpa using hne
    simp only [decodeCustomId, hne', if_true, hj]

/-- C12 as amended, for the custom_id `{bad`, which is not valid JSON. -/
theorem decode_failure_is_empty_record_witness :
    (decodeCustomId (some "\x7bbad")).toMetadata = some (.obj none none .undefined) :=
  (decode_failure_is_empty_record (some "\x7bbad")
    (Or.inr (Or.inr ⟨"\x7bbad", rfl, by rfl⟩))).1

/-- C13: for both checkout endpoints, when the provider client cannot be built the
response is 500 whatever the request holds, also when required input is missing, and
when the provider call raises an error the response is 500 and carries the message of
that error in `details`; in all these cases the store is returned unchanged. The client
is not built when `PAYPAL_CLIENT_ID` or `PAYPAL_CLIENT_SECRET` is unset. -/
theorem checkout_provider_failures :
    (∀ secret : Option String, getPayPalClient none secret = false) ∧
    (∀ clientId : Option String, getPayPalClient clientId none = false) ∧
    (∀ (origin : Option String) (b : OrderBody) (provider : OrderRequest → OrderReply)
        (s : Store),
        createOrder false origin b provider s = (.notConfigured, s) ∧
        OrderResponse.notConfigured.httpStatus = 500) ∧
    (∀ (o : JSVal) (reply : ProviderReply) (s : Store),
        capture false o reply s = (.notConfigured, s) ∧
        CaptureResponse.notConfigured.httpStatus = 500) ∧
    (∀ (origin : Option String) (b : OrderBody) (provider : OrderRequest → OrderReply)
        (s : Store) (msg : String),
        missingFields b = false → provider (orderRequest origin b) = .error msg →
        createOrder true origin b provider s = (.failed msg, s) ∧
        (OrderResponse.failed msg).httpStatus = 500 ∧
        (OrderResponse.failed msg).details = some msg) ∧
    (∀ (o : JSVal) (s : Store) (msg : String), truthy o = true →
        capture true o (.error msg) s = (.failed (.provider msg), s) ∧
        (CaptureResponse.failed (.provider msg)).httpStatus = 500 ∧
        (CaptureResponse.failed (.provider msg)).details = some (.provider msg)) := by
  refine ⟨?_, ?_, ?_, ?_, ?_, ?_⟩
  · intro secret; rfl
  · intro clientId; cases clientId <;> rfl
  · intro origin b provider s; exact ⟨by simp [createOrder], rfl⟩
  · intro o reply s; exact ⟨by simp [capture_eq], rfl⟩
  · intro origin b provider s msg hv hp
    exact ⟨by simp [createOrder, hv, hp], rfl, rfl⟩
  · intro o s msg ho
    exact ⟨by simp [capture_eq, ho], rfl, rfl⟩

/-- C13, for a capture whose provider call raises "ORDER_NOT_APPROVED". -/
theorem checkout_provider_failures_witness :
    capture true (.str "O1") (.error "ORDER_NOT_APPROVED")
        (Store.empty.addEvent (newEvent "e1" 10))
      = (.failed (.provider "ORDER_NOT_APPROVED"), Store.empty.addEvent (newEvent "e1" 10)) :=
  (checkout_provider_failures.2.2.2.2.2 (.str "O1") (Store.empty.addEvent (newEvent "e1" 10))
    "ORDER_NOT_APPROVED" (by decide)).1

/-! ## The claims on identity -/

/-- The outcome of a register call with a string password: a duplicate leaves the users
as they were, otherwise one user is appended. -/
theorem register_cases (username email p salt : String) (users : List User) :
    ((∃ u ∈ users, u.username = username ∨ u.email = email) ∧
      register username email (.str p) salt users = (.duplicate, users)) ∨
    ((∀ u ∈ users, u.username ≠ username ∧ u.email ≠ email) ∧
      register username email (.str p) salt users =
        (.created, users ++ [{ id := freshUserId users, username := username, email := email,
                               password := { salt := salt, data := p }, role := "user",
                               profilePicture := "", balance := defaultBalance }])) := by
  unfold register
  cases hf : users.find? (fun u => u.username == username || u.email == email) with
  | some u =>
    left
    have hm := List.mem_of_find?_eq_some hf
    have hp := List.find?_some hf
    simp only [Bool.or_eq_true, beq_iff_eq] at hp
    exact ⟨⟨u, hm, hp⟩, rfl⟩
  | none =>
    right
    rw [List.find?_eq_none] at hf
    refine ⟨?_, rfl⟩
    intro u hu
    have := hf u hu
    simp only [Bool.or_eq_true, beq_iff_eq, not_or] at this
    exact this

/-- A register call with any password keeps or extends the users, and the user it adds
has a username and an email no stored user has. -/
theorem register_users (username email : String) (password : JSVal) (salt : String)
    (users : List User) :
    (register username email password salt users).2 = users ∨
    ∃ nu : User, (register username email password salt users).2 = users ++ [nu] ∧
      nu.username = username ∧ nu.email = email ∧ nu.id = freshUserId users ∧
      ∀ u ∈ users, u.username ≠ username ∧ u.email ≠ email := by
  unfold register
  cases hf : users.find? (fun u => u.username == username || u.email == email) with
  | some u => left; rfl
  | none =>
    rw [List.find?_eq_none] at hf
    cases hh : hashSync password salt with
    | none => left; rfl
    | some h =>
      right
      refine ⟨_, rfl, rfl, rfl, rfl, ?_⟩
      intro u hu
      have := hf u hu
      simp only [Bool.or_eq_true, beq_iff_eq, not_or] at this
      exact this

/-- A fresh user id is above every stored id. -/
theorem freshUserId_gt (users : List User) : ∀ u ∈ users, u.id < freshUserId users := by
  induction users with
  | nil => intro u hu; cases hu
  | cons a t ih =>
    intro u hu
    simp only [freshUserId, List.foldr_cons] at ih ⊢
    rcases List.mem_cons.mp hu with h | h
    · subst h; omega
    · have := ih u h; omega

/-- Register calls keep usernames, emails and ids pairwise different. -/
theorem registerAll_nodup (calls : List (String × String × JSVal × String)) :
    ∀ users : List User,
    (users.map (·.username)).Nodup ∧ (users.map (·.email)).Nodup ∧ (users.map (·.id)).Nodup →
    ((registerAll calls users).map (·.username)).Nodup ∧
    ((registerAll calls users).map (·.email)).Nodup ∧
    ((registerAll calls users).map (·.id)).Nodup := by
  induction calls with
  | nil => intro users h; exact h
  | cons c rest ih =>
    intro users h
    simp only [registerAll, List.foldl_cons]
    apply ih
    rcases register_users c.1 c.2.1 c.2.2.1 c.2.2.2 users with hsame | ⟨nu, hnew, hn, he, hi, hfresh⟩
    · rw [hsame]; exact h
    · rw [hnew]
      simp only [List.map_append, List.map_cons, List.map_nil]
      refine ⟨?_, ?_, ?_⟩
      · refine List.Nodup.append h.1 (List.nodup_singleton _) ?_
        intro a ha hb
        simp only [List.mem_singleton] at hb
        obtain ⟨u, hu, rfl⟩ := List.mem_map.mp ha
        exact (hfresh u hu).1 (hb.trans hn)
      · refine List.Nodup.append h.2.1 (List.nodup_singleton _) ?_
        intro a ha hb
        simp only [List.mem_singleton] at hb
        obtain ⟨u, hu, rfl⟩ := List.mem_map.mp ha
        exact (hfresh u hu).2 (hb.trans he)
      · refine List.Nodup.append h.2.2 (List.nodup_singleton _) ?_
        intro a ha hb
        simp only [List.mem_singleton] at hb
        obtain ⟨u, hu, rfl⟩ := List.mem_map.mp ha
        have := freshUserId_gt users u hu
        omega

/-- C14: register with a string password succeeds if and only if no stored user has the
same username or the same email. When it fails it answers success = false with the
duplicate-account message and the users are unchanged; when it succeeds exactly one user
is added, with that username and email and with the bcrypt hash of the password as its
stored password. Consequently usernames are pairwise different and emails are pairwise
different among users created through register. -/
theorem register_iff_no_duplicate (username email p salt : String) (users : List User) :
    ((register username email (.str p) salt users).1.success = true ↔
      ∀ u ∈ users, u.username ≠ username ∧ u.email ≠ email) ∧
    ((register username email (.str p) salt users).1.success = false →
      (register username email (.str p) salt users).1.message =
        "There is already an account with this username or email!" ∧
      (register username email (.str p) salt users).2 = users) ∧
    ((register username email (.str p) salt users).1.success = true →
      ∃ nu : User, (register username email (.str p) salt users).2 = users ++ [nu] ∧
        nu.username = username ∧ nu.email = email ∧
        hashSync (.str p) salt = some nu.password ∧
        compareSync (.str p) nu.password = some true) ∧
    (∀ calls : List (String × String × JSVal × String),
      ((registerAll calls []).map (·.username)).Nodup ∧
      ((registerAll calls []).map (·.email)).Nodup) := by
  refine ⟨?_, ?_, ?_, ?_⟩
  · rcases register_cases username email p salt users with ⟨⟨u, hu, hdup⟩, h⟩ | ⟨hno, h⟩
    · rw [h]
      simp only [RegisterResponse.success, Bool.false_eq_true, false_iff, not_forall]
      refine ⟨u, hu, ?_⟩
      rcases hdup with h1 | h1 <;> simp [h1]
    · rw [h]; simp only [RegisterResponse.success, true_iff]; exact hno
  · intro hs
    rcases register_cases username email p salt users with ⟨-, h⟩ | ⟨-, h⟩
    · rw [h]; exact ⟨rfl, rfl⟩
    · rw [h] at hs; simp [RegisterResponse.success] at hs
  · intro hs
    rcases register_cases username email p salt users with ⟨-, h⟩ | ⟨-, h⟩
    · rw [h] at hs; simp [RegisterResponse.success] at hs
    · rw [h]
      exact ⟨_, rfl, rfl, rfl, rfl, by simp [compareSync]⟩
  · intro calls
    have := registerAll_nodup calls [] ⟨List.nodup_nil, List.nodup_nil, List.nodup_nil⟩
    exact ⟨this.1, this.2.1⟩

/-- C14, for a second registration with the email of a stored user and another username:
it fails and the users are unchanged. -/
theorem register_iff_no_duplicate_witness :
    (register "carol" "a@x.com" (.str "pw") "s2"
        (registerAll [("alice", "a@x.com", .str "pa", "s1")] [])).2
      = registerAll [("alice", "a@x.com", .str "pa", "s1")] [] :=
  ((register_iff_no_duplicate "carol" "a@x.com" "pw" "s2"
    (registerAll [("alice", "a@x.com", .str "pa", "s1")] [])).2.1 (by decide)).2

/-- C15 fails as stated: with the non-empty identifier "alice" and the password 12345 sent
as a JSON number, login answers 401 "Invalid credentials" when no user matches, and 500
"Server error" when a user matches, because `compareSync` throws on data that is not a
string. -/
theorem login_number_password_tells_users_apart :
    login "k" 100 "alice" (.num (.fin 12345 0)) [] = .invalid ∧
    LoginResponse.invalid.httpStatus = 401 ∧
    login "k" 100 "alice" (.num (.fin 12345 0))
        (registerAll [("alice", "a@x.com", .str "pa", "s1")] []) = .serverError ∧
    LoginResponse.serverError.httpStatus = 500 := by
  decide

/-- C15 as amended: for every non-empty identifier and every non-empty string password,
the login response when no user matches the identifier is the same response, with status
401 and the message "Invalid credentials", as when a user matches and the password is
wrong. -/
theorem login_failures_identical (key : String) (now : Nat) (identifier p : String)
    (users others : List User) (u : User)
    (hi : identifier ≠ "") (hp : p ≠ "")
    (hnone : findByIdentifier users identifier = none)
    (hsome : findByIdentifier others identifier = some u)
    (hwrong : compareSync (.str p) u.password = some false) :
    login key now identifier (.str p) users = login key now identifier (.str p) others ∧
    login key now identifier (.str p) users = .invalid ∧
    (login key now identifier (.str p) others).httpStatus = 401 ∧
    (login key now identifier (.str p) others).message = some "Invalid credentials" := by
  have hi' : (identifier == "") = false := by simpa using hi
  have hp' : truthy (.str p) = true := by simpa [truthy] using hp
  have h1 : login key now identifier (.str p) users = .invalid := by
    simp [login, hi', hp', hnone]
  have h2 : login key now identifier (.str p) others = .invalid := by
    simp [login, hi', hp', hsome, hwrong]
  rw [h1, h2]
  exact ⟨rfl, rfl, rfl, rfl⟩

/-- C15 as amended, for the unknown identifier "zed" and for "alice" with a wrong
password. -/
theorem login_failures_identical_witness :
    login "k" 100 "alice" (.str "wrong") []
      = login "k" 100 "alice" (.str "wrong")
          (registerAll [("alice", "a@x.com", .str "pa", "s1")] []) :=
  (login_failures_identical "k" 100 "alice" "wrong" []
    (registerAll [("alice", "a@x.com", .str "pa", "s1")] [])
    { id := 0, username := "alice", email := "a@x.com",
      password := { salt := "s1", data := "pa" }, role := "user", profilePicture := "",
      balance := defaultBalance }
    (by decide) (by decide) (by decide) (by decide) (by decide)).1

/-- C16 fails as stated: after "bob@x.com" is registered as the username of one user and
then as the email of a second user, the second user cannot log in with that email and
their own password: the lookup returns the first user and the comparison fails. -/
theorem login_by_email_fails_when_email_is_a_username :
    registerAll [("bob@x.com", "a@x.com", .str "pa", "s1"),
                 ("bob", "bob@x.com", .str "pb", "s2")] []
      = [{ id := 0, username := "bob@x.com", email := "a@x.com",
           password := { salt := "s1", data := "pa" }, role := "user", profilePicture := "",
           balance := defaultBalance },
         { id := 1, username := "bob", email := "bob@x.com",
           password := { salt := "s2", data := "pb" }, role := "user", profilePicture := "",
           balance := defaultBalance }] ∧
    login "k" 100 "bob@x.com" (.str "pb")
        (registerAll [("bob@x.com", "a@x.com", .str "pa", "s1"),
                      ("bob", "bob@x.com", .str "pb", "s2")] []) = .invalid := by
  decide

/-- C16 as amended: for every stored user who is the user the lookup returns for the
identifier (their email or username, which no earlier user has as email or username),
login with that identifier and the password of the user returns a token whose payload is
the id, username and email of that user, issued now and expiring 7 days later, together
with the profile of the user; and `/me` with that token, at any time before the expiry
and with the same key, returns the profile with the same user id as long as the user is
the stored user with that id. -/
theorem login_then_resolve (key : String) (now later : Nat) (identifier p : String)
    (users after : List User) (u : User)
    (hi : identifier ≠ "") (hp : p ≠ "")
    (hfind : findByIdentifier users identifier = some u)
    (hpw : compareSync (.str p) u.password = some true)
    (hlater : later < now + sevenDays)
    (hstored : after.find? (fun x => x.id == u.id) = some u) :
    (identifier = u.email ∨ identifier = u.username) ∧
    login key now identifier (.str p) users =
      .ok (.signed { id := u.id, username := u.username, email := u.email, iat := now,
                     exp := now + 604800 } key) (profileOf u) ∧
    me key later
        (some (.signed { id := u.id, username := u.username, email := u.email, iat := now,
                         exp := now + 604800 } key)) after = .ok (profileOf u) ∧
    (profileOf u).id = u.id := by
  have hi' : (identifier == "") = false := by simpa using hi
  have hp' : truthy (.str p) = true := by simpa [truthy] using hp
  refine ⟨?_, ?_, ?_, rfl⟩
  · have := List.find?_some hfind
    simp only [Bool.or_eq_true, beq_iff_eq] at this
    rcases this with h | h
    · exact Or.inl h.symm
    · exact Or.inr h.symm
  · simp [login, hi', hp', hfind, hpw, jwtSign, sevenDays]
  · have hlt : later < now + 604800 := by simpa [sevenDays] using hlater
    simp [me, tokenMissing, verified, jwtVerify, hlt, hstored]

/-- C16 as amended, for the user "alice" logging in with her email and resolving the
token a day later. -/
theorem login_then_resolve_witness :
    me "k" 86500
        (some (.signed { id := 0, username := "alice", email := "a@x.com", iat := 100,
                         exp := 100 + 604800 } "k"))
        (registerAll [("alice", "a@x.com", .str "pa", "s1")] [])
      = .ok { id := 0, username := "alice", email := "a@x.com", profilePicture := "",
              balance := defaultBalance } :=
  (login_then_resolve "k" 100 86500 "a@x.com" "pa"
    (registerAll [("alice", "a@x.com", .str "pa", "s1")] [])
    (registerAll [("alice", "a@x.com", .str "pa", "s1")] [])
    { id := 0, username := "alice", email := "a@x.com",
      password := { salt := "s1", data := "pa" }, role := "user", profilePicture := "",
      balance := defaultBalance }
    (by decide) (by decide) (by decide) (by decide) (by decide) (by decide)).2.2.1

/-- The user object of a response has the properties id, username, email, profilePicture
and, when defined, balance, and no other. -/
theorem profile_keys (p : Profile) :
    (∀ k ∈ p.toJson.keys, k ∈ ["id", "username", "email", "profilePicture", "balance"]) ∧
    "password" ∉ p.toJson.keys := by
  cases hb : jsonOfVal p.balance with
  | none => simp [Profile.toJson, Json.keys, hb]
  | some j => simp [Profile.toJson, Json.keys, hb]

/-- C17: `/me` answers 401 when the token is absent, is not a signed token, is signed with
another key or has expired; with a token that verifies it returns the profile of the
stored user the token refers to, made of id, username, email, profilePicture and balance
only (404 when no such user is stored); and for every input the response body has no
`password` property, neither at the top nor in its user object. -/
theorem me_resolves (key : String) (now : Nat) (authorization : Option Token)
    (users : List User) :
    (tokenMissing authorization = true →
      me key now authorization users = .noToken ∧ MeResponse.noToken.httpStatus = 401) ∧
    (∀ s, s ≠ "" → authorization = some (.text s) →
      me key now authorization users = .invalidToken ∧
      MeResponse.invalidToken.httpStatus = 401) ∧
    (∀ p k, authorization = some (.signed p k) → (k ≠ key ∨ p.exp ≤ now) →
      me key now authorization users = .invalidToken) ∧
    (∀ p, authorization = some (.signed p key) → now < p.exp →
      (∀ u, users.find? (fun x => x.id == p.id) = some u →
        me key now authorization users = .ok (profileOf u) ∧ (profileOf u).id = p.id) ∧
      (users.find? (fun x => x.id == p.id) = none →
        me key now authorization users = .notFound)) ∧
    "password" ∉ (me key now authorization users).body.keys ∧
    (∀ j, (me key now authorization users).body.prop "user" = some j →
      (∀ k ∈ j.keys, k ∈ ["id", "username", "email", "profilePicture", "balance"]) ∧
      "password" ∉ j.keys) := by
  refine ⟨?_, ?_, ?_, ?_, ?_, ?_⟩
  · intro h; simp [me, h, MeResponse.httpStatus]
  · intro s hs ha
    subst ha
    have : (s == "") = false := by simpa using hs
    simp [me, tokenMissing, this, verified, jwtVerify, MeResponse.httpStatus]
  · intro p k ha hbad
    subst ha
    have : (k == key && decide (now < p.exp)) = false := by
      rcases hbad with h | h
      · have : (k == key) = false := by simpa using h
        simp [this]
      · have : ¬ now < p.exp := by omega
        simp [this]
    simp [me, tokenMissing, verified, jwtVerify, this]
  · intro p ha hlt
    subst ha
    refine ⟨?_, ?_⟩
    · intro u hu
      have hid := List.find?_some hu
      simp only [beq_iff_eq] at hid
      simp [me, tokenMissing, verified, jwtVerify, hlt, hu, profileOf, hid]
    · intro hu
      simp [me, tokenMissing, verified, jwtVerify, hlt, hu]
  · cases h : me key now authorization users <;> simp [MeResponse.body, Json.keys]
  · intro j hj
    cases h : me key now authorization users with
    | ok p =>
      rw [h] at hj
      simp [MeResponse.body, Json.prop] at hj
      subst hj
      exact profile_keys p
    | noToken => rw [h] at hj; simp [MeResponse.body, Json.prop] at hj
    | invalidToken => rw [h] at hj; simp [MeResponse.body, Json.prop] at hj
    | notFound => rw [h] at hj; simp [MeResponse.body, Json.prop] at hj

/-- C17, for a token that expired: the answer is 401. -/
theorem me_resolves_witness :
    me "k" 700000
        (some (.signed { id := 0, username := "alice", email := "a@x.com", iat := 100,
                         exp := 604900 } "k"))
        (registerAll [("alice", "a@x.com", .str "pa", "s1")] []) = .invalidToken :=
  (me_resolves "k" 700000
    (some (.signed { id := 0, username := "alice", email := "a@x.com", iat := 100,
                     exp := 604900 } "k"))
    (registerAll [("alice", "a@x.com", .str "pa", "s1")] [])).2.2.1
    { id := 0, username := "alice", email := "a@x.com", iat := 100, exp := 604900 } "k" rfl
    (Or.inr (by decide))

/-- C30 fails as stated: register accepts "bob@x.com" as the username of one user and then
as the email of another, so that identifier matches two users. -/
theorem identifier_matches_two_users :
    (registerAll [("bob@x.com", "a@x.com", .str "pa", "s1"),
                  ("bob", "bob@x.com", .str "pb", "s2")] []).filter
        (fun u => u.email == "bob@x.com" || u.username == "bob@x.com")
      = [{ id := 0, username := "bob@x.com", email := "a@x.com",
           password := { salt := "s1", data := "pa" }, role := "user", profilePicture := "",
           balance := defaultBalance },
         { id := 1, username := "bob", email := "bob@x.com",
           password := { salt := "s2", data := "pb" }, role := "user", profilePicture := "",
           balance := defaultBalance }] := by
  decide

/-- C30 as amended: in every user collection reachable through register, a string is the
email of at most one user and the username of at most one user; the user login selects
for an identifier is the first stored user having it as email or username. -/
theorem identifier_unique_per_field (calls : List (String × String × JSVal × String))
    (identifier : String) (u v : User)
    (hu : u ∈ registerAll calls []) (hv : v ∈ registerAll calls []) :
    (u.email = identifier → v.email = identifier → u = v) ∧
    (u.username = identifier → v.username = identifier → u = v) ∧
    (∀ w, findByIdentifier (registerAll calls []) identifier = some w →
      w ∈ registerAll calls [] ∧ (w.email = identifier ∨ w.username = identifier)) := by
  obtain ⟨hn, he, -⟩ :=
    registerAll_nodup calls [] ⟨List.nodup_nil, List.nodup_nil, List.nodup_nil⟩
  refine ⟨?_, ?_, ?_⟩
  · intro h1 h2
    exact List.inj_on_of_nodup_map he hu hv (h1.trans h2.symm)
  · intro h1 h2
    exact List.inj_on_of_nodup_map hn hu hv (h1.trans h2.symm)
  · intro w hw
    have hm := List.mem_of_find?_eq_some hw
    have hp := List.find?_some hw
    simp only [Bool.or_eq_true, beq_iff_eq] at hp
    exact ⟨hm, hp⟩

/-- C30 as amended, for two registered users and the email of the second. -/
theorem identifier_unique_per_field_witness :
    ({ id := 1, username := "bob", email := "b@x.com",
       password := { salt := "s2", data := "pb" }, role := "user", profilePicture := "",
       balance := defaultBalance } : User) ∈
      registerAll [("alice", "a@x.com", .str "pa", "s1"),
                   ("bob", "b@x.com", .str "pb", "s2")] [] ∧
    (({ id := 1, username := "bob", email := "b@x.com",
        password := { salt := "s2", data := "pb" }, role := "user", profilePicture := "",
        balance := defaultBalance } : User).email = "b@x.com" ∨
     ({ id := 1, username := "bob", email := "b@x.com",
        password := { salt := "s2", data := "pb" }, role := "user", profilePicture := "",
        balance := defaultBalance } : User).username = "b@x.com") :=
  (identifier_unique_per_field
    [("alice", "a@x.com", .str "pa", "s1"), ("bob", "b@x.com", .str "pb", "s2")] "b@x.com"
    { id := 0, username := "alice", email := "a@x.com",
      password := { salt := "s1", data := "pa" }, role := "user", profilePicture := "",
      balance := defaultBalance }
    { id := 1, username := "bob", email := "b@x.com",
      password := { salt := "s2", data := "pb" }, role := "user", profilePicture := "",
      balance := defaultBalance }
    (by decide) (by decide)).2.2
    { id := 1, username := "bob", email := "b@x.com",
      password := { salt := "s2", data := "pb" }, role := "user", profilePicture := "",
      balance := defaultBalance }
    (by decide)

/-! ## Lemmas on tokens and on event creation -/

/-- A request whose token verifies presents a token. -/
theorem verified_not_missing (key : String) (now : Nat) (authorization : Option Token)
    (p : TokenPayload) (h : verified key now authorization = some p) :
    tokenMissing authorization = false := by
  cases authorization with
  | none => simp [verified] at h
  | some t =>
    cases t with
    | signed q k => rfl
    | text s => simp [verified, jwtVerify] at h

/-- The create handler for a caller whose token verifies. -/
theorem createEvent_verified (key : String) (nowMs : Nat) (dateParse : String → Option Int)
    (geo : Geocoder) (authorization : Option Token) (f : CreateFields) (file : Option String)
    (events : List CatalogEvent) (p : TokenPayload)
    (hv : verified key (nowMs / 1000) authorization = some p) :
    createEvent key nowMs dateParse geo authorization f file events =
      if !complete f then
        (.missingFields { title := present f.title, description := present f.description,
                          category := present f.category, date := present f.date,
                          availableSeats := present f.availableSeats }, events)
      else
        match dateParse (dateText f) with
        | none => (.invalidDate, events)
        | some eventDate =>
          match parseInt (f.availableSeats.getD "") with
          | none => (.serverError, events)
          | some seats =>
            (.created (createdEvent nowMs geo f file events p eventDate seats),
              events ++ [createdEvent nowMs geo f file events p eventDate seats]) := by
  simp only [createEvent, verified_not_missing key _ authorization p hv, hv]
  rfl

/-- When the create handler answers with a created event, the token verified, the form was
complete, the date and the seat count were valid, and the event was appended. -/
theorem createEvent_created (key : String) (nowMs : Nat) (dateParse : String → Option Int)
    (geo : Geocoder) (authorization : Option Token) (f : CreateFields) (file : Option String)
    (events after : List CatalogEvent) (ev : CatalogEvent)
    (h : createEvent key nowMs dateParse geo authorization f file events = (.created ev, after)) :
    ∃ p t seats, verified key (nowMs / 1000) authorization = some p ∧ complete f = true ∧
      dateParse (dateText f) = some t ∧ parseInt (f.availableSeats.getD "") = some seats ∧
      ev = createdEvent nowMs geo f file events p t seats ∧ after = events ++ [ev] := by
  unfold createEvent at h
  split at h
  · simp at h
  · split at h
    · simp at h
    · next p hp =>
      split at h
      · simp at h
      · next hc =>
        split at h
        · simp at h
        · next t ht =>
          split at h
          · simp at h
          · next seats hs =>
            simp only [Prod.mk.injEq, CreateResponse.created.injEq] at h
            refine ⟨p, t, seats, hp, by simpa using hc, ht, hs, h.1.symm, ?_⟩
            rw [← h.2, h.1]

/-! ## The claims on event creation -/

/-- Claim C23. For a caller whose token verifies, the create handler answers with the
validation error on missing fields (HTTP 400, error text "Missing required fields") exactly
when one of title, description, category, date, availableSeats is absent or empty; the
`received` map of that answer marks each field by whether it is given; and with that answer
no event is stored. -/
theorem create_missing_fields (key : String) (nowMs : Nat) (dateParse : String → Option Int)
    (geo : Geocoder) (authorization : Option Token) (f : CreateFields) (file : Option String)
    (events : List CatalogEvent) (p : TokenPayload)
    (hv : verified key (nowMs / 1000) authorization = some p) :
    (((createEvent key nowMs dateParse geo authorization f file events).1.httpStatus = 400 ∧
        (createEvent key nowMs dateParse geo authorization f file events).1.error =
          some "Missing required fields") ↔
      (present f.title = false ∨ present f.description = false ∨ present f.category = false ∨
        present f.date = false ∨ present f.availableSeats = false)) ∧
    (∀ r, (createEvent key nowMs dateParse geo authorization f file events).1 =
        .missingFields r →
      r.title = present f.title ∧ r.description = present f.description ∧
      r.category = present f.category ∧ r.date = present f.date ∧
      r.availableSeats = present f.availableSeats ∧
      (createEvent key nowMs dateParse geo authorization f file events).2 = events) ∧
    ((present f.title = false ∨ present f.description = false ∨ present f.category = false ∨
        present f.date = false ∨ present f.availableSeats = false) →
      createEvent key nowMs dateParse geo authorization f file events =
        (.missingFields { title := present f.title, description := present f.description,
                          category := present f.category, date := present f.date,
                          availableSeats := present f.availableSeats }, events)) := by
  have hmiss : (present f.title = false ∨ present f.description = false ∨
      present f.category = false ∨ present f.date = false ∨ present f.availableSeats = false) ↔
      complete f = false := by
    unfold complete
    cases present f.title <;> cases present f.description <;> cases present f.category <;>
      cases present f.date <;> cases present f.availableSeats <;> simp
  rw [createEvent_verified key nowMs dateParse geo authorization f file events p hv, hmiss]
  cases hc : complete f
  · simp [CreateResponse.httpStatus, CreateResponse.error]
  · simp only [Bool.not_true, Bool.false_eq_true, if_false]
    refine ⟨?_, ?_, by simp⟩
    · constructor
      · intro h
        exfalso
        revert h
        cases dateParse (dateText f) with
        | none => simp [CreateResponse.httpStatus, CreateResponse.error]
        | some t =>
          cases parseInt (f.availableSeats.getD "") with
          | none => simp [CreateResponse.httpStatus, CreateResponse.error]
          | some n => simp [CreateResponse.httpStatus, CreateResponse.error]
      · intro h
        simp at h
    · intro r hr
      exfalso
      revert hr
      cases dateParse (dateText f) with
      | none => simp
      | some t =>
        cases parseInt (f.availableSeats.getD "") with
        | none => simp
        | some n => simp

/-- Claim C23, at a form without a title: the answer marks the title as missing and stores
nothing; with all five fields given the event is stored. -/
theorem create_missing_fields_witness :
    verified "k" 5 (some sampleToken) = some samplePayload ∧
    createEvent "k" 5000 sampleDateParse sampleGeocoder (some sampleToken)
        { sampleForm with title := none } none [] =
      (.missingFields { title := false, description := true, category := true, date := true,
                        availableSeats := true }, []) ∧
    (createEvent "k" 5000 sampleDateParse sampleGeocoder (some sampleToken)
        sampleForm none []).2.length = 1 :=
  ⟨by decide,
   (create_missing_fields "k" 5000 sampleDateParse sampleGeocoder (some sampleToken)
      { sampleForm with title := none } none [] samplePayload (by decide)).2.2
      (Or.inl (by decide)),
   by decide⟩

/-- Claim C24. For a caller whose token verifies and a form with all required fields, a
valid date and a seat count, whose location gives a latitude and a longitude the handler
sends to the geocoder: when the address lookup or the city lookup fails, the event is
created and stored all the same, with address "Address not available" and city
"City not available". -/
theorem create_geocoding_failure (key : String) (nowMs : Nat)
    (dateParse : String → Option Int) (geo : Geocoder) (authorization : Option Token)
    (f : CreateFields) (file : Option String) (events : List CatalogEvent) (p : TokenPayload)
    (t seats : Int) (lat lng : Json)
    (hv : verified key (nowMs / 1000) authorization = some p)
    (hc : complete f = true)
    (hd : dateParse (dateText f) = some t)
    (hs : parseInt (f.availableSeats.getD "") = some seats)
    (hl : geocoderConsulted f.location = some (lat, lng))
    (hfail : getGeocodedAddress (geo.address lat lng) = none ∨
      getGeocodedCity (geo.city lat lng) = none) :
    ∃ ev, createEvent key nowMs dateParse geo authorization f file events =
        (.created ev, events ++ [ev]) ∧
      (CreateResponse.created ev).httpStatus = 200 ∧
      ev.address = "Address not available" ∧ ev.city = "City not available" := by
  refine ⟨createdEvent nowMs geo f file events p t seats, ?_, rfl, ?_, ?_⟩
  · rw [createEvent_verified key nowMs dateParse geo authorization f file events p hv]
    simp [hc, hd, hs]
  · have hr : resolveLocation geo f.location =
        ("Address not available", "City not available") := by
      simp only [resolveLocation, hl]
      rcases hfail with h | h
      · rw [h]
      · rw [h]
        cases getGeocodedAddress (geo.address lat lng) <;> rfl
    simp only [createdEvent, hr]
    decide
  · have hr : resolveLocation geo f.location =
        ("Address not available", "City not available") := by
      simp only [resolveLocation, hl]
      rcases hfail with h | h
      · rw [h]
      · rw [h]
        cases getGeocodedAddress (geo.address lat lng) <;> rfl
    simp only [createdEvent, hr]
    decide

/-- Claim C24, at a form with coordinates and a geocoder whose lookups all fail. -/
theorem create_geocoding_failure_witness :
    ∃ ev, createEvent "k" 5000 sampleDateParse failingGeocoder (some sampleToken)
        { sampleForm with location := some "\x7b\"lat\":52.5,\"lng\":13.4\x7d" } none [] =
        (.created ev, [] ++ [ev]) ∧
      (CreateResponse.created ev).httpStatus = 200 ∧
      ev.address = "Address not available" ∧ ev.city = "City not available" :=
  create_geocoding_failure "k" 5000 sampleDateParse failingGeocoder (some sampleToken)
    { sampleForm with location := some "\x7b\"lat\":52.5,\"lng\":13.4\x7d" } none [] samplePayload
    1000 50 (.num (toBinary64 (.fin 525 1))) (.num (toBinary64 (.fin 134 1))) (by decide)
    (by decide) (by decide) (by decide) rfl (Or.inl rfl)

/-- Claim C25. A form whose location is the JSON object with latitude 0 and longitude 13.4
does not reach the geocoder: although the geocoder resolves every pair of coordinates to
"Main Street 1, Berlin" in "Berlin", the stored event has address "Address not specified"
and city "City not specified". With latitude 52.5 the same form stores the address and
city of the geocoder. -/
theorem create_latitude_zero_not_geocoded :
    (geocoderConsulted (some "\x7b\"lat\":0,\"lng\":13.4\x7d")).isSome = false ∧
    (createEvent "k" 5000 sampleDateParse sampleGeocoder (some sampleToken)
        { sampleForm with location := some "\x7b\"lat\":0,\"lng\":13.4\x7d" } none []).2.map
      (fun ev => (ev.address, ev.city)) = [("Address not specified", "City not specified")] ∧
    (createEvent "k" 5000 sampleDateParse sampleGeocoder (some sampleToken)
        { sampleForm with location := some "\x7b\"lat\":52.5,\"lng\":13.4\x7d" } none []).2.map
      (fun ev => (ev.address, ev.city)) = [("Main Street 1, Berlin", "Berlin")] := by
  decide

/-- Claim C26. The text the create handler parses is the date, the letter T, the time and
":00" when a time is given, and the date alone otherwise. For a caller whose token verifies
and a form with all required fields: when that text is not a valid date the handler answers
HTTP 400 with "Invalid date format" and stores nothing; and whenever the handler creates an
event, the date of the event is the timestamp parsed from that text. -/
theorem create_date (key : String) (nowMs : Nat) (dateParse : String → Option Int)
    (geo : Geocoder) (authorization : Option Token) (f : CreateFields) (file : Option String)
    (events : List CatalogEvent) (p : TokenPayload)
    (hv : verified key (nowMs / 1000) authorization = some p)
    (hc : complete f = true) :
    (∀ d t, f.date = some d → f.time = some t → t ≠ "" →
      dateText f = d ++ "T" ++ t ++ ":00") ∧
    (∀ d, f.date = some d → (f.time = none ∨ f.time = some "") → dateText f = d) ∧
    (dateParse (dateText f) = none →
      createEvent key nowMs dateParse geo authorization f file events =
        (.invalidDate, events)) ∧
    CreateResponse.invalidDate.httpStatus = 400 ∧
    CreateResponse.invalidDate.error = some "Invalid date format" ∧
    (∀ ev after, createEvent key nowMs dateParse geo authorization f file events =
        (.created ev, after) →
      dateParse (dateText f) = some ev.date ∧ after = events ++ [ev]) := by
  refine ⟨?_, ?_, ?_, rfl, rfl, ?_⟩
  · intro d t hd ht hne
    simp [dateText, given, hd, ht, hne]
  · intro d hd ht
    rcases ht with ht | ht <;> simp [dateText, given, hd, ht]
  · intro hnone
    rw [createEvent_verified key nowMs dateParse geo authorization f file events p hv]
    simp [hc, hnone]
  · intro ev after h
    obtain ⟨q, t, seats, _, _, ht, _, hev, hafter⟩ :=
      createEvent_created key nowMs dateParse geo authorization f file events after ev h
    refine ⟨?_, hafter⟩
    rw [ht, hev]
    rfl

/-- Claim C26, at a form whose date is not a date, and at a form with a date and a time. -/
theorem create_date_witness :
    createEvent "k" 5000 sampleDateParse sampleGeocoder (some sampleToken)
        { sampleForm with date := some "soon" } none [] = (.invalidDate, []) ∧
    dateText { sampleForm with date := some "2026-01-31", time := some "18:30" } =
      "2026-01-31T18:30:00" ∧
    (createEvent "k" 5000 sampleDateParse sampleGeocoder (some sampleToken)
        sampleForm none []).2.map (fun ev => ev.date) = [1000] :=
  ⟨(create_date "k" 5000 sampleDateParse sampleGeocoder (some sampleToken)
      { sampleForm with date := some "soon" } none [] samplePayload (by decide)
      (by decide)).2.2.1 (by decide),
   by decide, by decide⟩

/-- Claim C27. When the create handler creates an event, the organizer of the event is the
id of the verified token of the request, whatever the form holds; the handler of
`GET /api/user/events` answers a caller whose token verifies with exactly the stored events
whose organizer is the id of that token; so the new event is in the list of a caller exactly
when the id of that caller is the id of its creator. -/
theorem organizer_is_caller (key : String) (nowMs : Nat) (dateParse : String → Option Int)
    (geo : Geocoder) (authorization : Option Token) (f : CreateFields) (file : Option String)
    (events after : List CatalogEvent) (ev : CatalogEvent)
    (h : createEvent key nowMs dateParse geo authorization f file events =
      (.created ev, after)) :
    ∃ p, verified key (nowMs / 1000) authorization = some p ∧ ev.organizer = p.id ∧
      ∀ (key2 : String) (now2 : Nat) (auth2 : Option Token) (q : TokenPayload),
        verified key2 now2 auth2 = some q →
        ∃ mine, getUserEvents key2 now2 auth2 after = .ok mine ∧
          (∀ e, e ∈ mine ↔ e ∈ after ∧ e.organizer = q.id) ∧
          (ev ∈ mine ↔ q.id = p.id) := by
  obtain ⟨p, t, seats, hp, _, _, _, hev, hafter⟩ :=
    createEvent_created key nowMs dateParse geo authorization f file events after ev h
  have horg : ev.organizer = p.id := by rw [hev]; rfl
  refine ⟨p, hp, horg, ?_⟩
  intro key2 now2 auth2 q hq
  refine ⟨after.filter (fun e => e.organizer == q.id), ?_, ?_, ?_⟩
  · simp only [getUserEvents, verified_not_missing key2 now2 auth2 q hq, hq]
    rfl
  · intro e
    simp [List.mem_filter]
  · simp only [List.mem_filter, beq_iff_eq, horg]
    constructor
    · intro hm
      exact hm.2.symm
    · intro hm
      refine ⟨?_, hm.symm⟩
      rw [hafter]
      simp

/-- Claim C27, for an event created with the sample token: its organizer is 7, it is in the
list of the caller with id 7 and not in the list of the caller with id 8. -/
theorem organizer_is_caller_witness :
    (∃ p, verified "k" (5000 / 1000) (some sampleToken) = some p ∧
      (createdEvent 5000 sampleGeocoder sampleForm none [] samplePayload 1000 50).organizer =
        p.id ∧
      ∀ (key2 : String) (now2 : Nat) (auth2 : Option Token) (q : TokenPayload),
        verified key2 now2 auth2 = some q →
        ∃ mine, getUserEvents key2 now2 auth2
            [createdEvent 5000 sampleGeocoder sampleForm none [] samplePayload 1000 50] =
            .ok mine ∧
          (∀ e, e ∈ mine ↔
            e ∈ [createdEvent 5000 sampleGeocoder sampleForm none [] samplePayload 1000 50] ∧
              e.organizer = q.id) ∧
          (createdEvent 5000 sampleGeocoder sampleForm none [] samplePayload 1000 50 ∈ mine ↔
            q.id = p.id)) ∧
    getUserEvents "k" 6 (some sampleToken)
        (createEvent "k" 5000 sampleDateParse sampleGeocoder (some sampleToken)
          sampleForm none []).2 =
      .ok (createEvent "k" 5000 sampleDateParse sampleGeocoder (some sampleToken)
          sampleForm none []).2 ∧
    getUserEvents "k" 6 (some (Token.signed { samplePayload with id := 8 } "k"))
        (createEvent "k" 5000 sampleDateParse sampleGeocoder (some sampleToken)
          sampleForm none []).2 = .ok [] :=
  ⟨organizer_is_caller "k" 5000 sampleDateParse sampleGeocoder (some sampleToken) sampleForm
      none [] [createdEvent 5000 sampleGeocoder sampleForm none [] samplePayload 1000 50]
      (createdEvent 5000 sampleGeocoder sampleForm none [] samplePayload 1000 50) (by decide),
   by decide, by decide⟩

/-! ## The claims on tokens, reviews and the location filter -/

/-- Claim C18. With a token that has expired, and with a text that is no token, the
handlers of `GET /api/auth/me` and `POST /api/events/create` answer 401, while the handlers
of `POST /api/rating/:id`, `GET /api/user/balance` and `GET /api/user/events` answer 500.
None of them writes, and with no token all five answer 401. -/
theorem invalid_token_answers_500 :
    verified "k" 604800 (some sampleToken) = none ∧
    (me "k" 604800 (some sampleToken) []).httpStatus = 401 ∧
    (createEvent "k" 604800000 sampleDateParse sampleGeocoder (some sampleToken) sampleForm
      none []).1.httpStatus = 401 ∧
    postReview "k" 604800 (some sampleToken) "e1" (.num (.fin 5 0)) (.str "fine") [] =
      (.serverError, []) ∧
    ReviewResponse.serverError.httpStatus = 500 ∧
    (getBalance "k" 604800 (some sampleToken) []).httpStatus = 500 ∧
    (getUserEvents "k" 604800 (some sampleToken) []).httpStatus = 500 ∧
    (me "k" 5 (some (.text "abc")) []).httpStatus = 401 ∧
    (createEvent "k" 5000 sampleDateParse sampleGeocoder (some (.text "abc")) sampleForm
      none []).1.httpStatus = 401 ∧
    (postReview "k" 5 (some (.text "abc")) "e1" (.num (.fin 5 0)) (.str "fine")
      []).1.httpStatus = 500 ∧
    (getBalance "k" 5 (some (.text "abc")) []).httpStatus = 500 ∧
    (getUserEvents "k" 5 (some (.text "abc")) []).httpStatus = 500 ∧
    (me "k" 5 none []).httpStatus = 401 ∧
    createEvent "k" 5000 sampleDateParse sampleGeocoder none sampleForm none [] =
      (.unauthorized, []) ∧
    postReview "k" 5 none "e1" (.num (.fin 5 0)) (.str "fine") [] = (.unauthorized, []) ∧
    (getBalance "k" 5 none []).httpStatus = 401 ∧
    (getUserEvents "k" 5 none []).httpStatus = 401 := by
  decide

/-- Claim C28. For a caller whose token verifies and a rating the review field accepts, the
handler that creates a review appends exactly one review to the stored reviews, whatever
reviews are stored already; the new review has the id of the token as its user and the id
of the path as its event; and the handler that lists reviews returns, for every event id,
all and only the stored reviews of that event. -/
theorem review_created (key : String) (now : Nat) (authorization : Option Token)
    (eventId : String) (rating reviewText : JSVal) (reviews : List Review) (p : TokenPayload)
    (r : Option JSNum)
    (hv : verified key now authorization = some p) (hr : castNumber rating = some r) :
    ∃ review, postReview key now authorization eventId rating reviewText reviews =
        (.created review, reviews ++ [review]) ∧
      (reviews ++ [review]).length = reviews.length + 1 ∧
      review.user = p.id ∧ review.event = eventId ∧ review.rating = r ∧
      (∀ e x, x ∈ listReviews e (reviews ++ [review]) ↔
        (x ∈ reviews ++ [review] ∧ x.event = e)) ∧
      review ∈ listReviews eventId (reviews ++ [review]) := by
  refine ⟨{ id := freshReviewId reviews, user := p.id, event := eventId, rating := r,
            reviewText := castString reviewText }, ?_, by simp, rfl, rfl, rfl, ?_, ?_⟩
  · simp only [postReview, verified_not_missing key now authorization p hv, hv, hr]
    rfl
  · intro e x
    simp [listReviews, List.mem_filter, or_and_right]
  · simp [listReviews, List.mem_filter]

/-- Claim C28, for a caller who reviews the same event a second time: both reviews are
stored and both are listed for the event. -/
theorem review_created_witness :
    (∃ review, postReview "k" 5 (some sampleToken) "e1" (.num (.fin 4 0)) (.str "again")
        [sampleReview] = (.created review, [sampleReview] ++ [review]) ∧
      ([sampleReview] ++ [review]).length = [sampleReview].length + 1 ∧
      review.user = samplePayload.id ∧ review.event = "e1" ∧
      review.rating = some (.fin 4 0) ∧
      (∀ e x, x ∈ listReviews e ([sampleReview] ++ [review]) ↔
        (x ∈ [sampleReview] ++ [review] ∧ x.event = e)) ∧
      review ∈ listReviews "e1" ([sampleReview] ++ [review])) ∧
    (listReviews "e1" (postReview "k" 5 (some sampleToken) "e1" (.num (.fin 4 0))
        (.str "again") [sampleReview]).2).map (fun x => (x.id, x.user, x.event)) =
      [(0, 7, "e1"), (1, 7, "e1")] :=
  ⟨review_created "k" 5 (some sampleToken) "e1" (.num (.fin 4 0)) (.str "again")
      [sampleReview] samplePayload (some (.fin 4 0)) (by decide) (by decide),
   by decide⟩

/-- Claim C22. An event created through the create handler with coordinates the geocoder
resolves is stored with address "Main Street 1, Berlin" and city "Berlin" and without a
`location`; the address contains "Main" and the city contains "Berlin" when case is
ignored, yet the list query with location "Main" and the list query with location "Berlin"
return no event, while the query without a location returns the event. -/
theorem location_filter_misses_created_event :
    (createEvent "k" 5000 sampleDateParse sampleGeocoder (some sampleToken) locatedForm
        none []).2.map (fun ev => (ev.address, ev.city, ev.location)) =
      [("Main Street 1, Berlin", "Berlin", none)] ∧
    ciContains "Main Street 1, Berlin" "Main" ∧ ciContains "Berlin" "Berlin" ∧
    listEvents sampleDateParse { noFilter with location := some "Main" }
        (createEvent "k" 5000 sampleDateParse sampleGeocoder (some sampleToken) locatedForm
          none []).2 =
      some (.ok ⟨[], 1, 0⟩) ∧
    listEvents sampleDateParse { noFilter with location := some "Berlin" }
        (createEvent "k" 5000 sampleDateParse sampleGeocoder (some sampleToken) locatedForm
          none []).2 =
      some (.ok ⟨[], 1, 0⟩) ∧
    listEvents sampleDateParse noFilter
        (createEvent "k" 5000 sampleDateParse sampleGeocoder (some sampleToken) locatedForm
          none []).2 =
      some (.ok ⟨(createEvent "k" 5000 sampleDateParse sampleGeocoder (some sampleToken)
        locatedForm none []).2, 1, 1⟩) := by
  decide

/-! ## Lemmas on the list query -/

/-- A pattern without special characters is the sequence of its characters. -/
theorem atomsOf_literal (cs : List Char) (h : ∀ ch ∈ cs, isRegexMeta ch = false) :
    atomsOf cs = some (cs.map Atom.lit) := by
  induction cs with
  | nil => rfl
  | cons c cs ih =>
    have hc : isRegexMeta c = false := h c (List.mem_cons_self _ _)
    have hdot : c ≠ '.' := by
      intro hd
      rw [hd] at hc
      exact absurd hc (by decide)
    rw [atomsOf, ih (fun ch hch => h ch (List.mem_cons_of_mem _ hch))]
    simp [hdot, hc]

/-- A sequence of literal characters matches at the front of a text exactly when it is a
prefix of the text, case ignored. -/
theorem matchHere_literal (cs : List Char) : ∀ text : List Char,
    matchHere (cs.map Atom.lit) text = true ↔ cs.map foldCase <+: text.map foldCase := by
  induction cs with
  | nil => intro text; simp [matchHere]
  | cons c cs ih =>
    intro text
    cases text with
    | nil => simp [matchHere]
    | cons t ts =>
      simp only [List.map_cons, matchHere, Atom.accepts, Bool.and_eq_true, beq_iff_eq, ih ts,
        List.cons_prefix_cons]

/-- A sequence of literal characters matches somewhere in a text exactly when it occurs in
the text, case ignored. -/
theorem matchAnywhere_literal (cs : List Char) : ∀ text : List Char,
    matchAnywhere (cs.map Atom.lit) text = true ↔ cs.map foldCase <:+: text.map foldCase := by
  intro text
  induction text with
  | nil =>
    cases cs with
    | nil => simp [matchAnywhere, matchHere]
    | cons c cs => simp [matchAnywhere, matchHere]
  | cons t ts ih =>
    rw [matchAnywhere, Bool.or_eq_true, matchHere_literal cs (t :: ts), ih, List.map_cons,
      List.infix_cons_iff]

/-- The pages of a list, one after another, give the list back. -/
theorem pages_concat (l : Nat) : ∀ (n : Nat) (xs : List CatalogEvent), xs.length ≤ n * l →
    (List.range n).flatMap (fun i => pageOf (i + 1) l xs) = xs := by
  intro n
  induction n with
  | zero =>
    intro xs h
    have : xs = [] := List.eq_nil_of_length_eq_zero (by omega)
    simp [this]
  | succ n ih =>
    intro xs h
    have hlen : (xs.drop l).length ≤ n * l := by
      rw [List.length_drop]
      have : (n + 1) * l = n * l + l := by ring
      omega
    have hstep : ∀ i, pageOf (i + 1 + 1) l xs = pageOf (i + 1) l (xs.drop l) := by
      intro i
      simp only [pageOf, Nat.add_sub_cancel, List.drop_drop]
      have : (i + 1) * l = l + i * l := by ring
      rw [this]
    rw [List.range_succ_eq_map, List.flatMap_cons, List.flatMap_map]
    have hfun : (fun a : Nat => pageOf (a.succ + 1) l xs) =
        fun i => pageOf (i + 1) l (xs.drop l) := by
      funext i
      exact hstep i
    rw [hfun, ih (xs.drop l) hlen]
    simp [pageOf]

/-- The page count of the handler is the least number of pages that hold all items. -/
theorem pageCount_least (n l : Nat) (hl : 0 < l) :
    n ≤ (n + l - 1) / l * l ∧ ∀ k, n ≤ k * l → (n + l - 1) / l ≤ k := by
  constructor
  · have h := Nat.div_add_mod (n + l - 1) l
    have hm := Nat.mod_lt (n + l - 1) hl
    have hc : (n + l - 1) / l * l = l * ((n + l - 1) / l) := Nat.mul_comm _ _
    omega
  · intro k hk
    have hlt : (n + l - 1) / l < k + 1 := by
      apply (Nat.div_lt_iff_lt_mul hl).2
      have : (k + 1) * l = k * l + l := by ring
      omega
    omega

/-- The parts of a query object that was built. -/
theorem buildFilter_ok (dateParse : String → Option Int) (q : ListQuery) (f : Filter)
    (h : buildFilter dateParse q = .ok f) :
    patternOf (if q.category = some "all" then none else q.category) = some f.category ∧
    patternOf q.location = some f.location ∧ patternOf q.name = some f.title ∧
    boundOf dateParse q.dateFrom = some f.dateFrom ∧
    boundOf dateParse q.dateTo = some f.dateTo := by
  unfold buildFilter at h
  split at h
  · next c l n hc hl hn =>
    split at h
    · next lo hi hlo hhi =>
      simp only [FilterResult.ok.injEq] at h
      subst h
      exact ⟨hc, hl, hn, hlo, hhi⟩
    · simp at h
  · simp at h

/-! ## The claims on the list query -/

/-- Claim C19. The category parameter "." builds a query whose category condition holds for
an event of category "Music", which does not contain "." as a substring. -/
theorem category_dot_matches_any_category :
    buildFilter sampleDateParse { noFilter with category := some "." } =
      .ok { category := some [Atom.any], location := none, title := none, dateFrom := none,
            dateTo := none } ∧
    (createdEvent 5000 sampleGeocoder sampleForm none [] samplePayload 1000 50).category =
      "Music" ∧
    Filter.categoryHolds
      { category := some [Atom.any], location := none, title := none, dateFrom := none,
        dateTo := none }
      (createdEvent 5000 sampleGeocoder sampleForm none [] samplePayload 1000 50) = true ∧
    ¬ ciContains "Music" "." ∧
    (listEvents sampleDateParse { noFilter with category := some "." }
      [createdEvent 5000 sampleGeocoder sampleForm none [] samplePayload 1000 50]).map
        (fun r => match r with
          | .ok x => x.events.map (fun ev => ev.category)
          | .serverError => []) = some ["Music"] := by
  decide

/-- C19 as amended: for a category parameter without characters that are special in a
regular expression, other than "all" and not empty, the category condition of the query
holds for an event exactly when the category of the event contains the parameter as a
substring, case ignored; with the parameter absent, empty or "all" the condition holds for
every event. -/
theorem category_filter_literal (dateParse : String → Option Int) (q : ListQuery)
    (f : Filter) (ev : CatalogEvent) (h : buildFilter dateParse q = .ok f) :
    (∀ c, q.category = some c → c ≠ "" → c ≠ "all" →
      (∀ ch ∈ c.toList, isRegexMeta ch = false) →
      (f.categoryHolds ev = true ↔ ciContains ev.category c)) ∧
    ((q.category = none ∨ q.category = some "" ∨ q.category = some "all") →
      f.categoryHolds ev = true) := by
  obtain ⟨hc, -, -, -, -⟩ := buildFilter_ok dateParse q f h
  constructor
  · intro c hq hne hall hlit
    have hif : (if q.category = some "all" then none else q.category) = some c := by
      rw [hq]
      simp [hall]
    rw [hif] at hc
    simp only [patternOf, given, bne_iff_ne, ne_eq, hne, not_false_eq_true, if_true,
      atomsOf_literal c.toList hlit, Option.map_some'] at hc
    have hcat : f.category = some (c.toList.map Atom.lit) := by
      injection hc with hc
      exact hc.symm
    simp only [Filter.categoryHolds, fieldMatches, hcat, ciContains]
    exact matchAnywhere_literal c.toList ev.category.toList
  · intro hq
    have hnone : f.category = none := by
      rcases hq with hq | hq | hq <;> rw [hq] at hc <;>
        simp [patternOf, given] at hc <;> exact hc.symm
    simp [Filter.categoryHolds, fieldMatches, hnone]

/-- C19 as amended, at the parameter "music" and an event of category "Music". -/
theorem category_filter_literal_witness :
    buildFilter sampleDateParse { noFilter with category := some "music" } =
      .ok { category := some [.lit 'm', .lit 'u', .lit 's', .lit 'i', .lit 'c'],
            location := none, title := none, dateFrom := none, dateTo := none } ∧
    (Filter.categoryHolds
        { category := some [.lit 'm', .lit 'u', .lit 's', .lit 'i', .lit 'c'],
          location := none, title := none, dateFrom := none, dateTo := none }
        (createdEvent 5000 sampleGeocoder sampleForm none [] samplePayload 1000 50) = true ↔
      ciContains
        (createdEvent 5000 sampleGeocoder sampleForm none [] samplePayload 1000 50).category
        "music") ∧
    ciContains "Music" "music" :=
  ⟨by decide,
   (category_filter_literal sampleDateParse { noFilter with category := some "music" }
      { category := some [.lit 'm', .lit 'u', .lit 's', .lit 'i', .lit 'c'],
        location := none, title := none, dateFrom := none, dateTo := none }
      (createdEvent 5000 sampleGeocoder sampleForm none [] samplePayload 1000 50)
      (by decide)).1 "music" rfl (by decide) (by decide) (by decide),
   by decide⟩

/-- Claim C20. In a query that was built, with both date parameters given and valid, the
date condition holds for an event exactly when the date of the event is at or after the
lower bound and before the upper bound; with only one of them given only that bound
applies; with neither given the condition holds for every event. -/
theorem date_filter (dateParse : String → Option Int) (q : ListQuery) (f : Filter)
    (ev : CatalogEvent) (h : buildFilter dateParse q = .ok f) :
    (∀ a b t1 t2, q.dateFrom = some a → a ≠ "" → q.dateTo = some b → b ≠ "" →
      dateParse a = some t1 → dateParse b = some t2 →
      (f.dateHolds ev = true ↔ t1 ≤ ev.date ∧ ev.date < t2)) ∧
    (∀ a t1, q.dateFrom = some a → a ≠ "" → given q.dateTo = none →
      dateParse a = some t1 → (f.dateHolds ev = true ↔ t1 ≤ ev.date)) ∧
    (∀ b t2, given q.dateFrom = none → q.dateTo = some b → b ≠ "" →
      dateParse b = some t2 → (f.dateHolds ev = true ↔ ev.date < t2)) ∧
    (given q.dateFrom = none → given q.dateTo = none → f.dateHolds ev = true) := by
  obtain ⟨-, -, -, hlo, hhi⟩ := buildFilter_ok dateParse q f h
  have hgiven : ∀ a : String, a ≠ "" → given (some a) = some a := by
    intro a ha
    simp [given, ha]
  have hsome : ∀ (p : Option String) (a : String) (t : Int) (x : Option Int),
      p = some a → a ≠ "" → dateParse a = some t → boundOf dateParse p = some x →
      x = some t := by
    intro p a t x hp ha ht hx
    rw [hp] at hx
    simp only [boundOf, hgiven a ha, ht, Option.map_some', Option.some.injEq] at hx
    exact hx.symm
  have hnone : ∀ (p : Option String) (x : Option Int),
      given p = none → boundOf dateParse p = some x → x = none := by
    intro p x hp hx
    simp only [boundOf, hp, Option.some.injEq] at hx
    exact hx.symm
  refine ⟨?_, ?_, ?_, ?_⟩
  · intro a b t1 t2 ha hane hb hbne hta htb
    simp [Filter.dateHolds, hsome _ a t1 _ ha hane hta hlo, hsome _ b t2 _ hb hbne htb hhi]
  · intro a t1 ha hane hb hta
    simp [Filter.dateHolds, hsome _ a t1 _ ha hane hta hlo, hnone _ _ hb hhi]
  · intro b t2 ha hb hbne htb
    simp [Filter.dateHolds, hnone _ _ ha hlo, hsome _ b t2 _ hb hbne htb hhi]
  · intro ha hb
    simp [Filter.dateHolds, hnone _ _ ha hlo, hnone _ _ hb hhi]

/-- Claim C20, at the bounds 1000 and 2000: the event of date 1000 satisfies the condition,
and it does not satisfy the condition with the bounds 500 and 1000. -/
theorem date_filter_witness :
    (Filter.dateHolds
        { category := none, location := none, title := none, dateFrom := some 1000,
          dateTo := some 2000 }
        (createdEvent 5000 sampleGeocoder sampleForm none [] samplePayload 1000 50) = true ↔
      (1000 : Int) ≤
          (createdEvent 5000 sampleGeocoder sampleForm none [] samplePayload 1000 50).date ∧
        (createdEvent 5000 sampleGeocoder sampleForm none [] samplePayload 1000 50).date <
          2000) ∧
    Filter.dateHolds
        { category := none, location := none, title := none, dateFrom := some 1000,
          dateTo := some 2000 }
        (createdEvent 5000 sampleGeocoder sampleForm none [] samplePayload 1000 50) = true ∧
    (listEvents sampleDateParse
        { noFilter with dateFrom := some "500", dateTo := some "1000" }
        [createdEvent 5000 sampleGeocoder sampleForm none [] samplePayload 1000 50]) =
      some (.ok ⟨[], 1, 0⟩) :=
  ⟨(date_filter sampleDateParse
      { noFilter with dateFrom := some "1000", dateTo := some "2000" }
      { category := none, location := none, title := none, dateFrom := some 1000,
        dateTo := some 2000 }
      (createdEvent 5000 sampleGeocoder sampleForm none [] samplePayload 1000 50)
      (by decide)).1 "1000" "2000" 1000 2000 rfl (by decide) rfl (by decide) (by decide)
      (by decide),
   by decide, by decide⟩

/-- Claim C21. For a query that was built and a page and a limit that are positive integers
(1 and 9 when the parameters are absent), the list handler returns the events at positions
`(page - 1) * limit` up to `page * limit - 1` of the matching events ordered newest first,
at most `limit` of them, with the page as `currentPage` and as `totalPages` the least number
of pages of that limit that hold all matching events, which is the number of matching
events divided by the limit and rounded up; the ordered events are the matching events,
each once; and pages 1 to `totalPages` one after another are the ordered events. -/
theorem list_page (dateParse : String → Option Int) (q : ListQuery)
    (events : List CatalogEvent) (f : Filter) (p l : Int)
    (hb : buildFilter dateParse q = .ok f)
    (hp : pagingParam q.page 1 = some p) (hl : pagingParam q.limit 9 = some l)
    (hp0 : 0 < p) (hl0 : 0 < l) :
    ∃ r, listEvents dateParse q events = some (.ok r) ∧
      r.events = ((matching f events).drop ((p.toNat - 1) * l.toNat)).take l.toNat ∧
      r.events.length ≤ l.toNat ∧
      r.currentPage = p.toNat ∧
      (events.filter f.accepts).length ≤ r.totalPages * l.toNat ∧
      (∀ k, (events.filter f.accepts).length ≤ k * l.toNat → r.totalPages ≤ k) ∧
      (r.totalPages : ℚ) = ⌈((events.filter f.accepts).length : ℚ) / (l.toNat : ℚ)⌉₊ ∧
      (matching f events).Sorted NewerFirst ∧
      (matching f events).Perm (events.filter f.accepts) ∧
      (List.range r.totalPages).flatMap (fun i => pageOf (i + 1) l.toNat (matching f events)) =
        matching f events ∧
      (q.page = none → p = 1) ∧ (q.limit = none → l = 9) := by
  have hlpos : 0 < l.toNat := by omega
  have hleast := pageCount_least (events.filter f.accepts).length l.toNat hlpos
  have hperm : (matching f events).Perm (events.filter f.accepts) :=
    List.perm_insertionSort NewerFirst _
  refine ⟨{ events := pageOf p.toNat l.toNat (matching f events), currentPage := p.toNat,
            totalPages := ((events.filter f.accepts).length + l.toNat - 1) / l.toNat },
    ?_, rfl, ?_, rfl, hleast.1, hleast.2, ?_, List.sorted_insertionSort NewerFirst _, hperm,
    ?_, ?_, ?_⟩
  · simp [listEvents, hb, hp, hl, hp0, hl0]
  · simp only [pageOf, List.length_take]
    omega
  · have hq : (0 : ℚ) < (l.toNat : ℚ) := by exact_mod_cast hlpos
    congr 1
    apply le_antisymm
    · apply hleast.2
      have hc := Nat.le_ceil (((events.filter f.accepts).length : ℚ) / (l.toNat : ℚ))
      rw [div_le_iff₀ hq] at hc
      exact_mod_cast hc
    · apply Nat.ceil_le.2
      rw [div_le_iff₀ hq]
      exact_mod_cast hleast.1
  · apply pages_concat
    rw [hperm.length_eq]
    exact hleast.1
  · intro hq
    rw [hq] at hp
    simp only [pagingParam, Option.some.injEq] at hp
    exact hp.symm
  · intro hq
    rw [hq] at hl
    simp only [pagingParam, Option.some.injEq] at hl
    exact hl.symm

/-- Claim C21, at page 2 with limit 1 over two stored events: the page holds the older
event, and the two pages together hold both events, the newer first. -/
theorem list_page_witness :
    (∃ r, listEvents sampleDateParse { noFilter with page := some "2", limit := some "1" }
        twoEvents = some (.ok r) ∧
      r.events = ((matching emptyFilter twoEvents).drop (((2 : Int).toNat - 1) *
        (1 : Int).toNat)).take (1 : Int).toNat ∧
      r.events.length ≤ (1 : Int).toNat ∧
      r.currentPage = (2 : Int).toNat ∧
      (twoEvents.filter emptyFilter.accepts).length ≤ r.totalPages * (1 : Int).toNat ∧
      (∀ k, (twoEvents.filter emptyFilter.accepts).length ≤ k * (1 : Int).toNat →
        r.totalPages ≤ k) ∧
      (r.totalPages : ℚ) =
        ⌈((twoEvents.filter emptyFilter.accepts).length : ℚ) / ((1 : Int).toNat : ℚ)⌉₊ ∧
      (matching emptyFilter twoEvents).Sorted NewerFirst ∧
      (matching emptyFilter twoEvents).Perm (twoEvents.filter emptyFilter.accepts) ∧
      (List.range r.totalPages).flatMap
          (fun i => pageOf (i + 1) (1 : Int).toNat (matching emptyFilter twoEvents)) =
        matching emptyFilter twoEvents ∧
      ((some "2" : Option String) = none → (2 : Int) = 1) ∧
      ((some "1" : Option String) = none → (1 : Int) = 9)) ∧
    (listEvents sampleDateParse { noFilter with page := some "2", limit := some "1" }
        twoEvents).map
      (fun r => match r with
        | .ok x => (x.events.map (fun ev => ev.title), x.currentPage, x.totalPages)
        | .serverError => ([], 0, 0)) = some (["Jazz night"], 2, 2) ∧
    (listEvents sampleDateParse noFilter twoEvents).map
      (fun r => match r with
        | .ok x => (x.events.map (fun ev => ev.title), x.currentPage, x.totalPages)
        | .serverError => ([], 0, 0)) = some (["Salsa night", "Jazz night"], 1, 1) :=
  ⟨list_page sampleDateParse { noFilter with page := some "2", limit := some "1" } twoEvents
      emptyFilter 2 1 (by decide) (by decide) (by decide) (by decide) (by decide),
   by decide, by decide⟩

/-! ## Capture and its database calls -/

/-- Every capture call, whatever database calls reject, leaves the store as it was without
creating a booking; or ends in an error after `booking.save()`, with the new booking
stored and no event changed; or stores the new booking, adds its seats and answers with
it. -/
theorem captureWith_effect (db : DbFaults) (c : Bool) (o : JSVal) (reply : ProviderReply)
    (s : Store) :
    ((captureWith db c o reply s).2 = s ∧
      ∀ a b x m, (captureWith db c o reply s).1 ≠ .created a b x m) ∨
    (∃ (r : CaptureResult) (e u : Option String) (n : Int), (db.findById = true ∨ (db.eventSave = true ∧ (findById s.events e).isSome)) ∧
      captureWith db c o reply s =
        (.failed .database,
          { events := s.events,
            bookings := paidBooking (freshId s.bookings) e u n (capturedAmount r.amountValue)
              :: s.bookings })) ∨
    (∃ (r : CaptureResult) (e u : Option String) (n : Int), (db.eventSave = false ∨ findById s.events e = none) ∧
      captureWith db c o reply s =
        (.created r.id r.status
            (paidBooking (freshId s.bookings) e u n (capturedAmount r.amountValue)) r.metadata,
          { events := addSeats s.events e n,
            bookings := paidBooking (freshId s.bookings) e u n (capturedAmount r.amountValue)
              :: s.bookings })) := by
  have hcb : ∀ (r : CaptureResult) (e u : Option String) (q : JSVal),
      ((createBooking db r e u q s).2 = s ∧
        ∀ a b x m, (createBooking db r e u q s).1 ≠ .created a b x m) ∨
      (∃ n : Int, (db.findById = true ∨ (db.eventSave = true ∧ (findById s.events e).isSome)) ∧
        createBooking db r e u q s =
          (.failed .database,
            { events := s.events,
              bookings := paidBooking (freshId s.bookings) e u n (capturedAmount r.amountValue)
                :: s.bookings })) ∨
      (∃ n : Int, (db.eventSave = false ∨ findById s.events e = none) ∧
        createBooking db r e u q s =
          (.created r.id r.status
              (paidBooking (freshId s.bookings) e u n (capturedAmount r.amountValue))
              r.metadata,
            { events := addSeats s.events e n,
              bookings := paidBooking (freshId s.bookings) e u n
                (capturedAmount r.amountValue) :: s.bookings })) := by
    intro r e u q
    unfold createBooking
    cases seatCount q with
    | none => left; simp
    | some n =>
      by_cases ht : (capturedAmount r.amountValue).isNaN = true
      · left; simp [ht]
      · by_cases h1 : db.bookingSave = true
        · left; simp [ht, h1]
        · by_cases h2 : db.findById = true
          · right; left
            exact ⟨n, Or.inl h2, by simp [ht, h1, h2]⟩
          · by_cases h3 : ((findById s.events e).isSome && db.eventSave) = true
            · right; left
              refine ⟨n, Or.inr ?_, by simp [ht, h1, h2, h3]⟩
              simp only [Bool.and_eq_true] at h3
              exact ⟨h3.2, h3.1⟩
            · right; right
              refine ⟨n, ?_, by simp [ht, h1, h2, h3]⟩
              simp only [Bool.and_eq_true, not_and, Bool.not_eq_true] at h3
              cases hf : findById s.events e with
              | none => exact Or.inr rfl
              | some ev => exact Or.inl (h3 (by simp [hf]))
  unfold captureWith
  cases c with
  | false => left; simp
  | true =>
    cases ho : truthy o with
    | false => left; simp
    | true =>
      cases reply with
      | error msg => left; simp
      | result r =>
        by_cases hs : (r.status == "COMPLETED") = true
        · by_cases h0 : db.connect = true
          · left; simp [hs, h0]
          · cases hm : r.metadata with
            | null => left; simp [hs, h0, hm]
            | obj e u q =>
              by_cases h1 : db.findOne = true
              · left; simp [hs, h0, h1, hm]
              · simp only [hs, h0, h1, hm, Bool.not_true, Bool.false_eq_true, if_false, if_true,
                  Bool.not_false]
                cases hf : findLatest s.bookings e u with
                | none =>
                  simp only []
                  rcases hcb r e u q with h | ⟨n, hd, h⟩ | ⟨n, hd, h⟩
                  · exact Or.inl h
                  · exact Or.inr (Or.inl ⟨r, e, u, n, hd, h⟩)
                  · exact Or.inr (Or.inr ⟨r, e, u, n, hd, h⟩)
                | some x =>
                  simp only []
                  by_cases hp : (x.paymentStatus != "paid") = true
                  · simp only [hp, if_true]
                    rcases hcb r e u q with h | ⟨n, hd, h⟩ | ⟨n, hd, h⟩
                    · exact Or.inl h
                    · exact Or.inr (Or.inl ⟨r, e, u, n, hd, h⟩)
                    · exact Or.inr (Or.inr ⟨r, e, u, n, hd, h⟩)
                  · left; simp [hp]
        · left; simp [hs]

/-- Claim C29 fails as stated, in both halves. When `event.save()` rejects after
`booking.save()` resolved, the capture answers 500 while the booking is stored and the
booked seats of the event are as before. And a completed capture whose metadata names an
event that is not stored answers success with a newly created booking, although the event
of the booking does not exist and no booked seat count changed. -/
theorem capture_not_atomic :
    captureWith { allResolve with eventSave := true } true (.str "O1")
        (completed "O1" (some "e1") (some "u1") (.str "2") (some "20.00"))
        (Store.empty.addEvent (newEvent "e1" 10)) =
      (.failed .database,
        { events := [{ id := "e1", availableSeats := 10, bookedSeats := 0 }],
          bookings := [paidBooking 0 (some "e1") (some "u1") 2 (.fin 2000 2)] }) ∧
    (CaptureResponse.failed .database).httpStatus = 500 ∧
    (captureWith { allResolve with findById := true } true (.str "O1")
        (completed "O1" (some "e1") (some "u1") (.str "2") (some "20.00"))
        (Store.empty.addEvent (newEvent "e1" 10))).2.bookings.length = 1 ∧
    (captureWith allResolve true (.str "O1")
        (completed "O1" (some "ghost") (some "u1") (.str "2") (some "20.00"))
        (Store.empty.addEvent (newEvent "e1" 10))).1 =
      .created "O1" "COMPLETED" (paidBooking 0 (some "ghost") (some "u1") 2 (.fin 2000 2))
        (.obj (some "ghost") (some "u1") (.str "2")) ∧
    findById (Store.empty.addEvent (newEvent "e1" 10)).events (some "ghost") = none ∧
    (captureWith allResolve true (.str "O1")
        (completed "O1" (some "ghost") (some "u1") (.str "2") (some "20.00"))
        (Store.empty.addEvent (newEvent "e1" 10))).2.events
      = (Store.empty.addEvent (newEvent "e1" 10)).events := by
  decide

/-- Claim C29 as amended: whatever database calls reject, a capture call that answers with
an error status leaves every event as it was, and leaves the bookings as they were unless
`findById` or `event.save()` rejected, in which case one paid booking was added and
nothing else; when neither of these two calls rejects, an error answer leaves the whole
store as it was. A call that answers success with a newly created booking has stored that
booking, and if the event of the booking is stored its booked seats were raised by the
seats of the booking, while if it is not stored no event changed. -/
theorem capture_atomic_with_response (db : DbFaults) (c : Bool) (o : JSVal)
    (reply : ProviderReply) (s : Store) :
    ((captureWith db c o reply s).1.httpStatus ≠ 200 →
      (captureWith db c o reply s).2.events = s.events ∧
      ((captureWith db c o reply s).2.bookings = s.bookings ∨
        ((db.findById = true ∨ db.eventSave = true) ∧
          ∃ b, (captureWith db c o reply s).2.bookings = b :: s.bookings ∧
            b.paymentStatus = "paid" ∧ b.status = "confirmed"))) ∧
    (db.findById = false → db.eventSave = false →
      (captureWith db c o reply s).1.httpStatus ≠ 200 → (captureWith db c o reply s).2 = s) ∧
    (∀ oid st b m, (captureWith db c o reply s).1 = .created oid st b m →
      (captureWith db c o reply s).2.bookings = b :: s.bookings ∧
      (∀ ev, findById s.events b.event = some ev →
        findById (captureWith db c o reply s).2.events b.event =
          some { ev with bookedSeats := ev.bookedSeats + b.numberOfSeats }) ∧
      (findById s.events b.event = none →
        (captureWith db c o reply s).2.events = s.events)) := by
  rcases captureWith_effect db c o reply s with ⟨h, hn⟩ | ⟨r, e, u, n, hd, h⟩ |
    ⟨r, e, u, n, hd, h⟩
  · refine ⟨fun _ => ⟨by rw [h], Or.inl (by rw [h])⟩, fun _ _ _ => h, ?_⟩
    intro oid st b m hb
    exact absurd hb (hn oid st b m)
  · rw [h]
    refine ⟨fun _ => ⟨rfl, Or.inr ⟨?_, _, rfl, rfl, rfl⟩⟩, ?_, ?_⟩
    · rcases hd with hd | hd
      · exact Or.inl hd
      · exact Or.inr hd.1
    · intro h1 h2
      rcases hd with hd | hd
      · rw [h1] at hd; exact absurd hd (by decide)
      · rw [h2] at hd; exact absurd hd.1 (by decide)
    · intro oid st b m hb
      simp at hb
  · rw [h]
    refine ⟨fun hne => absurd rfl hne, fun _ _ hne => absurd rfl hne, ?_⟩
    intro oid st b m hb
    simp only [CaptureResponse.created.injEq] at hb
    obtain ⟨-, -, hb, -⟩ := hb
    subst hb
    refine ⟨rfl, ?_, ?_⟩
    · intro ev hev
      simp only [paidBooking] at hev ⊢
      cases e with
      | none => simp [findById] at hev
      | some id =>
        simp only [addSeats, hev]
        exact findById_bumpSeats id n s.events ev hev
    · intro hnone
      simp only [paidBooking] at hnone
      simp only [addSeats, hnone]

/-- Claim C29 as amended, at a capture the provider fails, at a capture whose `findById`
rejects and at a completed capture for a stored event: the first leaves the store as it
was, the second leaves the events as they were, the third stores the booking and raises
the booked seats of the event by the seats of the booking. -/
theorem capture_atomic_with_response_witness :
    (captureWith allResolve true (.str "O1") (.error "declined")
        (Store.empty.addEvent (newEvent "e1" 10))).2 =
      Store.empty.addEvent (newEvent "e1" 10) ∧
    (captureWith { allResolve with findById := true } true (.str "O1")
        (completed "O1" (some "e1") (some "u1") (.str "2") (some "20.00"))
        (Store.empty.addEvent (newEvent "e1" 10))).2.events =
      (Store.empty.addEvent (newEvent "e1" 10)).events ∧
    (captureWith allResolve true (.str "O1")
        (completed "O1" (some "e1") (some "u1") (.str "2") (some "20.00"))
        (Store.empty.addEvent (newEvent "e1" 10))).2.events.map
      (fun ev => (ev.id, ev.bookedSeats)) = [("e1", 2)] ∧
    (captureWith allResolve true (.str "O1")
        (completed "O1" (some "e1") (some "u1") (.str "2") (some "20.00"))
        (Store.empty.addEvent (newEvent "e1" 10))).2.bookings.map
      (fun b => (b.event, b.user, b.numberOfSeats)) = [(some "e1", some "u1", 2)] :=
  ⟨(capture_atomic_with_response allResolve true (.str "O1") (.error "declined")
      (Store.empty.addEvent (newEvent "e1" 10))).2.1 rfl rfl (by decide),
   ((capture_atomic_with_response { allResolve with findById := true } true (.str "O1")
      (completed "O1" (some "e1") (some "u1") (.str "2") (some "20.00"))
      (Store.empty.addEvent (newEvent "e1" 10))).1 (by decide)).1,
   by decide, by decide⟩

/-! ## The claim on the order value -/

/-- Claim C10 fails as stated: a request with `amount: "abc"` passes the validation of order
creation and the amount value sent to the provider is "NaN"; with `amount: 1e21` the value
sent is "1e+21"; and with the amount 99999999999999999999 and the quantity 10, whose
product is below 10^21, the value sent is "1e+21" as well, the product being computed in
binary64. None is a decimal string with two digits after the point. -/
theorem order_value_not_two_decimals :
    (sentOrder true none
        { amount := .str "abc", quantity := .num (.fin 2 0), eventName := .str "Concert",
          userId := .str "u1", eventId := .str "e1" }).map (·.value) = some "NaN" ∧
    (sentOrder true none
        { amount := .num (.fin 1000000000000000000000 0), quantity := .num (.fin 1 0),
          eventName := .str "Concert", userId := .str "u1",
          eventId := .str "e1" }).map (·.value) = some "1e+21" ∧
    (sentOrder true none
        { amount := .num (.fin 99999999999999999999 0), quantity := .num (.fin 10 0),
          eventName := .str "Concert", userId := .str "u1",
          eventId := .str "e1" }).map (·.value) = some "1e+21" := by
  decide

/-- Claim C10 as amended: for every order-creation request that passes validation and whose
product of amount and quantity, computed in binary64 as the handler computes it, is a
finite number `P` below 10^21 in absolute value, the order is sent with currency USD and
its amount value is the sign, the decimal digits of `N / 100`, a point and the two digits
of `N % 100`, where `N` hundredths is the exact value of `P` rounded to the nearest
hundredth (the larger on a tie); when `P` has at most two decimals `N` hundredths is `P`
itself; and `P` is the binary64 value nearest to the exact product of the binary64 values
of amount and quantity. -/
theorem order_value_two_decimals (origin : Option String) (b : OrderBody)
    (p : Int) (g : Nat)
    (hv : missingFields b = false)
    (hprod : jsMul (toNumber b.amount) (toNumber b.quantity) = .fin p g)
    (hb : p.natAbs < 10 ^ 21 * 10 ^ g) :
    ∃ N : Nat,
      sentOrder true origin b = some (orderRequest origin b) ∧
      (orderRequest origin b).currencyCode = "USD" ∧
      (orderRequest origin b).value =
        (if p < 0 then "-" else "") ++
          (String.mk (Nat.toDigits 10 (N / 100)) ++ String.mk ('.' :: twoDigits (N % 100))) ∧
      (∀ c ∈ Nat.toDigits 10 (N / 100), c.isDigit = true) ∧
      (twoDigits (N % 100)).length = 2 ∧
      (∀ c ∈ twoDigits (N % 100), c.isDigit = true) ∧
      2 * N * 10 ^ g ≤ 2 * (p.natAbs * 100) + 10 ^ g ∧
      2 * (p.natAbs * 100) + 10 ^ g < 2 * (N + 1) * 10 ^ g ∧
      (g ≤ 2 → N = p.natAbs * 10 ^ (2 - g)) ∧
      (∀ m e n f, toNumber b.amount = .fin m e → toNumber b.quantity = .fin n f →
        JSNum.fin p g = toBinary64 (.fin (m * n) (e + f))) := by
  refine ⟨nearestHundredths p.natAbs g, ?_, rfl, ?_, toDigits_isDigit _,
    (twoDigits_isDigit _).1, (twoDigits_isDigit _).2, (nearestHundredths_spec _ _).1,
    (nearestHundredths_spec _ _).2, nearestHundredths_exact _ _, ?_⟩
  · simp [sentOrder, hv]
  · have hnot : ¬ (10 ^ 21 * 10 ^ g ≤ p.natAbs) := by omega
    simp only [orderRequest, totalAmount, hprod, toFixed2, hnot, if_false]
  · intro m e n f ha hq
    rw [ha, hq] at hprod
    exact hprod.symm

/-- Claim C10 as amended, for three tickets at 12.50: the binary64 product is 37.5 and the
value sent is "37.50" in USD. For three tickets at 19.99 the value sent is "59.97", and
for one ticket at 1.005, a price whose binary64 value lies below 1.005, it is "1.00". -/
theorem order_value_two_decimals_witness :
    (∃ N : Nat,
      sentOrder true none
          { amount := .num (.fin 125 1), quantity := .num (.fin 3 0),
            eventName := .str "Concert", userId := .str "u1", eventId := .str "e1" } =
        some (orderRequest none
          { amount := .num (.fin 125 1), quantity := .num (.fin 3 0),
            eventName := .str "Concert", userId := .str "u1", eventId := .str "e1" }) ∧
      (orderRequest none
        { amount := .num (.fin 125 1), quantity := .num (.fin 3 0),
          eventName := .str "Concert", userId := .str "u1",
          eventId := .str "e1" }).currencyCode = "USD" ∧
      (orderRequest none
        { amount := .num (.fin 125 1), quantity := .num (.fin 3 0),
          eventName := .str "Concert", userId := .str "u1", eventId := .str "e1" }).value =
        (if (375 : Int) < 0 then "-" else "") ++
          (String.mk (Nat.toDigits 10 (N / 100)) ++ String.mk ('.' :: twoDigits (N % 100))) ∧
      (∀ c ∈ Nat.toDigits 10 (N / 100), c.isDigit = true) ∧
      (twoDigits (N % 100)).length = 2 ∧
      (∀ c ∈ twoDigits (N % 100), c.isDigit = true) ∧
      2 * N * 10 ^ 1 ≤ 2 * ((375 : Int).natAbs * 100) + 10 ^ 1 ∧
      2 * ((375 : Int).natAbs * 100) + 10 ^ 1 < 2 * (N + 1) * 10 ^ 1 ∧
      (1 ≤ 2 → N = (375 : Int).natAbs * 10 ^ (2 - 1)) ∧
      (∀ m e n f, toNumber (.num (.fin 125 1)) = .fin m e →
        toNumber (.num (.fin 3 0)) = .fin n f →
        JSNum.fin 375 1 = toBinary64 (.fin (m * n) (e + f)))) ∧
    (orderRequest none
        { amount := .num (.fin 125 1), quantity := .num (.fin 3 0),
          eventName := .str "Concert", userId := .str "u1", eventId := .str "e1" }).value =
      "37.50" ∧
    (orderRequest none
        { amount := .num (.fin 1999 2), quantity := .num (.fin 3 0),
          eventName := .str "Concert", userId := .str "u1", eventId := .str "e1" }).value =
      "59.97" ∧
    (orderRequest none
        { amount := .num (.fin 1005 3), quantity := .num (.fin 1 0),
          eventName := .str "Concert", userId := .str "u1", eventId := .str "e1" }).value =
      "1.00" :=
  ⟨order_value_two_decimals none
      { amount := .num (.fin 125 1), quantity := .num (.fin 3 0),
        eventName := .str "Concert", userId := .str "u1", eventId := .str "e1" }
      375 1 (by decide) (by decide) (by decide),
   by decide, by decide, by decide⟩

/-! ## The metadata round trip -/

/-- A hexadecimal digit is read back as the number it renders. -/
theorem digitVal_hexDigit (k : Nat) (hk : k < 16) : digitVal 16 (hexDigit k) = some k := by
  interval_cases k <;> decide

/-- Reading the rendering of one character gives the character back. -/
theorem parseString_escapeChar (c : Char) (tail : List Char) :
    parseString (escapeChar c ++ tail) =
      (parseString tail).map (fun p => (c :: p.1, p.2)) := by
  unfold escapeChar
  split
  · next h => subst h; simp [parseString, unescape]
  split
  · next h => subst h; simp [parseString, unescape]
  split
  · next h => subst h; simp [parseString, unescape]
  split
  · next h => subst h; simp [parseString, unescape]
  split
  · next h => subst h; simp [parseString, unescape]
  split
  · next h => subst h; simp [parseString, unescape]
  split
  · next h => subst h; simp [parseString, unescape]
  split
  · next h1 h2 h3 h4 h5 h6 h7 h8 =>
    have hd1 : digitVal 16 (hexDigit (c.toNat / 16)) = some (c.toNat / 16) :=
      digitVal_hexDigit _ (by omega)
    have hd2 : digitVal 16 (hexDigit (c.toNat % 16)) = some (c.toNat % 16) :=
      digitVal_hexDigit _ (by omega)
    have h0 : digitVal 16 '0' = some 0 := by decide
    have hval : c.toNat / 16 * 16 + c.toNat % 16 = c.toNat := by omega
    have hchar : unitChar c.toNat = c := by
      have : ¬ (55296 ≤ c.toNat ∧ c.toNat ≤ 57343) := by omega
      simp only [unitChar, this, if_false]
      exact Char.ofNat_toNat c
    simp [parseString, hex4, hd1, hd2, h0, hval, hchar]
  · next h1 h2 h3 h4 h5 h6 h7 h8 =>
    rw [List.singleton_append, parseString.eq_def]
    simp [h1, h2, h8]

/-- Reading the rendering of a string up to its closing quote gives the string back. -/
theorem parseString_escapeChars (cs rest : List Char) :
    parseString (escapeChars cs ++ '"' :: rest) = some (cs, rest) := by
  induction cs with
  | nil =>
    rw [escapeChars, List.nil_append, parseString.eq_def]
    simp
  | cons c t ih =>
    simp only [escapeChars, List.append_assoc]
    rw [parseString_escapeChar, ih]
    rfl

/-- A decimal digit character is read back as the digit it renders. -/
theorem digitVal_digitChar (m : Nat) (hm : m < 10) : digitVal 10 (Nat.digitChar m) = some m := by
  interval_cases m <;> decide

/-- The decimal rendering of `n`, put in front of `ds`, has at least one digit, at most as
many as `n` allows, and is read back as `n`. -/
theorem toDigitsCore_read (fuel : Nat) : ∀ (n : Nat) (ds : List Char), n < fuel →
    ∃ L : Nat, (Nat.toDigitsCore 10 fuel n ds).length = ds.length + L + 1 ∧
      (0 < n → 10 ^ L ≤ n) ∧
      ∀ (rest : List Char) (k : Nat),
        readDigits 10 (Nat.toDigitsCore 10 fuel n ds ++ rest) 0 k =
          readDigits 10 (ds ++ rest) n (k + L + 1) := by
  induction fuel with
  | zero => intro n ds h; omega
  | succ f ih =>
    intro n ds hn
    have hd := digitVal_digitChar (n % 10) (Nat.mod_lt _ (by decide))
    simp only [Nat.toDigitsCore]
    split
    · next h0 =>
      have hlt : n < 10 := by omega
      refine ⟨0, by simp, fun _ => by omega, ?_⟩
      intro rest k
      have hmod : n % 10 = n := Nat.mod_eq_of_lt hlt
      rw [hmod] at hd
      simp only [hmod, List.cons_append, readDigits, hd, Nat.zero_mul, Nat.zero_add,
        Nat.add_zero, List.append_eq]
    · next h0 =>
      have hlt : n / 10 < f := by omega
      obtain ⟨L, hlen, hpow, hread⟩ := ih (n / 10) (Nat.digitChar (n % 10) :: ds) hlt
      refine ⟨L + 1, ?_, ?_, ?_⟩
      · rw [hlen]; simp only [List.length_cons]; omega
      · intro _
        have := hpow (by omega)
        rw [pow_succ]
        omega
      · intro rest k
        rw [hread]
        simp only [List.cons_append, readDigits, hd, List.append_eq]
        have : n / 10 * 10 + n % 10 = n := by omega
        rw [this]
        rfl

/-- Every character of a decimal rendering is the character of a digit. -/
theorem toDigitsCore_digitChar (fuel : Nat) : ∀ (n : Nat) (ds : List Char),
    (∀ c ∈ ds, ∃ m, m < 10 ∧ c = Nat.digitChar m) →
    ∀ c ∈ Nat.toDigitsCore 10 fuel n ds, ∃ m, m < 10 ∧ c = Nat.digitChar m := by
  induction fuel with
  | zero => intro n ds h; simpa [Nat.toDigitsCore] using h
  | succ k ih =>
    intro n ds h
    have hcons : ∀ c ∈ Nat.digitChar (n % 10) :: ds, ∃ m, m < 10 ∧ c = Nat.digitChar m := by
      intro c hc
      rcases List.mem_cons.mp hc with rfl | hc
      · exact ⟨n % 10, Nat.mod_lt _ (by decide), rfl⟩
      · exact h c hc
    simp only [Nat.toDigitsCore]
    split
    · exact hcons
    · exact ih _ _ hcons

/-- The decimal rendering of `n` is not empty, has no more digits than `n` allows, consists
of digit characters and is read back as `n`. -/
theorem toDigits_read (n : Nat) :
    ∃ L : Nat, (Nat.toDigits 10 n).length = L + 1 ∧ (0 < n → 10 ^ L ≤ n) ∧
      (∀ c ∈ Nat.toDigits 10 n, ∃ m, m < 10 ∧ c = Nat.digitChar m) ∧
      readDigits 10 (Nat.toDigits 10 n) 0 0 = (n, L + 1, []) := by
  obtain ⟨L, hlen, hpow, hread⟩ := toDigitsCore_read (n + 1) n [] (Nat.lt_succ_self n)
  refine ⟨L, by simpa [Nat.toDigits] using hlen, hpow,
    toDigitsCore_digitChar _ _ _ (by intro c hc; cases hc), ?_⟩
  have := hread [] 0
  simpa [Nat.toDigits, readDigits] using this

/-- The decimal rendering of `n`, put in front of `ds`, has as many digits as `n` needs. -/
theorem toDigitsCore_lt (fuel : Nat) : ∀ (n : Nat) (ds : List Char), n < fuel →
    ∃ L : Nat, (Nat.toDigitsCore 10 fuel n ds).length = ds.length + L + 1 ∧ n < 10 ^ (L + 1) := by
  induction fuel with
  | zero => intro n ds h; omega
  | succ f ih =>
    intro n ds hn
    simp only [Nat.toDigitsCore]
    split
    · next h0 =>
      exact ⟨0, by simp, by omega⟩
    · next h0 =>
      have hlt : n / 10 < f := by omega
      obtain ⟨L, hlen, hpow⟩ := ih (n / 10) (Nat.digitChar (n % 10) :: ds) hlt
      refine ⟨L + 1, ?_, ?_⟩
      · rw [hlen]; simp only [List.length_cons]; omega
      · rw [pow_succ]
        omega

/-- A number is below the power of ten of the length of its decimal rendering. -/
theorem toDigits_lt (n : Nat) : n < 10 ^ (Nat.toDigits 10 n).length := by
  obtain ⟨L, hlen, hpow⟩ := toDigitsCore_lt (n + 1) n [] (Nat.lt_succ_self n)
  have h : (Nat.toDigits 10 n).length = L + 1 := by simpa [Nat.toDigits] using hlen
  rw [h]
  exact hpow

/-- Reading a list of digits in front of a text continues the number read so far. -/
theorem readDigits_append (ds : List Char)
    (hall : ∀ c ∈ ds, ∃ m, m < 10 ∧ c = Nat.digitChar m) :
    ∀ (rest : List Char) (acc k : Nat),
      readDigits 10 (ds ++ rest) acc k =
        readDigits 10 rest (acc * 10 ^ ds.length + digitsValue ds) (k + ds.length) := by
  induction ds with
  | nil =>
    intro rest acc k
    simp [digitsValue, readDigits]
  | cons c cs ih =>
    intro rest acc k
    obtain ⟨m, hm, rfl⟩ := hall _ (List.mem_cons_self _ _)
    have hcs : ∀ c ∈ cs, ∃ m, m < 10 ∧ c = Nat.digitChar m :=
      fun c hc => hall c (List.mem_cons_of_mem _ hc)
    have hd := digitVal_digitChar m hm
    have hv : digitsValue (Nat.digitChar m :: cs) = m * 10 ^ cs.length + digitsValue cs := by
      have h := ih hcs [] m 1
      simp only [List.append_nil] at h
      simp only [digitsValue, readDigits, hd, Nat.zero_mul, Nat.zero_add, Nat.add_zero] at h ⊢
      rw [h]
    simp only [List.cons_append, readDigits, hd, List.append_eq]
    rw [ih hcs rest (acc * 10 + m) (k + 1), hv]
    simp only [List.length_cons]
    congr 1
    · ring
    · omega

/-- The number a list of digits writes, after reading all of it. -/
theorem readDigits_all (ds : List Char)
    (hall : ∀ c ∈ ds, ∃ m, m < 10 ∧ c = Nat.digitChar m) :
    readDigits 10 ds 0 0 = (digitsValue ds, ds.length, []) := by
  have h := readDigits_append ds hall [] 0 0
  simpa [readDigits] using h

/-- A run of zeros writes the number zero. -/
theorem digitsValue_zeros (z : Nat) : digitsValue (List.replicate z '0') = 0 := by
  induction z with
  | zero => rfl
  | succ z ih =>
    have hall : ∀ c ∈ List.replicate z '0', ∃ m, m < 10 ∧ c = Nat.digitChar m := by
      intro c hc
      rw [List.mem_replicate] at hc
      exact ⟨0, by decide, hc.2⟩
    have h := readDigits_append (List.replicate z '0') hall [] 0 1
    simp only [List.append_nil, Nat.zero_mul, Nat.zero_add, ih] at h
    simp only [digitsValue, List.replicate_succ, readDigits]
    have hd : digitVal 10 '0' = some 0 := by decide
    simp only [hd, Nat.zero_mul, Nat.zero_add]
    rw [h]
    simp [readDigits]

/-- Zeros after a list of digits multiply the number it writes by a power of ten. -/
theorem digitsValue_append_zeros (ds : List Char)
    (hall : ∀ c ∈ ds, ∃ m, m < 10 ∧ c = Nat.digitChar m) (z : Nat) :
    digitsValue (ds ++ List.replicate z '0') = digitsValue ds * 10 ^ z := by
  have hz : ∀ c ∈ List.replicate z '0', ∃ m, m < 10 ∧ c = Nat.digitChar m := by
    intro c hc
    rw [List.mem_replicate] at hc
    exact ⟨0, by decide, hc.2⟩
  have h1 := readDigits_append ds hall (List.replicate z '0') 0 0
  have h2 := readDigits_append (List.replicate z '0') hz [] (digitsValue ds) ds.length
  simp only [List.append_nil, Nat.zero_mul, Nat.zero_add] at h1 h2
  simp only [digitsValue] at h1 h2 ⊢
  rw [h1, h2]
  have := digitsValue_zeros z
  simp only [digitsValue] at this
  simp [readDigits, this]

/-- A text of decimal digits is read by `parseInt` as the binary64 value nearest to the
number the digits write. -/
theorem parseInt_digits (ds : List Char) (v k : Nat)
    (hall : ∀ c ∈ ds, ∃ m, m < 10 ∧ c = Nat.digitChar m)
    (hread : readDigits 10 ds 0 0 = (v, k + 1, [])) :
    parseInt (String.mk ds) = (toBinary64 (.fin (v : Int) 0)).toInt? := by
  cases ds with
  | nil => simp [readDigits] at hread
  | cons d tl =>
    obtain ⟨m, hm, rfl⟩ := hall d (List.mem_cons_self _ _)
    have hwhite : isJSWhite (Nat.digitChar m) = false := by
      interval_cases m <;> decide
    have hsign : readSign (Nat.digitChar m :: tl) = (false, Nat.digitChar m :: tl) := by
      interval_cases m <;> rfl
    have hprefix : (match Nat.digitChar m :: tl with
        | '0' :: 'x' :: rest => ((16 : Nat), rest)
        | '0' :: 'X' :: rest => (16, rest)
        | _ => (10, Nat.digitChar m :: tl)) = (10, Nat.digitChar m :: tl) := by
      cases tl with
      | nil => interval_cases m <;> rfl
      | cons e tl2 =>
        obtain ⟨j, hj, rfl⟩ := hall e (by simp)
        interval_cases m <;> interval_cases j <;> rfl
    have hcs : List.dropWhile isJSWhite (String.mk (Nat.digitChar m :: tl)).toList
        = Nat.digitChar m :: tl := by
      show List.dropWhile isJSWhite (Nat.digitChar m :: tl) = _
      simp [List.dropWhile_cons, hwhite]
    simp only [parseInt, hcs, hsign, hprefix, hread]
    simp

/-- A number with the value of an integer holds that integer. -/
theorem toInt?_of_sameValue (y : JSNum) (n : Int) (h : y.sameValue (.fin n 0) = true) :
    y.toInt? = some n := by
  cases y with
  | nan => simp [JSNum.sameValue] at h
  | inf b => simp [JSNum.sameValue] at h
  | fin m e =>
    simp only [JSNum.sameValue, beq_iff_eq, pow_zero, mul_one] at h
    simp only [JSNum.toInt?, h]
    congr 1
    exact Int.mul_ediv_cancel n (by positivity)

/-- Stripping the zeros at the end of a digit list and putting them back is the identity. -/
theorem stripZeros_append (xs : List Char) :
    (stripZeros xs).1 ++ List.replicate (stripZeros xs).2 '0' = xs ∧
    (stripZeros xs).1.length + (stripZeros xs).2 = xs.length := by
  have hsplit := List.takeWhile_append_dropWhile (· == '0') xs.reverse
  have hrep : xs.reverse.takeWhile (· == '0') =
      List.replicate (xs.reverse.takeWhile (· == '0')).length '0' := by
    rw [List.eq_replicate_iff]
    refine ⟨rfl, ?_⟩
    intro b hb
    have := List.mem_takeWhile_imp hb
    simpa using this
  have hr : (xs.reverse.takeWhile (· == '0')).reverse =
      List.replicate (xs.reverse.takeWhile (· == '0')).length '0' := by
    have h2 := congrArg List.reverse hrep
    rw [List.reverse_replicate] at h2
    exact h2
  have hxs : xs = (xs.reverse.dropWhile (· == '0')).reverse ++
      List.replicate (xs.reverse.takeWhile (· == '0')).length '0' := by
    have h := congrArg List.reverse hsplit
    rw [List.reverse_append, List.reverse_reverse, hr] at h
    exact h.symm
  simp only [stripZeros]
  clear hsplit hrep hr
  generalize (xs.reverse.takeWhile (· == '0')).length = z at hxs ⊢
  generalize (xs.reverse.dropWhile (· == '0')).reverse = A at hxs
  subst hxs
  have h1 : (A ++ List.replicate z '0').length - z = A.length := by simp
  rw [h1, List.take_left']
  · exact ⟨rfl, by simp⟩
  · rfl

/-- The parser reads the rendering of a string as that string. -/
theorem parseJ_value_str (f : Nat) (cs rest : List Char) :
    parseJ (f + 1) .value ('"' :: (escapeChars cs ++ '"' :: rest)) =
      some (.str (String.mk cs), rest) := by
  have h : parseJ (f + 1) .value ('"' :: (escapeChars cs ++ '"' :: rest)) =
      (parseString (escapeChars cs ++ '"' :: rest)).map
        (fun p => (Json.str (String.mk p.1), p.2)) := rfl
  rw [h, parseString_escapeChars]
  rfl

/-- The parser reads a member with a string value that is followed by a comma, and goes on
with the members after it. -/
theorem parseJ_member (f : Nat) (acc : List (String × Json)) (key cs rest : List Char) :
    parseJ (f + 2) (.membs acc)
        ('"' :: (escapeChars key ++ '"' :: ':' :: '"' :: (escapeChars cs ++ '"' :: ',' :: rest))) =
      parseJ (f + 1) (.membs (acc ++ [(String.mk key, .str (String.mk cs))])) rest := by
  have h : parseJ (f + 2) (.membs acc)
        ('"' :: (escapeChars key ++ '"' :: ':' :: '"' :: (escapeChars cs ++ '"' :: ',' :: rest))) =
      (match parseString (escapeChars key ++ '"' :: ':' :: '"' ::
          (escapeChars cs ++ '"' :: ',' :: rest)) with
      | none => none
      | some (k, r1) =>
        match skipWs r1 with
        | ':' :: r2 =>
          match parseJ (f + 1) .value r2 with
          | none => none
          | some (v, r3) =>
            match skipWs r3 with
            | ',' :: r4 => parseJ (f + 1) (.membs (acc ++ [(String.mk k, v)])) r4
            | '}' :: r4 => some (.obj (acc ++ [(String.mk k, v)]), r4)
            | _ => none
        | _ => none) := rfl
  rw [h, parseString_escapeChars]
  have h2 : skipWs (':' :: '"' :: (escapeChars cs ++ '"' :: ',' :: rest)) =
      ':' :: '"' :: (escapeChars cs ++ '"' :: ',' :: rest) := rfl
  simp only [h2, parseJ_value_str]
  rfl

/-- The parser reads the last member of an object, with a string value. -/
theorem parseJ_last_member (f : Nat) (acc : List (String × Json)) (key cs rest : List Char) :
    parseJ (f + 2) (.membs acc)
        ('"' :: (escapeChars key ++ '"' :: ':' :: '"' :: (escapeChars cs ++ '"' :: '}' :: rest))) =
      some (.obj (acc ++ [(String.mk key, .str (String.mk cs))]), rest) := by
  have h : parseJ (f + 2) (.membs acc)
        ('"' :: (escapeChars key ++ '"' :: ':' :: '"' :: (escapeChars cs ++ '"' :: '}' :: rest))) =
      (match parseString (escapeChars key ++ '"' :: ':' :: '"' ::
          (escapeChars cs ++ '"' :: '}' :: rest)) with
      | none => none
      | some (k, r1) =>
        match skipWs r1 with
        | ':' :: r2 =>
          match parseJ (f + 1) .value r2 with
          | none => none
          | some (v, r3) =>
            match skipWs r3 with
            | ',' :: r4 => parseJ (f + 1) (.membs (acc ++ [(String.mk k, v)])) r4
            | '}' :: r4 => some (.obj (acc ++ [(String.mk k, v)]), r4)
            | _ => none
        | _ => none) := rfl
  rw [h, parseString_escapeChars]
  have h2 : skipWs (':' :: '"' :: (escapeChars cs ++ '"' :: '}' :: rest)) =
      ':' :: '"' :: (escapeChars cs ++ '"' :: '}' :: rest) := rfl
  simp only [h2, parseJ_value_str]
  rfl

/-- The text order creation writes is never empty. -/
theorem stringifyCustomId_ne_empty (c : CustomId) : stringifyCustomId c ≠ "" := by
  intro h
  have := congrArg String.data h
  simp [stringifyCustomId] at this

/-- A candidate that is chosen is one of the two decimals around the value and is read back
as the value. -/
theorem candidate_some (a e sd L : Nat) (p : Int) (k : Nat) (c : List Char × Int)
    (h : candidate a e sd L p k = some c) :
    (c = normalForm (sd / 10 ^ (L - k)) k p ∨ c = normalForm (sd / 10 ^ (L - k) + 1) k p) ∧
      readsAs a e c = true := by
  unfold candidate at h
  simp only [] at h
  split at h
  · next hb =>
    simp only [Bool.and_eq_true] at hb
    simp only [Option.some.injEq] at h
    split at h
    · subst h; exact ⟨Or.inl rfl, hb.1⟩
    · split at h
      · subst h; exact ⟨Or.inr rfl, hb.2⟩
      · split at h
        · subst h; exact ⟨Or.inl rfl, hb.1⟩
        · subst h; exact ⟨Or.inr rfl, hb.2⟩
  · split at h
    · next hl =>
      simp only [Option.some.injEq] at h
      subst h; exact ⟨Or.inl rfl, hl⟩
    · split at h
      · next hh =>
        simp only [Option.some.injEq] at h
        subst h; exact ⟨Or.inr rfl, hh⟩
      · simp at h

/-- The digits written for a value are its own digits, or a candidate with fewer digits
that is read back as the value. -/
theorem shortestDigits_cases (a e : Nat) :
    shortestDigits a e =
        ((stripZeros (Nat.toDigits 10 a)).1,
          ((stripZeros (Nat.toDigits 10 a)).1.length : Int) +
            (stripZeros (Nat.toDigits 10 a)).2 - e) ∨
    ∃ k s, 1 ≤ k ∧ k ≤ (stripZeros (Nat.toDigits 10 a)).1.length ∧
      (s = a / 10 ^ (stripZeros (Nat.toDigits 10 a)).2 /
            10 ^ ((stripZeros (Nat.toDigits 10 a)).1.length - k) ∨
        s = a / 10 ^ (stripZeros (Nat.toDigits 10 a)).2 /
            10 ^ ((stripZeros (Nat.toDigits 10 a)).1.length - k) + 1) ∧
      shortestDigits a e = normalForm s k
        (((stripZeros (Nat.toDigits 10 a)).1.length : Int) +
          (stripZeros (Nat.toDigits 10 a)).2 - e) ∧
      readsAs a e (shortestDigits a e) = true := by
  unfold shortestDigits
  cases hs : stripZeros (Nat.toDigits 10 a) with
  | mk ds t =>
    simp only []
    cases hf : (List.range ds.length).findSome?
        (fun i => candidate a e (a / 10 ^ t) ds.length ((ds.length : Int) + t - e) (i + 1)) with
    | none => left; rfl
    | some c =>
      right
      obtain ⟨i, hi, hc⟩ := List.exists_of_findSome?_eq_some hf
      rw [List.mem_range] at hi
      obtain ⟨hor, hr⟩ := candidate_some _ _ _ _ _ _ _ hc
      refine ⟨i + 1, ?_⟩
      rcases hor with h | h
      · exact ⟨_, by omega, by omega, Or.inl rfl, h, hr⟩
      · exact ⟨_, by omega, by omega, Or.inr rfl, h, hr⟩

/-- The digits of a zero run are digits. -/
theorem zeros_digitChar (z : Nat) :
    ∀ c ∈ List.replicate z '0', ∃ m, m < 10 ∧ c = Nat.digitChar m := by
  intro c hc
  rw [List.mem_replicate] at hc
  exact ⟨0, by decide, hc.2⟩

/-- Digits written with an exponent between their number and 21 are written as an integer,
which `parseInt` reads as the binary64 value nearest to it. -/
theorem parseInt_formatDigits (ds : List Char) (x : Int)
    (hall : ∀ c ∈ ds, ∃ m, m < 10 ∧ c = Nat.digitChar m)
    (hlen : (ds.length : Int) ≤ x) (h1 : 1 ≤ x) (h21 : x ≤ 21) :
    parseInt (formatDigits ds x) =
      (toBinary64 (.fin ((digitsValue ds * 10 ^ (x - ds.length).toNat : Nat) : Int) 0)).toInt? := by
  have hcond : (ds.length : Int) ≤ x ∧ x ≤ 21 := ⟨hlen, h21⟩
  simp only [formatDigits, hcond, and_self, if_true]
  have hall2 : ∀ c ∈ ds ++ List.replicate (x - ds.length).toNat '0',
      ∃ m, m < 10 ∧ c = Nat.digitChar m := by
    intro c hc
    rcases List.mem_append.mp hc with h | h
    · exact hall c h
    · exact zeros_digitChar _ c h
  have hread := readDigits_all _ hall2
  rw [digitsValue_append_zeros ds hall] at hread
  obtain ⟨j, hj⟩ : ∃ j, (ds ++ List.replicate (x - ds.length).toNat '0').length = j + 1 := by
    refine ⟨(ds ++ List.replicate (x - ds.length).toNat '0').length - 1, ?_⟩
    simp only [List.length_append, List.length_replicate]
    omega
  rw [hj] at hread
  exact parseInt_digits _ _ j hall2 hread

/-- The digits left after the zeros at the end are dropped are digits of the list. -/
theorem stripZeros_digitChar (xs : List Char)
    (hall : ∀ c ∈ xs, ∃ m, m < 10 ∧ c = Nat.digitChar m) :
    ∀ c ∈ (stripZeros xs).1, ∃ m, m < 10 ∧ c = Nat.digitChar m := by
  intro c hc
  apply hall
  have h := (stripZeros_append xs).1
  rw [← h]
  exact List.mem_append_left _ hc

/-- The digits of a number without the zeros at the end, times the power of ten of those
zeros, write the number. -/
theorem digitsValue_stripZeros (s : Nat) :
    digitsValue (stripZeros (Nat.toDigits 10 s)).1 * 10 ^ (stripZeros (Nat.toDigits 10 s)).2 = s := by
  obtain ⟨L, -, -, hall, hread⟩ := toDigits_read s
  have h := digitsValue_append_zeros _ (stripZeros_digitChar _ hall)
    (stripZeros (Nat.toDigits 10 s)).2
  rw [(stripZeros_append (Nat.toDigits 10 s)).1] at h
  rw [← h]
  simp [digitsValue, hread]

/-- The text written for a positive integer below 10^21 that is a binary64 value is read by
`parseInt` as that integer. -/
theorem parseInt_numToString (n : Nat) (h0 : 0 < n) (h21 : n < 10 ^ 21)
    (hd : toBinary64 (.fin (n : Int) 0) = .fin (n : Int) 0) :
    parseInt (numToString (.fin (n : Int) 0)) = some (n : Int) := by
  have hne : ((n : Int) == 0) = false := by
    simp only [beq_eq_false_iff_ne, ne_eq, Int.natCast_eq_zero]; omega
  have hpos : ¬ ((n : Int) < 0) := by omega
  simp only [numToString, hd, hne, Bool.false_eq_true, if_false, hpos, Int.natAbs_ofNat,
    positiveToString]
  obtain ⟨Ln, hlenn, hpown, halln, hreadn⟩ := toDigits_read n
  have hltn := toDigits_lt n
  obtain ⟨happ, hsum⟩ := stripZeros_append (Nat.toDigits 10 n)
  have hD : (Nat.toDigits 10 n).length ≤ 21 := by
    by_contra hcon
    have h1 : 10 ^ 21 ≤ 10 ^ Ln := Nat.pow_le_pow_right (by decide) (by omega)
    have := hpown h0
    omega
  have hall0 := stripZeros_digitChar _ halln
  generalize hds0 : (stripZeros (Nat.toDigits 10 n)).1 = ds0 at *
  generalize ht : (stripZeros (Nat.toDigits 10 n)).2 = t at *
  rcases shortestDigits_cases n 0 with hc | ⟨k, s, hk1, hkL, hs, hc, hr⟩
  · simp only [hds0, ht] at hc
    rw [hc]
    have hx : ((ds0.length : Int) + (t : Int) - ((0 : Nat) : Int) - (ds0.length : Int)).toNat = t := by
      omega
    rw [parseInt_formatDigits ds0 _ hall0 (by omega) (by omega) (by omega), hx]
    have hv : digitsValue ds0 * 10 ^ t = n := by
      have := digitsValue_stripZeros n
      rw [hds0, ht] at this
      exact this
    rw [hv, hd]
    simp [JSNum.toInt?]
  · simp only [hds0, ht] at hc hs hkL
    rw [hc] at hr ⊢
    obtain ⟨Ls, hlens, hpows, halls, hreads⟩ := toDigits_read s
    obtain ⟨happs, hsums⟩ := stripZeros_append (Nat.toDigits 10 s)
    have hvs := digitsValue_stripZeros s
    have halls' := stripZeros_digitChar _ halls
    have hsd : n / 10 ^ t < 10 ^ ds0.length := by
      apply (Nat.div_lt_iff_lt_mul (by positivity)).2
      rw [← pow_add, hsum]
      exact hltn
    have hlo : n / 10 ^ t / 10 ^ (ds0.length - k) < 10 ^ k := by
      apply (Nat.div_lt_iff_lt_mul (by positivity)).2
      rw [← pow_add]
      have : k + (ds0.length - k) = ds0.length := by omega
      rw [this]
      exact hsd
    have hsle : s ≤ 10 ^ k := by
      rcases hs with h | h <;> omega
    have hLs : Ls ≤ k := by
      by_contra hcon
      by_cases hs0 : 0 < s
      · have h1 := hpows hs0
        have h2 : 10 ^ (k + 1) ≤ 10 ^ Ls := Nat.pow_le_pow_right (by decide) (by omega)
        have h3 : 10 ^ (k + 1) = 10 ^ k * 10 := pow_succ _ _
        have h4 : 0 < 10 ^ k := by positivity
        omega
      · have hs0' : s = 0 := by omega
        rw [hs0'] at hlens
        have : (Nat.toDigits 10 0).length = 1 := by decide
        omega
    simp only [normalForm] at hr ⊢
    generalize hds' : (stripZeros (Nat.toDigits 10 s)).1 = ds' at *
    generalize hz : (stripZeros (Nat.toDigits 10 s)).2 = z at *
    have hxlen : (ds'.length : Int) ≤
        (ds0.length : Int) + (t : Int) - ((0 : Nat) : Int) + ((Nat.toDigits 10 s).length : Int) - k := by
      omega
    have hx1 : (1 : Int) ≤
        (ds0.length : Int) + (t : Int) - ((0 : Nat) : Int) + ((Nat.toDigits 10 s).length : Int) - k := by
      omega
    have hscale : scaleDecimal ((digitsValue ds' : Nat) : Int) ds'.length
        ((ds0.length : Int) + (t : Int) - ((0 : Nat) : Int) +
          ((Nat.toDigits 10 s).length : Int) - k) =
        .fin ((digitsValue ds' * 10 ^ ((ds0.length : Int) + (t : Int) - ((0 : Nat) : Int) +
          ((Nat.toDigits 10 s).length : Int) - k - ds'.length).toNat : Nat) : Int) 0 := by
      unfold scaleDecimal
      simp only []
      split
      · next hd0 =>
        have h0' : ((ds0.length : Int) + (t : Int) - ((0 : Nat) : Int) +
          ((Nat.toDigits 10 s).length : Int) - k - ds'.length).toNat = 0 := by omega
        have h1' : ((ds'.length : Int) - ((ds0.length : Int) + (t : Int) - ((0 : Nat) : Int) +
          ((Nat.toDigits 10 s).length : Int) - k)).toNat = 0 := by omega
        rw [h0', h1']
        simp
      · next hd0 =>
        have h0' : (-((ds'.length : Int) - ((ds0.length : Int) + (t : Int) - ((0 : Nat) : Int) +
          ((Nat.toDigits 10 s).length : Int) - k))).toNat =
            ((ds0.length : Int) + (t : Int) - ((0 : Nat) : Int) +
          ((Nat.toDigits 10 s).length : Int) - k - ds'.length).toNat := by omega
        rw [h0']
        push_cast
        rfl
    simp only [readsAs] at hr
    rw [hscale] at hr
    by_cases hx21 : (ds0.length : Int) + (t : Int) - ((0 : Nat) : Int) +
        ((Nat.toDigits 10 s).length : Int) - k ≤ 21
    · rw [parseInt_formatDigits ds' _ halls' hxlen hx1 hx21]
      exact toInt?_of_sameValue _ _ hr
    · exfalso
      have hk21 : k ≤ 21 := by omega
      have hsk : s = 10 ^ k := by
        have hs0 : 0 < s := by
          by_contra hcon
          have hs0' : s = 0 := by omega
          have hone : (Nat.toDigits 10 s).length = 1 := by rw [hs0']; decide
          omega
        have h1 := hpows hs0
        have hLk : Ls = k := by omega
        rw [hLk] at h1
        omega
      have hexp : ((ds0.length : Int) + (t : Int) - ((0 : Nat) : Int) +
          ((Nat.toDigits 10 s).length : Int) - k - ds'.length).toNat = z + (21 - k) := by
        omega
      rw [hexp] at hr
      have hV : digitsValue ds' * 10 ^ (z + (21 - k)) = 1000000000000000000000 := by
        rw [pow_add, ← Nat.mul_assoc, hvs, hsk, ← pow_add]
        have : k + (21 - k) = 21 := by omega
        rw [this]
        norm_num
      rw [hV] at hr
      have hexact : toBinary64 (.fin ((1000000000000000000000 : Nat) : Int) 0) =
          .fin ((1000000000000000000000 : Nat) : Int) 0 := by decide
      rw [hexact] at hr
      simp only [JSNum.sameValue, beq_iff_eq, pow_zero, mul_one] at hr
      have : (1000000000000000000000 : Nat) = n := by exact_mod_cast hr
      have h21' : n < 1000000000000000000000 := by
        have : (10 : Nat) ^ 21 = 1000000000000000000000 := by norm_num
        omega
      omega

/-- The parser reads a member whose value text is read as `v` and is followed by a comma,
and goes on with the members after it. -/
theorem parseJ_member_value (f : Nat) (acc : List (String × Json)) (key vtext rest : List Char)
    (v : Json)
    (hv : parseJ (f + 1) .value (vtext ++ ',' :: rest) = some (v, ',' :: rest)) :
    parseJ (f + 2) (.membs acc)
        ('"' :: (escapeChars key ++ '"' :: ':' :: (vtext ++ ',' :: rest))) =
      parseJ (f + 1) (.membs (acc ++ [(String.mk key, v)])) rest := by
  have h : parseJ (f + 2) (.membs acc)
        ('"' :: (escapeChars key ++ '"' :: ':' :: (vtext ++ ',' :: rest))) =
      (match parseString (escapeChars key ++ '"' :: ':' :: (vtext ++ ',' :: rest)) with
      | none => none
      | some (k, r1) =>
        match skipWs r1 with
        | ':' :: r2 =>
          match parseJ (f + 1) .value r2 with
          | none => none
          | some (v, r3) =>
            match skipWs r3 with
            | ',' :: r4 => parseJ (f + 1) (.membs (acc ++ [(String.mk k, v)])) r4
            | '}' :: r4 => some (.obj (acc ++ [(String.mk k, v)]), r4)
            | _ => none
        | _ => none) := rfl
  rw [h, parseString_escapeChars]
  have h2 : skipWs (':' :: (vtext ++ ',' :: rest)) = ':' :: (vtext ++ ',' :: rest) := rfl
  simp only [h2, hv]
  rfl

/-- The text order creation writes, for ids whose texts are read back as `ju` and `je`, is
parsed back as the object with those ids and the quantity text. -/
theorem jsonParse_customId (c : CustomId) (tu te : List Char) (ju je : Json)
    (hu : stringifyVal c.userId = some tu) (he : stringifyVal c.eventId = some te)
    (hpu : ∀ f rest, parseJ (f + 1) .value (tu ++ ',' :: rest) = some (ju, ',' :: rest))
    (hpe : ∀ f rest, parseJ (f + 1) .value (te ++ ',' :: rest) = some (je, ',' :: rest)) :
    jsonParse (stringifyCustomId c) =
      some (.obj [("userId", ju), ("eventId", je), ("quantity", .str c.quantity)]) := by
  have htext : (stringifyCustomId c).data
      = '{' :: '"' :: (escapeChars "userId".data ++ '"' :: ':' :: (tu ++ ',' :: '"' ::
          (escapeChars "eventId".data ++ '"' :: ':' :: (te ++ ',' :: '"' ::
          (escapeChars "quantity".data ++ '"' :: ':' :: '"' ::
          (escapeChars c.quantity.data ++ '"' :: '}' :: [])))))) := by
    simp [stringifyCustomId, hu, he, stringifyMember, quoteJSON, String.toList]
  have hlen : 2 ≤ (stringifyCustomId c).length := by
    show 2 ≤ (stringifyCustomId c).data.length
    rw [htext]
    simp only [List.length_cons]
    omega
  obtain ⟨f, hf⟩ : ∃ f, 2 * (stringifyCustomId c).length + 2 = f + 5 :=
    ⟨2 * (stringifyCustomId c).length + 2 - 5, by omega⟩
  have hstart : ∀ xs : List Char, parseJ (f + 5) .value ('{' :: '"' :: xs) =
      parseJ (f + 4) (.membs []) ('"' :: xs) := fun _ => rfl
  have hparse : parseJ (f + 5) .value (stringifyCustomId c).data =
      some (.obj [("userId", ju), ("eventId", je), ("quantity", .str c.quantity)], []) := by
    rw [htext, hstart, parseJ_member_value (f + 2) _ _ _ _ ju (hpu _ _),
      parseJ_member_value (f + 1) _ _ _ _ je (hpe _ _), parseJ_last_member f]
    rfl
  simp only [jsonParse, hf]
  show (match parseJ (f + 5) .value (stringifyCustomId c).data with
    | some (v, rest) => if skipWs rest = [] then some v else none
    | none => none) = _
  rw [hparse]
  rfl

/-- The text of a string is read back as the string. -/
theorem parseJ_quoteJSON (s : String) (f : Nat) (rest : List Char) :
    parseJ (f + 1) .value (quoteJSON s ++ rest) = some (.str s, rest) := by
  have h : quoteJSON s ++ rest = '"' :: (escapeChars s.data ++ '"' :: rest) := by
    simp [quoteJSON, String.toList]
  rw [h, parseJ_value_str]

/-- The text of `true` is read back as `true`. -/
theorem parseJ_true (f : Nat) (rest : List Char) :
    parseJ (f + 1) .value ("true".toList ++ rest) = some (.bool true, rest) := rfl

/-- A JSON number is read from its three parts, with or without a minus sign in front. -/
theorem parseNumber_parts (c : Char) (tl : List Char) (a b kb : Nat) (x : Int)
    (r1 r2 r3 : List Char) (hc : c ≠ '-')
    (h1 : jsonInt (c :: tl) = some (a, r1)) (h2 : jsonFrac a r1 = some (b, kb, r2))
    (h3 : jsonExp r2 = some (x, r3)) :
    parseNumber (c :: tl) = some (toBinary64 (scaleDecimal (b : Int) kb x), r3) ∧
    parseNumber ('-' :: c :: tl) = some (toBinary64 (scaleDecimal (-(b : Int)) kb x), r3) := by
  constructor
  · have hneg : (match c :: tl with
        | '-' :: _ => true
        | _ => false) = false := by
      split
      · next h => simp at h; exact absurd h.1 hc
      · rfl
    have hcs : (match c :: tl with
        | '-' :: r => r
        | _ => c :: tl) = c :: tl := by
      split
      · next h => simp at h; exact absurd h.1 hc
      · rfl
    simp only [parseNumber, hneg, hcs, h1, h2, h3]
    rfl
  · simp only [parseNumber, h1, h2, h3]
    rfl

/-- The characters that end a run of digits in a number text. -/
theorem digitVal_stops : digitVal 10 ',' = none ∧ digitVal 10 '.' = none ∧
    digitVal 10 'e' = none := by decide

/-- A run of digits in front of a character that is no digit is read up to that
character. -/
theorem readDigits_stop (ds : List Char)
    (hall : ∀ c ∈ ds, ∃ m, m < 10 ∧ c = Nat.digitChar m) (c : Char) (rest : List Char)
    (hc : digitVal 10 c = none) (acc k : Nat) :
    readDigits 10 (ds ++ c :: rest) acc k =
      (acc * 10 ^ ds.length + digitsValue ds, k + ds.length, c :: rest) := by
  rw [readDigits_append ds hall]
  simp [readDigits, hc]

/-- The integer part of a number text that starts with a digit other than 0. -/
theorem jsonInt_digits (m : Nat) (tl : List Char) (hm1 : 1 ≤ m) (hm9 : m < 10)
    (hall : ∀ c ∈ Nat.digitChar m :: tl, ∃ j, j < 10 ∧ c = Nat.digitChar j)
    (c : Char) (rest : List Char) (hc : digitVal 10 c = none) :
    jsonInt (Nat.digitChar m :: tl ++ c :: rest) =
      some (digitsValue (Nat.digitChar m :: tl), c :: rest) := by
  have hread := readDigits_stop (Nat.digitChar m :: tl) hall c rest hc 0 0
  simp only [Nat.zero_mul, Nat.zero_add, List.length_cons] at hread
  have hun : ∀ cs : List Char, jsonInt (Nat.digitChar m :: cs) =
      if (readDigits 10 (Nat.digitChar m :: cs) 0 0).2.1 == 0 then none
      else some ((readDigits 10 (Nat.digitChar m :: cs) 0 0).1,
        (readDigits 10 (Nat.digitChar m :: cs) 0 0).2.2) := by
    intro cs
    interval_cases m <;> rfl
  rw [List.cons_append, hun, ← List.cons_append, hread]
  simp

/-- The number two lists of digits write one after the other. -/
theorem digitsValue_append (xs ys : List Char)
    (hx : ∀ c ∈ xs, ∃ m, m < 10 ∧ c = Nat.digitChar m)
    (hy : ∀ c ∈ ys, ∃ m, m < 10 ∧ c = Nat.digitChar m) :
    digitsValue (xs ++ ys) = digitsValue xs * 10 ^ ys.length + digitsValue ys := by
  have h1 := readDigits_append xs hx ys 0 0
  have h2 := readDigits_append ys hy [] (digitsValue xs) xs.length
  simp only [List.append_nil, Nat.zero_mul, Nat.zero_add] at h1 h2
  simp only [digitsValue] at h1 h2 ⊢
  rw [h1, h2]
  simp [readDigits]

/-- Digits with an exponent at or above their number write an integer. -/
theorem scaleDecimal_int (v : Int) (k : Nat) (x : Int) (h : (k : Int) ≤ x) :
    scaleDecimal v k x = scaleDecimal (v * 10 ^ (x - k).toNat) 0 0 := by
  unfold scaleDecimal
  simp only []
  split
  · next hd0 =>
    have h0 : (x - (k : Int)).toNat = 0 := by omega
    have h1 : ((k : Int) - x).toNat = 0 := by omega
    rw [h0, h1]
    simp
  · next hd0 =>
    have h0 : (-((k : Int) - x)).toNat = (x - (k : Int)).toNat := by omega
    rw [h0]
    simp

/-- Moving the point one digit to the left lowers the exponent by one. -/
theorem scaleDecimal_shift (v : Int) (k : Nat) (x : Int) (hk : 1 ≤ k) :
    scaleDecimal v (k - 1) (x - 1) = scaleDecimal v k x := by
  have h : ((k - 1 : Nat) : Int) - (x - 1) = (k : Int) - x := by omega
  simp only [scaleDecimal, h]

/-- The exponent part written by `Number::toString` is read as its exponent. -/
theorem jsonExp_written (x : Int) (rest : List Char) :
    jsonExp ('e' :: (if x < 0 then '-' else '+') :: (Nat.toDigits 10 x.natAbs ++ ',' :: rest)) =
      some (x, ',' :: rest) := by
  obtain ⟨L, hlen, -, hall, -⟩ := toDigits_read x.natAbs
  have hread := readDigits_stop _ hall ',' rest digitVal_stops.1 0 0
  simp only [Nat.zero_mul, Nat.zero_add] at hread
  have hv : digitsValue (Nat.toDigits 10 x.natAbs) = x.natAbs := by
    obtain ⟨L2, -, -, -, hr⟩ := toDigits_read x.natAbs
    simp [digitsValue, hr]
  by_cases hx : x < 0
  · have hs : readSign ('-' :: (Nat.toDigits 10 x.natAbs ++ ',' :: rest)) =
        (true, Nat.toDigits 10 x.natAbs ++ ',' :: rest) := rfl
    simp only [jsonExp, hx, if_true, true_or, hs, hread, hlen, hv]
    have hval : -((x.natAbs : Nat) : Int) = x := by omega
    rw [if_neg (by simp), hval]
  · have hs : readSign ('+' :: (Nat.toDigits 10 x.natAbs ++ ',' :: rest)) =
        (false, Nat.toDigits 10 x.natAbs ++ ',' :: rest) := rfl
    simp only [jsonExp, hx, if_false, true_or, if_true, hs, hread, hlen, hv]
    have hval : ((x.natAbs : Nat) : Int) = x := by omega
    rw [if_neg (by simp)]
    simp only [Bool.false_eq_true, if_false, hval]

/-- The fraction part of a number text: a point and digits up to a character that is no
digit. -/
theorem jsonFrac_digits (a : Nat) (fs : List Char)
    (hall : ∀ c ∈ fs, ∃ m, m < 10 ∧ c = Nat.digitChar m) (hne : fs ≠ [])
    (c : Char) (rest : List Char) (hc : digitVal 10 c = none) :
    jsonFrac a ('.' :: (fs ++ c :: rest)) =
      some (a * 10 ^ fs.length + digitsValue fs, fs.length, c :: rest) := by
  have hread := readDigits_stop fs hall c rest hc a 0
  have hlen : fs.length ≠ 0 := by
    intro h
    exact hne (List.eq_nil_of_length_eq_zero h)
  simp only [jsonFrac, hread, Nat.zero_add]
  simp [hlen]

/-- The text `Number::toString` writes for digits that start with a digit other than 0 is
read by the JSON parser as the binary64 value nearest to the decimal the digits and the
exponent stand for, and with a minus sign in front as its negative. -/
theorem parseNumber_formatDigits (m : Nat) (tl : List Char) (hm1 : 1 ≤ m) (hm9 : m < 10)
    (hall : ∀ c ∈ Nat.digitChar m :: tl, ∃ j, j < 10 ∧ c = Nat.digitChar j)
    (x : Int) (rest : List Char) :
    parseNumber ((formatDigits (Nat.digitChar m :: tl) x).data ++ ',' :: rest) =
      some (toBinary64 (scaleDecimal ((digitsValue (Nat.digitChar m :: tl) : Nat) : Int)
        (Nat.digitChar m :: tl).length x), ',' :: rest) ∧
    parseNumber ('-' :: ((formatDigits (Nat.digitChar m :: tl) x).data ++ ',' :: rest)) =
      some (toBinary64 (scaleDecimal (-((digitsValue (Nat.digitChar m :: tl) : Nat) : Int))
        (Nat.digitChar m :: tl).length x), ',' :: rest) := by
  have hdash : Nat.digitChar m ≠ '-' := by interval_cases m <;> decide
  have htl : ∀ c ∈ tl, ∃ j, j < 10 ∧ c = Nat.digitChar j :=
    fun c hc => hall c (List.mem_cons_of_mem _ hc)
  have hfrac0 : ∀ (a : Nat) (r : List Char), jsonFrac a (',' :: r) = some (a, 0, ',' :: r) :=
    fun _ _ => rfl
  have hfrace : ∀ (a : Nat) (r : List Char), jsonFrac a ('e' :: r) = some (a, 0, 'e' :: r) :=
    fun _ _ => rfl
  have hexp0 : ∀ r : List Char, jsonExp (',' :: r) = some (0, ',' :: r) := fun _ => rfl
  by_cases hb1 : (((Nat.digitChar m :: tl).length : Nat) : Int) ≤ x ∧ x ≤ 21
  · -- the digits with zeros appended
    have htext : (formatDigits (Nat.digitChar m :: tl) x).data ++ ',' :: rest =
        Nat.digitChar m :: (tl ++ List.replicate (x - (Nat.digitChar m :: tl).length).toNat '0')
          ++ ',' :: rest := by
      simp only [formatDigits, hb1, and_self, if_true]
      simp
    have hall2 : ∀ c ∈ Nat.digitChar m ::
        (tl ++ List.replicate (x - (Nat.digitChar m :: tl).length).toNat '0'),
        ∃ j, j < 10 ∧ c = Nat.digitChar j := by
      intro c hc
      rcases List.mem_cons.mp hc with h | h
      · exact hall c (by rw [h]; exact List.mem_cons_self _ _)
      · rcases List.mem_append.mp h with h | h
        · exact htl c h
        · exact zeros_digitChar _ c h
    have h1 := jsonInt_digits m _ hm1 hm9 hall2 ',' rest digitVal_stops.1
    have hv : digitsValue (Nat.digitChar m ::
        (tl ++ List.replicate (x - (Nat.digitChar m :: tl).length).toNat '0')) =
        digitsValue (Nat.digitChar m :: tl) *
          10 ^ (x - (Nat.digitChar m :: tl).length).toNat := by
      rw [← List.cons_append]
      exact digitsValue_append_zeros _ hall _
    rw [hv] at h1
    rw [htext]
    have hp := parseNumber_parts (Nat.digitChar m)
      (tl ++ List.replicate (x - (Nat.digitChar m :: tl).length).toNat '0' ++ ',' :: rest)
      _ _ 0 0 _ _ _ hdash (by simpa using h1) (hfrac0 _ _) (hexp0 _)
    rw [scaleDecimal_int _ _ x hb1.1, scaleDecimal_int _ _ x hb1.1]
    constructor
    · have := hp.1
      simp only [List.cons_append, List.append_assoc] at this ⊢
      rw [this]
      push_cast
      rfl
    · have := hp.2
      simp only [List.cons_append, List.append_assoc] at this ⊢
      rw [this]
      push_cast
      simp
  · by_cases hb2 : 0 < x ∧ x ≤ 21
    · -- a point inside the digits
      have hxk : x < (((Nat.digitChar m :: tl).length : Nat) : Int) := by omega
      obtain ⟨xn, hxn⟩ : ∃ xn : Nat, x.toNat = xn + 1 := ⟨x.toNat - 1, by omega⟩
      have htext : (formatDigits (Nat.digitChar m :: tl) x).data ++ ',' :: rest =
          Nat.digitChar m :: tl.take xn ++ '.' :: (tl.drop xn ++ ',' :: rest) := by
        unfold formatDigits
        simp only []
        rw [if_neg hb1, if_pos hb2]
        simp [hxn]
      have htake : ∀ c ∈ Nat.digitChar m :: tl.take xn, ∃ j, j < 10 ∧ c = Nat.digitChar j := by
        intro c hc
        rcases List.mem_cons.mp hc with h | h
        · exact hall c (by rw [h]; exact List.mem_cons_self _ _)
        · exact htl c (List.mem_of_mem_take h)
      have hdrop : ∀ c ∈ tl.drop xn, ∃ j, j < 10 ∧ c = Nat.digitChar j :=
        fun c hc => htl c (List.mem_of_mem_drop hc)
      have hlen : (tl.drop xn).length = tl.length - xn := List.length_drop _ _
      have hdne : tl.drop xn ≠ [] := by
        intro h
        have := congrArg List.length h
        simp only [List.length_drop, List.length_nil, List.length_cons] at this hxk
        omega
      have h1 := jsonInt_digits m _ hm1 hm9 htake '.' (tl.drop xn ++ ',' :: rest)
        digitVal_stops.2.1
      have h2 := jsonFrac_digits (digitsValue (Nat.digitChar m :: tl.take xn)) _ hdrop hdne
        ',' rest digitVal_stops.1
      have hv : digitsValue (Nat.digitChar m :: tl.take xn) * 10 ^ (tl.drop xn).length +
          digitsValue (tl.drop xn) = digitsValue (Nat.digitChar m :: tl) := by
        rw [← digitsValue_append _ _ htake hdrop, List.cons_append, List.take_append_drop]
      rw [hv] at h2
      rw [htext]
      have hp := parseNumber_parts (Nat.digitChar m)
        (tl.take xn ++ '.' :: (tl.drop xn ++ ',' :: rest))
        _ _ _ 0 _ _ _ hdash (by simpa using h1) h2 (hexp0 _)
      have hsc : ∀ v : Int, scaleDecimal v (tl.drop xn).length 0 =
          scaleDecimal v (Nat.digitChar m :: tl).length x := by
        intro v
        have hd1 : (((tl.drop xn).length : Nat) : Int) - 0 =
            (((Nat.digitChar m :: tl).length : Nat) : Int) - x := by
          simp only [List.length_cons, hlen] at hxk ⊢
          omega
        simp only [scaleDecimal, hd1]
      constructor
      · have := hp.1
        simp only [List.cons_append, List.append_assoc] at this ⊢
        rw [this, hsc]
      · have := hp.2
        simp only [List.cons_append, List.append_assoc] at this ⊢
        rw [this, hsc]
    · by_cases hb3 : -6 < x ∧ x ≤ 0
      · -- zeros between the point and the digits
        have htext : (formatDigits (Nat.digitChar m :: tl) x).data ++ ',' :: rest =
            '0' :: '.' :: ((List.replicate (-x).toNat '0' ++ Nat.digitChar m :: tl) ++
              ',' :: rest) := by
          simp only [formatDigits, hb1, hb2, hb3, and_self, if_true, if_false]
          simp
        have hall3 : ∀ c ∈ List.replicate (-x).toNat '0' ++ Nat.digitChar m :: tl,
            ∃ j, j < 10 ∧ c = Nat.digitChar j := by
          intro c hc
          rcases List.mem_append.mp hc with h | h
          · exact zeros_digitChar _ c h
          · exact hall c h
        have hne3 : List.replicate (-x).toNat '0' ++ Nat.digitChar m :: tl ≠ [] := by simp
        have h1 : ∀ r : List Char, jsonInt ('0' :: '.' :: r) = some (0, '.' :: r) :=
          fun _ => rfl
        have h2 := jsonFrac_digits 0 _ hall3 hne3 ',' rest digitVal_stops.1
        have hv : digitsValue (List.replicate (-x).toNat '0' ++ Nat.digitChar m :: tl) =
            digitsValue (Nat.digitChar m :: tl) := by
          rw [digitsValue_append _ _ (zeros_digitChar _) hall, digitsValue_zeros]
          simp
        rw [hv] at h2
        simp only [Nat.zero_mul, Nat.zero_add] at h2
        rw [htext]
        have hp := parseNumber_parts '0'
          ('.' :: ((List.replicate (-x).toNat '0' ++ Nat.digitChar m :: tl) ++ ',' :: rest))
          _ _ _ 0 _ _ _ (by decide) (h1 _) h2 (hexp0 _)
        have hsc : ∀ v : Int,
            scaleDecimal v (List.replicate (-x).toNat '0' ++ Nat.digitChar m :: tl).length 0 =
              scaleDecimal v (Nat.digitChar m :: tl).length x := by
          intro v
          have hd1 : (((List.replicate (-x).toNat '0' ++ Nat.digitChar m :: tl).length : Nat)
              : Int) - 0 = (((Nat.digitChar m :: tl).length : Nat) : Int) - x := by
            simp only [List.length_append, List.length_replicate, List.length_cons]
            omega
          simp only [scaleDecimal, hd1]
        constructor
        · rw [hp.1, hsc]
        · rw [hp.2, hsc]
      · -- an exponent part
        have hsh : ∀ v : Int, scaleDecimal v ((Nat.digitChar m :: tl).length - 1) (x - 1) =
            scaleDecimal v (Nat.digitChar m :: tl).length x :=
          fun v => scaleDecimal_shift v _ x (by simp)
        cases tl with
        | nil =>
          have htext : (formatDigits [Nat.digitChar m] x).data ++ ',' :: rest =
              Nat.digitChar m :: ([] ++ 'e' :: (if x - 1 < 0 then '-' else '+') ::
                (Nat.toDigits 10 (x - 1).natAbs ++ ',' :: rest)) := by
            simp only [formatDigits, hb1, hb2, hb3, and_self, if_true, if_false]
            simp
          have h1 := jsonInt_digits m [] hm1 hm9 hall 'e'
            ((if x - 1 < 0 then '-' else '+') ::
              (Nat.toDigits 10 (x - 1).natAbs ++ ',' :: rest)) digitVal_stops.2.2
          rw [htext]
          have hp := parseNumber_parts (Nat.digitChar m)
            ([] ++ 'e' :: (if x - 1 < 0 then '-' else '+') ::
                (Nat.toDigits 10 (x - 1).natAbs ++ ',' :: rest))
            _ _ 0 _ _ _ _ hdash (by simpa using h1) (hfrace _ _) (jsonExp_written (x - 1) rest)
          have hs1 := hsh
          simp only [List.length_singleton, Nat.sub_self] at hs1
          constructor
          · rw [hp.1, hs1]
            rfl
          · rw [hp.2, hs1]
            rfl
        | cons d2 tl2 =>
          have htext : (formatDigits (Nat.digitChar m :: d2 :: tl2) x).data ++ ',' :: rest =
              Nat.digitChar m :: ([] ++ '.' :: ((d2 :: tl2) ++
                'e' :: (if x - 1 < 0 then '-' else '+') ::
                (Nat.toDigits 10 (x - 1).natAbs ++ ',' :: rest))) := by
            simp only [formatDigits, hb1, hb2, hb3, and_self, if_true, if_false]
            simp
          have hone : ∀ c ∈ [Nat.digitChar m], ∃ j, j < 10 ∧ c = Nat.digitChar j := by
            intro c hc
            exact hall c (by simp at hc; rw [hc]; exact List.mem_cons_self _ _)
          have h1 := jsonInt_digits m [] hm1 hm9 hone '.'
            ((d2 :: tl2) ++ 'e' :: (if x - 1 < 0 then '-' else '+') ::
              (Nat.toDigits 10 (x - 1).natAbs ++ ',' :: rest)) digitVal_stops.2.1
          have h2 := jsonFrac_digits (digitsValue [Nat.digitChar m]) (d2 :: tl2) htl
            (by simp) 'e' ((if x - 1 < 0 then '-' else '+') ::
              (Nat.toDigits 10 (x - 1).natAbs ++ ',' :: rest)) digitVal_stops.2.2
          have hv : digitsValue [Nat.digitChar m] * 10 ^ (d2 :: tl2).length +
              digitsValue (d2 :: tl2) = digitsValue (Nat.digitChar m :: d2 :: tl2) := by
            rw [← digitsValue_append _ _ hone htl]
            rfl
          rw [hv] at h2
          rw [htext]
          have hp := parseNumber_parts (Nat.digitChar m)
            ([] ++ '.' :: ((d2 :: tl2) ++ 'e' :: (if x - 1 < 0 then '-' else '+') ::
                (Nat.toDigits 10 (x - 1).natAbs ++ ',' :: rest)))
            _ _ _ _ _ _ _ hdash (by simpa using h1) h2 (jsonExp_written (x - 1) rest)
          have hs1 := hsh
          simp only [List.length_cons, Nat.add_sub_cancel] at hs1
          constructor
          · rw [hp.1]
            simp only [List.length_cons] at hs1 ⊢
            rw [hs1]
          · rw [hp.2]
            simp only [List.length_cons] at hs1 ⊢
            rw [hs1]

/-- Rounding to binary64 commutes with negation. -/
theorem toBinary64_neg (m : Int) (e : Nat) :
    toBinary64 (.fin (-m) e) = (toBinary64 (.fin m e)).neg := by
  by_cases hm : m = 0
  · subst hm
    simp [toBinary64, JSNum.neg]
  · have h1 : ((-m == 0) = false) := by simpa using hm
    have h2 : ((m == 0) = false) := by simpa using hm
    simp only [toBinary64, h1, h2, Bool.false_eq_true, if_false, Int.natAbs_neg]
    cases nearest64 m.natAbs e with
    | none =>
      simp only [JSNum.neg]
      congr 1
      by_cases hlt : m < 0
      · have : ¬ (-m < 0) := by omega
        simp [hlt, this]
      · have : -m < 0 := by omega
        simp [hlt, this]
    | some p =>
      obtain ⟨n, E⟩ := p
      simp only []
      by_cases hlt : m < 0
      · have hn : ¬ (-m < 0) := by omega
        simp only [hlt, hn, if_true, if_false]
        split <;> split <;> simp [JSNum.neg]
      · have hn : -m < 0 := by omega
        simp only [hlt, hn, if_true, if_false]
        split <;> split <;> simp [JSNum.neg]

/-- Two numbers have the same value exactly when their negatives have. -/
theorem sameValue_neg (y : JSNum) (m : Int) (e : Nat) :
    y.neg.sameValue (.fin (-m) e) = y.sameValue (.fin m e) := by
  cases y with
  | nan => rfl
  | inf b => rfl
  | fin n f =>
    simp only [JSNum.neg, JSNum.sameValue]
    rw [Bool.eq_iff_iff]
    simp only [beq_iff_eq]
    constructor <;> intro h
    · have := congrArg (fun z => -z) h
      simpa using this
    · simp [h]

/-- The negative of a decimal is the decimal of the negative digits. -/
theorem scaleDecimal_neg (v : Int) (k : Nat) (x : Int) :
    scaleDecimal (-v) k x = (scaleDecimal v k x).neg := by
  unfold scaleDecimal
  simp only []
  split <;> simp [JSNum.neg]

/-- The parser reads a text that starts with a digit as a number. -/
theorem parseJ_digit (f : Nat) (j : Nat) (hj : j < 10) (tl : List Char) :
    parseJ (f + 1) .value (Nat.digitChar j :: tl) =
      (parseNumber (Nat.digitChar j :: tl)).map (fun p => (Json.num p.1, p.2)) := by
  interval_cases j <;> rfl

/-- The parser reads a text that starts with a minus sign as a number. -/
theorem parseJ_minus (f : Nat) (tl : List Char) :
    parseJ (f + 1) .value ('-' :: tl) =
      (parseNumber ('-' :: tl)).map (fun p => (Json.num p.1, p.2)) := rfl

/-- The decimal rendering of a positive number, put in front of `ds`, starts with a digit
other than 0. -/
theorem toDigitsCore_head (fuel : Nat) : ∀ (n : Nat) (ds : List Char), n < fuel → 0 < n →
    ∃ j tl, 1 ≤ j ∧ j < 10 ∧ Nat.toDigitsCore 10 fuel n ds = Nat.digitChar j :: tl := by
  induction fuel with
  | zero => intro n ds h; omega
  | succ f ih =>
    intro n ds hn h0
    simp only [Nat.toDigitsCore]
    split
    · next hz =>
      exact ⟨n % 10, ds, by omega, Nat.mod_lt _ (by decide), rfl⟩
    · next hz =>
      exact ih (n / 10) _ (by omega) (by omega)

/-- The digits of a positive number without the zeros at the end start with a digit other
than 0. -/
theorem stripZeros_head (s : Nat) (hs : 0 < s) :
    ∃ j tl, 1 ≤ j ∧ j < 10 ∧ (stripZeros (Nat.toDigits 10 s)).1 = Nat.digitChar j :: tl := by
  obtain ⟨j, tl, hj1, hj9, hd⟩ := toDigitsCore_head (s + 1) s [] (Nat.lt_succ_self s) hs
  have hd' : Nat.toDigits 10 s = Nat.digitChar j :: tl := hd
  have happ := (stripZeros_append (Nat.toDigits 10 s)).1
  rw [hd'] at happ ⊢
  cases hc : (stripZeros (Nat.digitChar j :: tl)).1 with
  | nil =>
    rw [hc] at happ
    simp only [List.nil_append] at happ
    cases hz : (stripZeros (Nat.digitChar j :: tl)).2 with
    | zero => rw [hz] at happ; simp at happ
    | succ z =>
      rw [hz, List.replicate_succ] at happ
      have h0 : '0' = Nat.digitChar j := (List.cons.inj happ).1
      have hne : ∀ i, 1 ≤ i → i < 10 → Nat.digitChar i ≠ '0' := by
        intro i h1 h9
        interval_cases i <;> decide
      exact absurd h0.symm (hne j hj1 hj9)
  | cons c rest =>
    rw [hc] at happ
    have h0 : c = Nat.digitChar j := (List.cons.inj happ).1
    exact ⟨j, rest, hj1, hj9, by rw [h0]⟩

/-- No digits are not read back as a positive value. -/
theorem readsAs_nil (a e : Nat) (x : Int) (ha : 0 < a) : readsAs a e ([], x) = false := by
  simp only [readsAs, digitsValue, readDigits, scaleDecimal, List.length_nil]
  split
  · simp only [toBinary64, JSNum.sameValue]
    simp
    omega
  · simp only [Nat.cast_zero, zero_mul, toBinary64, JSNum.sameValue]
    simp
    omega

/-- The digits written for a positive binary64 value in lowest terms are digits, start
with a digit other than 0 and are read back as the value. -/
theorem shortestDigits_spec (a e : Nat) (ha : 0 < a) (hlow : e = 0 ∨ a % 10 ≠ 0)
    (hexact : toBinary64 (.fin (a : Int) e) = .fin (a : Int) e) :
    (∃ j tl, 1 ≤ j ∧ j < 10 ∧ (shortestDigits a e).1 = Nat.digitChar j :: tl) ∧
    (∀ c ∈ (shortestDigits a e).1, ∃ m, m < 10 ∧ c = Nat.digitChar m) ∧
    readsAs a e (shortestDigits a e) = true := by
  rcases shortestDigits_cases a e with hc | ⟨k, s, hk1, hkL, hs, hc, hr⟩
  · rw [hc]
    obtain ⟨-, -, -, halla, -⟩ := toDigits_read a
    refine ⟨stripZeros_head a ha, stripZeros_digitChar _ halla, ?_⟩
    have hv := digitsValue_stripZeros a
    simp only [readsAs]
    have hsc : scaleDecimal ((digitsValue (stripZeros (Nat.toDigits 10 a)).1 : Nat) : Int)
        (stripZeros (Nat.toDigits 10 a)).1.length
        (((stripZeros (Nat.toDigits 10 a)).1.length : Int) +
          (stripZeros (Nat.toDigits 10 a)).2 - e) = .fin (a : Int) e := by
      rcases hlow with he | hmod
      · subst he
        rw [scaleDecimal_int _ _ _ (by omega)]
        have hx : ((((stripZeros (Nat.toDigits 10 a)).1.length : Int) +
            (stripZeros (Nat.toDigits 10 a)).2 - ((0 : Nat) : Int)) -
            ((stripZeros (Nat.toDigits 10 a)).1.length : Int)).toNat =
              (stripZeros (Nat.toDigits 10 a)).2 := by omega
        rw [hx]
        simp only [scaleDecimal]
        simp only [Nat.cast_zero, sub_self, le_refl, if_true, Int.toNat_zero]
        congr 1
        exact_mod_cast hv
      · have ht : (stripZeros (Nat.toDigits 10 a)).2 = 0 := by
          by_contra hne
          obtain ⟨z, hz⟩ : ∃ z, (stripZeros (Nat.toDigits 10 a)).2 = z + 1 :=
            ⟨(stripZeros (Nat.toDigits 10 a)).2 - 1, by omega⟩
          rw [hz, pow_succ, ← Nat.mul_assoc] at hv
          omega
        rw [ht] at hv ⊢
        simp only [pow_zero, Nat.mul_one] at hv
        rw [hv]
        simp only [scaleDecimal]
        have hd : (((stripZeros (Nat.toDigits 10 a)).1.length : Int) -
            (((stripZeros (Nat.toDigits 10 a)).1.length : Int) + ((0 : Nat) : Int) - (e : Int))) =
            (e : Int) := by omega
        rw [hd]
        simp
    rw [hsc, hexact]
    simp [JSNum.sameValue]
  · have hs0 : 0 < s := by
      by_contra hcon
      have hs0' : s = 0 := by omega
      rw [hc, hs0'] at hr
      have hnil : normalForm 0 k (((stripZeros (Nat.toDigits 10 a)).1.length : Int) +
          (stripZeros (Nat.toDigits 10 a)).2 - e) =
          ([], ((stripZeros (Nat.toDigits 10 a)).1.length : Int) +
            (stripZeros (Nat.toDigits 10 a)).2 - e + (Nat.toDigits 10 0).length - k) := rfl
      rw [hnil, readsAs_nil a e _ ha] at hr
      exact absurd hr (by decide)
    obtain ⟨-, -, -, halls, -⟩ := toDigits_read s
    rw [hc] at hr ⊢
    exact ⟨stripZeros_head s hs0, stripZeros_digitChar _ halls, hr⟩

/-- The text written for digits starts with a digit. -/
theorem formatDigits_head (m : Nat) (tl : List Char) (hm9 : m < 10) (x : Int) :
    ∃ i tl2, i < 10 ∧ (formatDigits (Nat.digitChar m :: tl) x).data = Nat.digitChar i :: tl2 := by
  by_cases hb1 : (((Nat.digitChar m :: tl).length : Nat) : Int) ≤ x ∧ x ≤ 21
  · refine ⟨m, tl ++ List.replicate (x - (Nat.digitChar m :: tl).length).toNat '0', hm9, ?_⟩
    unfold formatDigits
    simp only []
    rw [if_pos hb1]
    rfl
  · by_cases hb2 : 0 < x ∧ x ≤ 21
    · obtain ⟨xn, hxn⟩ : ∃ xn : Nat, x.toNat = xn + 1 := ⟨x.toNat - 1, by omega⟩
      refine ⟨m, tl.take xn ++ '.' :: tl.drop xn, hm9, ?_⟩
      unfold formatDigits
      simp only []
      rw [if_neg hb1, if_pos hb2]
      simp [hxn]
    · by_cases hb3 : -6 < x ∧ x ≤ 0
      · refine ⟨0, '.' :: List.replicate (-x).toNat '0' ++ Nat.digitChar m :: tl, by decide, ?_⟩
        unfold formatDigits
        simp only []
        rw [if_neg hb1, if_neg hb2, if_pos hb3]
        rfl
      · cases tl with
        | nil =>
          refine ⟨m, 'e' :: (if x - 1 < 0 then '-' else '+') :: Nat.toDigits 10 (x - 1).natAbs,
            hm9, ?_⟩
          unfold formatDigits
          simp only []
          rw [if_neg hb1, if_neg hb2, if_neg hb3]
        | cons d2 tl2 =>
          refine ⟨m, '.' :: (d2 :: tl2) ++
            'e' :: (if x - 1 < 0 then '-' else '+') :: Nat.toDigits 10 (x - 1).natAbs, hm9, ?_⟩
          unfold formatDigits
          simp only []
          rw [if_neg hb1, if_neg hb2, if_neg hb3]
          simp

/-- A decimal is a decimal. -/
theorem scaleDecimal_fin (v : Int) (k : Nat) (x : Int) :
    ∃ m e, scaleDecimal v k x = .fin m e := by
  unfold scaleDecimal
  simp only []
  split
  · exact ⟨_, _, rfl⟩
  · exact ⟨_, _, rfl⟩

/-- The text written for a finite number other than 0 is read back by the JSON parser as a
number of the same value. -/
theorem parseJ_numToString (m : Int) (e : Nat) (hx : (JSNum.fin m e).isFinite64 = true) :
    ∃ y, (∀ f rest, parseJ (f + 1) .value ((numToString (.fin m e)).toList ++ ',' :: rest) =
        some (.num y, ',' :: rest)) ∧
      y.sameValue (.fin m e) = true := by
  simp only [JSNum.isFinite64, Bool.and_eq_true, bne_iff_ne, ne_eq, Bool.or_eq_true,
    beq_iff_eq] at hx
  obtain ⟨⟨hm0, hlow⟩, hexact⟩ := hx
  have hne : ((m == 0) = false) := by simpa using hm0
  have ha : 0 < m.natAbs := Int.natAbs_pos.mpr hm0
  have hlowa : e = 0 ∨ m.natAbs % 10 ≠ 0 := by
    rcases hlow with h | h
    · exact Or.inl h
    · right
      omega
  by_cases hneg : m < 0
  · have hma : m = -((m.natAbs : Nat) : Int) := by omega
    have hexa : toBinary64 (.fin ((m.natAbs : Nat) : Int) e) = .fin ((m.natAbs : Nat) : Int) e := by
      have h := toBinary64_neg ((m.natAbs : Nat) : Int) e
      rw [← hma, hexact] at h
      cases hb : toBinary64 (.fin ((m.natAbs : Nat) : Int) e) with
      | nan => rw [hb] at h; simp [JSNum.neg] at h
      | inf b => rw [hb] at h; simp [JSNum.neg] at h
      | fin n g =>
        rw [hb] at h
        simp only [JSNum.neg, JSNum.fin.injEq] at h
        obtain ⟨h1, h2⟩ := h
        rw [← h2]
        congr 1
        omega
    obtain ⟨⟨j, tl, hj1, hj9, hds⟩, hall, hr⟩ := shortestDigits_spec m.natAbs e ha hlowa hexa
    rw [hds] at hall
    refine ⟨toBinary64 (scaleDecimal (-((digitsValue (Nat.digitChar j :: tl) : Nat) : Int))
      (Nat.digitChar j :: tl).length (shortestDigits m.natAbs e).2), fun f rest => ?_, ?_⟩
    · have hpn :=
        (parseNumber_formatDigits j tl hj1 hj9 hall (shortestDigits m.natAbs e).2 rest).2
      have htext : (numToString (.fin m e)).toList ++ ',' :: rest =
          '-' :: ((formatDigits (Nat.digitChar j :: tl) (shortestDigits m.natAbs e).2).data ++
            ',' :: rest) := by
        simp only [numToString, hexact, hne, Bool.false_eq_true, if_false, hneg, if_true,
          positiveToString, hds]
        simp [String.toList]
      rw [htext, parseJ_minus, hpn]
      rfl
    · simp only [readsAs, hds] at hr
      obtain ⟨m2, e2, hsc⟩ :=
        scaleDecimal_fin ((digitsValue (Nat.digitChar j :: tl) : Nat) : Int)
          (Nat.digitChar j :: tl).length (shortestDigits m.natAbs e).2
      rw [scaleDecimal_neg, hsc, JSNum.neg, toBinary64_neg]
      rw [hsc] at hr
      rw [hma, sameValue_neg]
      exact hr
  · have hma : m = ((m.natAbs : Nat) : Int) := by omega
    have hexa : toBinary64 (.fin ((m.natAbs : Nat) : Int) e) = .fin ((m.natAbs : Nat) : Int) e := by
      rw [← hma]
      exact hexact
    obtain ⟨⟨j, tl, hj1, hj9, hds⟩, hall, hr⟩ := shortestDigits_spec m.natAbs e ha hlowa hexa
    rw [hds] at hall
    refine ⟨toBinary64 (scaleDecimal ((digitsValue (Nat.digitChar j :: tl) : Nat) : Int)
      (Nat.digitChar j :: tl).length (shortestDigits m.natAbs e).2), fun f rest => ?_, ?_⟩
    · have hpn :=
        (parseNumber_formatDigits j tl hj1 hj9 hall (shortestDigits m.natAbs e).2 rest).1
      obtain ⟨i, tl2, hi, hhead⟩ := formatDigits_head j tl hj9 (shortestDigits m.natAbs e).2
      have htext : (numToString (.fin m e)).toList ++ ',' :: rest =
          (formatDigits (Nat.digitChar j :: tl) (shortestDigits m.natAbs e).2).data ++
            ',' :: rest := by
        simp only [numToString, hexact, hne, Bool.false_eq_true, if_false, hneg,
          positiveToString, hds]
        rfl
      rw [htext]
      have hd : parseJ (f + 1) .value
          ((formatDigits (Nat.digitChar j :: tl) (shortestDigits m.natAbs e).2).data ++
            ',' :: rest) =
          (parseNumber
            ((formatDigits (Nat.digitChar j :: tl) (shortestDigits m.natAbs e).2).data ++
              ',' :: rest)).map (fun p => (Json.num p.1, p.2)) := by
        rw [hhead, List.cons_append]
        exact parseJ_digit f i hi _
      rw [hd, hpn]
      rfl
    · simp only [readsAs, hds] at hr
      rw [hma]
      exact hr

/-- An accepted id passes the truthiness test of order creation, and the text
`JSON.stringify` writes for it is read back by the JSON parser as the same value. -/
theorem acceptedId_text (v : JSVal) (hv : acceptedId v = true) :
    truthy v = true ∧
    ∃ t J, stringifyVal v = some t ∧
      (∀ f rest, parseJ (f + 1) .value (t ++ ',' :: rest) = some (J, ',' :: rest)) ∧
      J.isValue v = true ∧ (∀ s, v = .str s → J = .str s) := by
  cases v with
  | undefined => simp [acceptedId] at hv
  | null => simp [acceptedId] at hv
  | bool b =>
    simp only [acceptedId] at hv
    subst hv
    exact ⟨rfl, "true".toList, .bool true, rfl, fun f rest => parseJ_true f _, rfl,
      fun s h => by cases h⟩
  | str s =>
    simp only [acceptedId] at hv
    exact ⟨hv, quoteJSON s, .str s, rfl, fun f rest => parseJ_quoteJSON s f _,
      by simp [Json.isValue], fun t h => by cases h; rfl⟩
  | num x =>
    cases x with
    | nan => simp [acceptedId, JSNum.isFinite64] at hv
    | inf b => simp [acceptedId, JSNum.isFinite64] at hv
    | fin m e =>
      simp only [acceptedId] at hv
      have hx := hv
      simp only [JSNum.isFinite64, Bool.and_eq_true, bne_iff_ne, ne_eq, Bool.or_eq_true,
        beq_iff_eq] at hx
      obtain ⟨⟨hm0, -⟩, hexact⟩ := hx
      obtain ⟨y, hp, hs⟩ := parseJ_numToString m e hv
      refine ⟨?_, (numToString (.fin m e)).toList, .num y, ?_, hp, ?_, fun s h => by cases h⟩
      · simp [truthy, hexact, JSNum.isNaN, JSNum.isZero, hm0]
      · simp [stringifyVal, hexact]
      · simp [Json.isValue, hexact, hs]

/-- Claim C11 fails as stated: the positive integer quantity 10^21 is accepted by order
creation (with the amount 10^-21 the order value is "1.00"), is written into the metadata
as "1e+21", is recovered as that text, and `parseInt` reads it as 1. -/
theorem quantity_1e21_round_trips_to_1 :
    missingFields { amount := .num (.fin 1 21), quantity := .num (.fin 1000000000000000000000 0),
                    eventName := .str "Concert", userId := .str "u1", eventId := .str "e1" }
      = false ∧
    (orderRequest none
        { amount := .num (.fin 1 21), quantity := .num (.fin 1000000000000000000000 0),
          eventName := .str "Concert", userId := .str "u1", eventId := .str "e1" }).value
      = "1.00" ∧
    (decodeCustomId (some (stringifyCustomId (orderRequest none
        { amount := .num (.fin 1 21), quantity := .num (.fin 1000000000000000000000 0),
          eventName := .str "Concert", userId := .str "u1",
          eventId := .str "e1" }).customId))).toMetadata
      = some (.obj (some "e1") (some "u1") (.str "1e+21")) ∧
    seatCount (.str "1e+21") = some 1 := by
  decide

/-- Claim C11 as amended: for every userId and eventId that is a non-empty string, `true`
or a finite number other than 0, and every positive integer quantity below 10^21 that is
a binary64 value, decoding at capture the custom_id text that order creation serialised
gives an object with the same userId and eventId and with a quantity text that `parseInt`
reads as the quantity; and when the ids are strings, a completed capture that creates a
booking from this metadata gives it that number of seats. -/
theorem metadata_round_trip (origin : Option String) (b : OrderBody) (n : Nat)
    (hu : acceptedId b.userId = true) (he : acceptedId b.eventId = true)
    (hq : b.quantity = .num (.fin (n : Int) 0)) (h0 : 0 < n) (h21 : n < 10 ^ 21)
    (hn : toBinary64 (.fin (n : Int) 0) = .fin (n : Int) 0) :
    ∃ ju je q,
      decodeCustomId (some (stringifyCustomId (orderRequest origin b).customId)) =
        .obj [("userId", ju), ("eventId", je), ("quantity", .str q)] ∧
      ju.isValue b.userId = true ∧ je.isValue b.eventId = true ∧
      parseInt q = some (n : Int) ∧ seatCount (.str q) = some (n : Int) ∧
      ∀ u e, b.userId = .str u → b.eventId = .str e →
        (decodeCustomId (some (stringifyCustomId (orderRequest origin b).customId))).toMetadata
          = some (.obj (some e) (some u) (.str q)) ∧
        ∀ (o : JSVal) (r : CaptureResult) (s : Store), truthy o = true →
          r.status = "COMPLETED" →
          r.metadata = .obj (some e) (some u) (.str q) →
          (capturedAmount r.amountValue).isNaN = false →
          (∀ x, findLatest s.bookings (some e) (some u) = some x → x.paymentStatus ≠ "paid") →
          (capture true o (.result r) s).1.booking =
            some (paidBooking (freshId s.bookings) (some e) (some u) (n : Int)
              (capturedAmount r.amountValue)) := by
  obtain ⟨-, tu, ju, hsu, hpu, hiu, hstru⟩ := acceptedId_text b.userId hu
  obtain ⟨-, te, je, hse, hpe, hie, hstre⟩ := acceptedId_text b.eventId he
  have hpi : parseInt (numToString (.fin (n : Int) 0)) = some (n : Int) :=
    parseInt_numToString n h0 h21 hn
  have hseat : seatCount (.str (numToString (.fin (n : Int) 0))) = some (n : Int) := by
    have hne : (numToString (.fin (n : Int) 0) != "") = true := by
      simp only [bne_iff_ne, ne_eq]
      intro h
      rw [h] at hpi
      have hemp : parseInt "" = none := by decide
      rw [hemp] at hpi
      cases hpi
    simp only [seatCount, truthy, hne, if_true, toStr]
    exact hpi
  have hcid : (orderRequest origin b).customId =
      { userId := b.userId, eventId := b.eventId,
        quantity := numToString (.fin (n : Int) 0) } := by
    simp only [orderRequest, hq, toStr]
  have hdec : decodeCustomId (some (stringifyCustomId (orderRequest origin b).customId)) =
      .obj [("userId", ju), ("eventId", je),
        ("quantity", .str (numToString (.fin (n : Int) 0)))] := by
    have hne : (stringifyCustomId (orderRequest origin b).customId != "") = true := by
      simpa using stringifyCustomId_ne_empty _
    simp only [decodeCustomId, hne, if_true]
    rw [hcid, jsonParse_customId _ tu te ju je hsu hse hpu hpe]
  refine ⟨ju, je, numToString (.fin (n : Int) 0), hdec, hiu, hie, hpi, hseat, ?_⟩
  intro u e hbu hbe
  have hju := hstru u hbu
  have hje := hstre e hbe
  refine ⟨?_, ?_⟩
  · rw [hdec, hju, hje]
    simp [Json.toMetadata, Json.prop, refOf, scalarOf]
  · intro o r s ho hs hm ht hnew
    rw [capture_completed o r (some e) (some u) _ s ho hs hm]
    have hcb : createBooking allResolve r (some e) (some u)
        (.str (numToString (.fin (n : Int) 0))) s =
        (.created r.id r.status
            (paidBooking (freshId s.bookings) (some e) (some u) (n : Int)
              (capturedAmount r.amountValue)) r.metadata,
          { events := addSeats s.events (some e) (n : Int),
            bookings := paidBooking (freshId s.bookings) (some e) (some u) (n : Int)
              (capturedAmount r.amountValue) :: s.bookings }) := by
      simp [createBooking_resolves, hseat, ht]
    cases hf : findLatest s.bookings (some e) (some u) with
    | none => simp [hcb, CaptureResponse.booking]
    | some x => simp [hnew x hf, hcb, CaptureResponse.booking]

/-- Claim C11 as amended, at the string userId "u1", the numeric eventId 2.5 and the
quantity 3: the decoded object holds both ids and a quantity text that reads as 3. -/
theorem metadata_round_trip_witness :
    acceptedId (.str "u1") = true ∧ acceptedId (.num (.fin 25 1)) = true ∧
    toBinary64 (.fin 3 0) = .fin 3 0 ∧
    ∃ ju je q,
      decodeCustomId (some (stringifyCustomId (orderRequest none
        { amount := .num (.fin 10 0), quantity := .num (.fin 3 0),
          eventName := .str "Concert", userId := .str "u1",
          eventId := .num (.fin 25 1) }).customId)) =
        .obj [("userId", ju), ("eventId", je), ("quantity", .str q)] ∧
      ju.isValue (.str "u1") = true ∧ je.isValue (.num (.fin 25 1)) = true ∧
      parseInt q = some 3 ∧ seatCount (.str q) = some 3 := by
  obtain ⟨ju, je, q, h1, h2, h3, h4, h5, -⟩ := metadata_round_trip none
    { amount := .num (.fin 10 0), quantity := .num (.fin 3 0),
      eventName := .str "Concert", userId := .str "u1", eventId := .num (.fin 25 1) }
    3 (by decide) (by decide) rfl (by decide) (by decide) (by decide)
  exact ⟨by decide, by decide, by decide, ju, je, q, h1, h2, h3, h4, h5⟩

/-- The quantity 2^53 + 1 is not a binary64 value: the handler receives 2^53, writes
"9007199254740992" into the metadata, and the booking gets that number of seats; the
quantity 2^69 is written "590295810358705700000" and read back as that integer, which
is again 2^69 after rounding. -/
theorem quantity_rounded_to_binary64 :
    toStr (.num (.fin 9007199254740993 0)) = "9007199254740992" ∧
    seatCount (.str (toStr (.num (.fin 9007199254740993 0)))) = some 9007199254740992 ∧
    toStr (.num (.fin 590295810358705651712 0)) = "590295810358705700000" ∧
    seatCount (.str (toStr (.num (.fin 590295810358705651712 0)))) =
      some 590295810358705651712 := by
  decide

end EventBooking
